import Mathlib

/-!
# Auction backend: sale settlement, registration and bulk budget

A shallow embedding of the Express/Mongoose routes of the repository.

* Request bodies are JSON values (`JVal`): a scalar, or an object whose fields are
  scalars (`_id`, `name`, `amount`, ... are scalars in every request the routes expect).
  The sale route is embedded also on bodies whose `player._id`, `team._id` and
  `leader._id` are objects (`JDeep`, `soldPlayerRoutes_postDeep`), which `express.json()`
  lets through; the two embeddings agree on the bodies of scalars.
* The three Mongoose collections (`Player`, `Leader`, `SoldPlayer`), the objects of the
  storage bucket and the Socket.IO broadcasts form the explicit state `Store`.
* A route handler is a function `Env → Store → request → Response × Store`.
* The Mongoose operations are modelled with the library's default settings: documents are
  cast and validated against the schemas of `src/models` on `save`, updates are cast
  against the schema and drop the paths the schema does not declare (strict mode), a key
  whose value is `undefined` is removed from an update, and update validators are off.
* JavaScript built-ins that work on text (`Number`, `parseInt`, `parseFloat`, `Date`,
  `encodeURIComponent`, `RegExp`) and the failures of the external services are fields
  of the environment `Env`.
* Requests served concurrently are modelled for the sale route: a submission is a task
  (`SaleTask`) that makes one database operation per step, the steps of several tasks
  being interleaved by a schedule.
* The paginated listings `getPlayers` and `getLeaders` are queries the server runs as
  sort, skip, limit.
* Numbers are integers; object ids are strings and every string is accepted as an id.
  The bookkeeping fields Mongoose maintains by itself (`__v`, `createdAt`, `updatedAt`)
  are not represented.
-/

namespace Auction

/-! ## JSON values and JavaScript coercions -/

/-- JSON scalar. -/
inductive Prim where
  | null
  | bool (b : Bool)
  | num (n : Int)
  | str (s : String)
  deriving DecidableEq, Repr

/-- Value of a request field: absent (`undefined`), a scalar, or an object of scalars.
The first binding of a key is the one an object holds. -/
inductive JVal where
  | undefined
  | prim (p : Prim)
  | obj (fields : List (String × Prim))
  deriving DecidableEq, Repr

/-- JavaScript truthiness of a scalar: `null`, `false`, `0` and `''` are falsy. -/
def Prim.truthy : Prim → Bool
  | .null => false
  | .bool b => b
  | .num n => n != 0
  | .str s => s != ""

/-- JavaScript truthiness: `undefined` is falsy, every object is truthy. -/
def JVal.truthy : JVal → Bool
  | .undefined => false
  | .prim p => p.truthy
  | .obj _ => true

/-- Property read `v.key`. Every read in the routes is guarded by a truthiness test of
`v`, so `v` is never `null` or `undefined` there; a scalar has none of the keys read. -/
def JVal.get (v : JVal) (key : String) : JVal :=
  match v with
  | .obj fields =>
    match fields.lookup key with
    | some p => .prim p
    | none => .undefined
  | _ => .undefined

/-- JavaScript `a || b`. -/
def JVal.orElse (a b : JVal) : JVal :=
  if a.truthy then a else b

/-- Calendar date as `getFullYear()`, `getMonth()` and `getDate()` report it. -/
structure JsDate where
  year : Int
  month : Nat
  date : Nat
  deriving DecidableEq, Repr

/-! ## Documents (src/models) -/

/-- Document of the `Player` collection (src/models/Player.js). -/
structure PlayerDoc where
  _id : String
  name : Option String
  dob : Option JsDate
  age : Option Int
  category : Option String
  profilePhoto : Option String
  serialNo : Int
  village : Option String
  mobileNo : Option String
  password : Option String
  battingStyle : Option String
  bowlingStyle : Option String
  economicallyWeaker : Option String
  soldTo : Option String
  isSold : Bool
  soldPrice : Option Int
  soldAt : Option JsDate
  teamName : Option String
  soldDate : Option String
  soldTime : Option String
  status : String
  basePrice : Int
  deriving DecidableEq, Repr

/-- Document of the `Leader` collection (src/models/Leader.js); `players` is an array of
object ids. -/
structure LeaderDoc where
  _id : String
  teamName : Option String
  leaderName : Option String
  leaderVillage : Option String
  leaderMobileNo : Option String
  password : Option String
  iconPlayer : Option String
  iconPlayerMobileNo : Option String
  teamLogo : Option String
  teamNumber : Int
  maxAmount : Int
  players : List String
  deriving DecidableEq, Repr

/-- Nested path `player` of soldPlayerSchema. -/
structure PlayerSnapshot where
  id : String
  name : String
  category : String
  basePrice : Int
  profilePhoto : Option String
  deriving DecidableEq, Repr

/-- Nested path `team` of soldPlayerSchema. -/
structure TeamSnapshot where
  id : String
  name : String
  logo : Option String
  deriving DecidableEq, Repr

/-- Nested path `leader` of soldPlayerSchema. -/
structure LeaderSnapshot where
  name : String
  deriving DecidableEq, Repr

/-- Nested path `saleDetails` of soldPlayerSchema. -/
structure SaleDetails where
  amount : Int
  date : Option JsDate
  deriving DecidableEq, Repr

/-- Document of the `SoldPlayer` collection, the sale ledger (src/models/SoldPlayer.js). -/
structure SoldPlayerDoc where
  _id : String
  player : PlayerSnapshot
  team : TeamSnapshot
  leader : LeaderSnapshot
  saleDetails : SaleDetails
  deriving DecidableEq, Repr

/-! ## State, environment and responses -/

/-- Call made to the storage bucket: a save that stored the object, or a delete, whether
it removed the object or failed. -/
inductive BucketCall where
  | save (objectName : String)
  | delete (objectName : String)
  deriving DecidableEq, Repr

/-- Socket.IO broadcast. -/
inductive Event where
  | newPlayer (p : PlayerDoc)
  | newLeader (l : LeaderDoc)
  deriving DecidableEq, Repr

/-- Persistent state: the three collections, the objects held by the bucket, the calls
made to the bucket and the events broadcast so far (oldest first). -/
structure Store where
  players : List PlayerDoc
  leaders : List LeaderDoc
  soldPlayers : List SoldPlayerDoc
  bucket : List String
  bucketCalls : List BucketCall
  emitted : List Event
  deriving DecidableEq, Repr

/-- Store with no document, no object and no event. -/
def Store.empty : Store :=
  { players := [], leaders := [], soldPlayers := [], bucket := [], bucketCalls := [],
    emitted := [] }

/-- Database operation that can fail for a reason outside the program. -/
inductive DbOp where
  | soldPlayerFindOne
  | soldPlayerSave
  | playerFind
  | playerCount
  | playerSave
  | playerUpdate
  | playerDelete
  | leaderFind
  | leaderCount
  | leaderSave
  | leaderUpdate
  | leaderUpdateMany
  | leaderDelete
  deriving DecidableEq, Repr

/-- What one request sees of the outside world. -/
structure Env where
  /-- Result of `new Date()`. -/
  today : JsDate
  /-- Result of `Date.now()`. -/
  nowMs : Nat
  /-- Object id given to a document created by this request. -/
  newId : String
  /-- JavaScript `Number(s)` on text; `none` is `NaN`. -/
  toNumber : String → Option Int
  /-- JavaScript `parseInt(s)`; `none` is `NaN`. -/
  parseInt : String → Option Int
  /-- JavaScript `parseFloat(s)`; `none` is `NaN`. -/
  parseFloat : String → Option Int
  /-- JavaScript `new Date(v)`; `none` is an invalid date. -/
  newDate : Prim → Option JsDate
  /-- JavaScript `encodeURIComponent`. -/
  encodeURIComponent : String → String
  /-- JavaScript `decodeURIComponent`; `none` is a thrown `URIError`. -/
  decodeURIComponent : String → Option String
  /-- The test of the case-insensitive regular expression `new RegExp(source, 'i')`;
  `none` is a thrown `SyntaxError`. -/
  regexTestCI : String → Option (String → Bool)
  /-- Name of the storage bucket. -/
  bucketName : String
  /-- Whether a database operation fails. -/
  dbFails : DbOp → Bool
  /-- Whether storing an object in the bucket fails. -/
  bucketSaveFails : Bool
  /-- Whether deleting an object from the bucket fails. -/
  bucketDeleteFails : Bool

/-- Body of an HTTP response. -/
inductive Payload where
  | message (m : String)
  | failure (details : String)
  | soldPlayer (d : SoldPlayerDoc)
  | player (p : Option PlayerDoc)
  | leader (l : Option LeaderDoc)
  | playerRegistered (p : PlayerDoc)
  | leaderRegistered (l : LeaderDoc)
  deriving DecidableEq, Repr

/-- HTTP response: status code and body. -/
structure Response where
  status : Nat
  body : Payload
  deriving DecidableEq, Repr

/-! ## Mongoose casting and validation -/

/-- Mongoose cast to `String`; `ok none` is a value left `null` or unset. An object is
cast through its textual `_id` only. -/
def castString : JVal → Except String (Option String)
  | .undefined => .ok none
  | .prim .null => .ok none
  | .prim (.bool b) => .ok (some (if b then "true" else "false"))
  | .prim (.num n) => .ok (some (toString n))
  | .prim (.str s) => .ok (some s)
  | .obj fields =>
    match fields.lookup "_id" with
    | some (.str s) => if s != "" then .ok (some s) else .error "Cast to string failed"
    | _ => .error "Cast to string failed"

/-- Mongoose cast to `Number`: `''` becomes `null`, text and booleans go through
`Number(...)`, and `NaN` or an object is a cast error. -/
def castNumber (env : Env) : JVal → Except String (Option Int)
  | .undefined => .ok none
  | .prim .null => .ok none
  | .prim (.bool b) => .ok (some (if b then 1 else 0))
  | .prim (.num n) => .ok (some n)
  | .prim (.str s) =>
    if s == "" then .ok none
    else
      match env.toNumber s with
      | some n => .ok (some n)
      | none => .error "Cast to Number failed"
  | .obj _ => .error "Cast to Number failed"

/-- Mongoose cast to `ObjectId`: text is taken as the id, a number or a boolean is not an
id, and an object is cast through its `_id`. -/
def castObjectId : JVal → Except String (Option String)
  | .undefined => .ok none
  | .prim .null => .ok none
  | .prim (.str s) => .ok (some s)
  | .prim (.bool _) => .error "Cast to ObjectId failed"
  | .prim (.num _) => .error "Cast to ObjectId failed"
  | .obj fields =>
    match fields.lookup "_id" with
    | some (.str s) => if s != "" then .ok (some s) else .error "Cast to ObjectId failed"
    | _ => .error "Cast to ObjectId failed"

/-- Mongoose cast to `Date` through `new Date(...)`: `null` and `''` become `null`, an
invalid date is a cast error. -/
def castDate (env : Env) : JVal → Except String (Option JsDate)
  | .undefined => .ok none
  | .prim .null => .ok none
  | .prim p =>
    if p = .str "" then .ok none
    else
      match env.newDate p with
      | some d => .ok (some d)
      | none => .error "Cast to date failed"
  | .obj _ => .error "Cast to date failed"

/-- The `required: true` validator: the cast value must not be `null` or unset. -/
def required {α : Type} (path : String) : Except String (Option α) → Except String α
  | .error e => .error e
  | .ok none => .error ("Path " ++ path ++ " is required.")
  | .ok (some a) => .ok a

/-- The `required: true` validator of a `String` path, which also refuses `''`. -/
def requiredString (path : String) : Except String (Option String) → Except String String
  | .error e => .error e
  | .ok none => .error ("Path " ++ path ++ " is required.")
  | .ok (some s) => if s == "" then .error ("Path " ++ path ++ " is required.") else .ok s

/-- The `enum` validator: a value that is set must be one of the listed ones. -/
def enumOf (path : String) (allowed : List String) :
    Except String (Option String) → Except String (Option String)
  | .error e => .error e
  | .ok none => .ok none
  | .ok (some s) =>
    if allowed.contains s then .ok (some s)
    else .error (s ++ " is not a valid enum value for path " ++ path)

/-! ## The sale ledger (src/models/SoldPlayer.js, src/routes/soldPlayerRoutes.js) -/

/-- Argument of `new SoldPlayer(...)`: the value given for each top-level path. -/
structure RawSoldPlayer where
  player : JVal
  team : JVal
  leader : JVal
  saleDetails : JVal
  deriving DecidableEq, Repr

/-- Building and validating a `SoldPlayer` document (`new SoldPlayer(raw)` followed by the
validation `save()` runs) against soldPlayerSchema. `player`, `team`, `leader` and
`saleDetails` are nested paths: their fields are read from the object given for the path,
and a value that is not an object sets none of them. `saleDetails.date` defaults to now. -/
def soldPlayerSchema (env : Env) (raw : RawSoldPlayer) : Except String SoldPlayerDoc :=
  match required "player.id" (castObjectId (raw.player.get "id")),
        requiredString "player.name" (castString (raw.player.get "name")),
        requiredString "player.category" (castString (raw.player.get "category")),
        required "player.basePrice" (castNumber env (raw.player.get "basePrice")),
        castString (raw.player.get "profilePhoto"),
        required "team.id" (castObjectId (raw.team.get "id")),
        requiredString "team.name" (castString (raw.team.get "name")),
        castString (raw.team.get "logo"),
        requiredString "leader.name" (castString (raw.leader.get "name")),
        required "saleDetails.amount" (castNumber env (raw.saleDetails.get "amount")),
        castDate env (raw.saleDetails.get "date") with
  | .ok pid, .ok pname, .ok pcat, .ok pbase, .ok pphoto, .ok tid, .ok tname, .ok tlogo,
    .ok lname, .ok amount, .ok date =>
    .ok { _id := env.newId,
          player := { id := pid, name := pname, category := pcat, basePrice := pbase,
                      profilePhoto := pphoto },
          team := { id := tid, name := tname, logo := tlogo },
          leader := { name := lname },
          saleDetails :=
            { amount := amount,
              date := if raw.saleDetails.get "date" = .undefined then some env.today
                      else date } }
  | _, _, _, _, _, _, _, _, _, _, _ => .error "SoldPlayer validation failed"

/-- Scalar held by a stored document: a JSON scalar, or an ObjectId, which is the value
of no request field (a request holds the text of an id, not an ObjectId). -/
inductive Stored where
  | json (p : Prim)
  | objectId (id : String)
  deriving DecidableEq, Repr

/-- Stored value of the path `player` of a ledger entry, as the database compares it:
the sub-document whose `id` was cast to an ObjectId by the schema. -/
def SoldPlayerDoc.playerValue (d : SoldPlayerDoc) : List (String × Stored) :=
  [("id", Stored.objectId d.player.id), ("name", Stored.json (.str d.player.name)),
   ("category", Stored.json (.str d.player.category)),
   ("basePrice", Stored.json (.num d.player.basePrice))]
  ++ match d.player.profilePhoto with
     | some url => [("profilePhoto", Stored.json (.str url))]
     | none => []

/-- MongoDB equality match of a stored sub-document against a query value that was not
cast: an object matches the sub-document with the same fields, holding the same values,
in the same order; a scalar, `null` and `undefined` (which is sent as `null`) match no
sub-document. -/
def mongoEq (stored : List (String × Stored)) (query : JVal) : Bool :=
  match query with
  | .obj fields => stored == fields.map (fun kv => (kv.1, Stored.json kv.2))
  | _ => false

/-- The query `SoldPlayer.findOne(\x7b player: query \x7d)`: `player` is a nested path, so
the query value is not cast and is compared with the stored sub-document. -/
def SoldPlayer_findOne (env : Env) (st : Store) (query : JVal) :
    Except String (Option SoldPlayerDoc) :=
  if env.dbFails .soldPlayerFindOne then .error "database error"
  else .ok (st.soldPlayers.find? (fun d => mongoEq d.playerValue query))

/-- The call `new SoldPlayer(raw).save()`: the document is validated, then appended. -/
def SoldPlayer_save (env : Env) (st : Store) (raw : RawSoldPlayer) :
    Except String (SoldPlayerDoc × Store) :=
  match soldPlayerSchema env raw with
  | .error e => .error e
  | .ok doc =>
    if env.dbFails .soldPlayerSave then .error "database error"
    else .ok (doc, { st with soldPlayers := st.soldPlayers ++ [doc] })

/-- Replaces the first element that satisfies `p` by its image under `f`. -/
def updateFirst {α : Type} (p : α → Bool) (f : α → α) : List α → List α
  | [] => []
  | a :: rest => if p a then f a :: rest else a :: updateFirst p f rest

/-- Whether a document has the given (cast) id; a `null` id matches no document. -/
def hasId (id : Option String) (docId : String) : Bool :=
  id == some docId

/-- Value a cast update gives a path: a key whose value is `undefined` is removed from
the update and leaves the path as it was. -/
def setPath {α : Type} (given : JVal) (cast : Option α) (old : Option α) : Option α :=
  if given = .undefined then old else cast

/-- Object literal with the given keys; a key whose value is `undefined` holds nothing. -/
def objectOf (entries : List (String × JVal)) : List (String × Prim) :=
  entries.filterMap fun kv =>
    match kv.2 with
    | .prim p => some (kv.1, p)
    | _ => none

/-- The `$set` document the sale route passes to `Player.findByIdAndUpdate`. -/
structure SaleSet where
  isSold : Bool
  soldTo : JVal
  soldAmount : JVal
  soldToLeader : JVal
  teamName : JVal
  deriving DecidableEq, Repr

/-- Cast of the sale route's `$set` against playerSchema (src/models/Player.js): `isSold`,
`soldTo` (an ObjectId) and `teamName` (a String) are paths of the schema; `soldAmount`
and `soldToLeader` are not, and strict mode drops them. -/
def playerSchema_castSaleSet (set : SaleSet) : Except String (PlayerDoc → PlayerDoc) :=
  match castObjectId set.soldTo, castString set.teamName with
  | .ok soldTo, .ok teamName =>
    .ok fun p =>
      { p with isSold := set.isSold,
               soldTo := setPath set.soldTo soldTo p.soldTo,
               teamName := setPath set.teamName teamName p.teamName }
  | _, _ => .error "Cast failed in update of Player"

/-- The call `Player.findByIdAndUpdate(id, \x7b $set: set \x7d)` of the sale route. -/
def Player_findByIdAndUpdate_set (env : Env) (st : Store) (id : JVal) (set : SaleSet) :
    Except String Store :=
  match castObjectId id, playerSchema_castSaleSet set with
  | .ok pid, .ok update =>
    if env.dbFails .playerUpdate then .error "database error"
    else .ok { st with players := updateFirst (fun p => hasId pid p._id) update st.players }
  | _, _ => .error "Cast failed for Player"

/-- Cast of a value pushed onto `players` of leaderSchema (src/models/Leader.js), an
array of ObjectId: an object is an id only through its `_id`. -/
def leaderSchema_castPlayersElem (entry : List (String × Prim)) : Except String String :=
  match castObjectId (.obj entry) with
  | .ok (some id) => .ok id
  | _ => .error "Cast to [ObjectId] failed at path players"

/-- The call `Leader.findByIdAndUpdate(id, \x7b $push: \x7b players: entry \x7d \x7d)` of
the sale route. -/
def Leader_findByIdAndUpdate_push (env : Env) (st : Store) (id : JVal)
    (entry : List (String × Prim)) : Except String Store :=
  match castObjectId id, leaderSchema_castPlayersElem entry with
  | .ok tid, .ok playerRef =>
    if env.dbFails .leaderUpdate then .error "database error"
    else
      .ok { st with leaders := (updateFirst (fun l => hasId tid l._id)
              (fun l => { l with players := l.players ++ [playerRef] }) st.leaders) }
  | _, _ => .error "Cast failed for Leader"

/-- Body of a sale submission: the four values destructured from `req.body`. -/
structure SaleBody where
  player : JVal
  team : JVal
  leader : JVal
  saleDetails : JVal
  deriving DecidableEq, Repr

/-- Response of the `catch` block of the sale route. -/
def saleServerError (details : String) : Response :=
  { status := 500, body := .failure details }

/-- The `$set` document of the sale route (soldPlayerRoutes.js, lines 34 to 40). -/
def saleSetOf (body : SaleBody) : SaleSet :=
  { isSold := true,
    soldTo := body.team.get "_id",
    soldAmount := body.saleDetails.get "amount",
    soldToLeader := body.leader.get "name",
    teamName := body.team.get "name" }

/-- The object the sale route pushes onto `players` (soldPlayerRoutes.js, lines 46 to
51). -/
def rosterEntryOf (body : SaleBody) : List (String × Prim) :=
  objectOf [("playerId", body.player.get "_id"),
            ("playerName", body.player.get "name"),
            ("soldAmount", body.saleDetails.get "amount"),
            ("category", body.player.get "category")]

/-- The sale route after `await soldPlayer.save()` has resolved (soldPlayerRoutes.js,
lines 32 to 62): update of the player, push onto the roster of the team, response 201;
a failure of either update is caught and answered with 500. `st` is the store that
already holds `soldPlayer`. -/
def soldPlayerRoutes_post_afterSave (env : Env) (st : Store) (body : SaleBody)
    (soldPlayer : SoldPlayerDoc) : Response × Store :=
  match Player_findByIdAndUpdate_set env st (body.player.get "_id") (saleSetOf body) with
  | .error e => (saleServerError e, st)
  | .ok st1 =>
    match Leader_findByIdAndUpdate_push env st1 (body.team.get "_id") (rosterEntryOf body) with
    | .error e => (saleServerError e, st1)
    | .ok st2 => ({ status := 201, body := .soldPlayer soldPlayer }, st2)

/-- The argument of `new SoldPlayer(...)` in the sale route (soldPlayerRoutes.js, lines
24 to 29). -/
def rawSoldPlayerOf (body : SaleBody) : RawSoldPlayer :=
  { player := body.player.get "_id",
    team := body.team.get "_id",
    leader := body.leader.get "_id",
    saleDetails := body.saleDetails }

/-- The handler `router.post('/')` of src/routes/soldPlayerRoutes.js. -/
def soldPlayerRoutes_post (env : Env) (st : Store) (body : SaleBody) : Response × Store :=
  if !body.player.truthy || !body.team.truthy || !body.leader.truthy
      || !body.saleDetails.truthy || !(body.saleDetails.get "amount").truthy then
    ({ status := 400, body := .message "Missing required fields" }, st)
  else
    match SoldPlayer_findOne env st (body.player.get "_id") with
    | .error e => (saleServerError e, st)
    | .ok (some _) => ({ status := 400, body := .message "Player is already sold" }, st)
    | .ok none =>
      match SoldPlayer_save env st (rawSoldPlayerOf body) with
      | .error e => (saleServerError e, st)
      | .ok (soldPlayer, st1) => soldPlayerRoutes_post_afterSave env st1 body soldPlayer

/-! ### Sale submissions whose `_id` fields hold objects

`express.json()` (src/index.js) hands the handler whatever JSON the client sent, so
`player._id`, `team._id` and `leader._id` can be objects. The handler of the sale route
is embedded a second time on such bodies; on the bodies whose fields are scalars it is
the handler above. -/

/-- Value of a request field whose object fields can themselves be objects of scalars. -/
inductive JDeep where
  | undefined
  | prim (p : Prim)
  | obj (fields : List (String × JVal))
  deriving DecidableEq, Repr

/-- JavaScript truthiness: `undefined` is falsy, every object is truthy. -/
def JDeep.truthy : JDeep → Bool
  | .undefined => false
  | .prim p => p.truthy
  | .obj _ => true

/-- Property read `v.key`; the first binding of a key is the one an object holds. -/
def JDeep.get (v : JDeep) (key : String) : JVal :=
  match v with
  | .obj fields =>
    match fields.lookup key with
    | some value => value
    | none => .undefined
  | _ => .undefined

/-- A value whose object fields are scalars, among the values with nested objects. -/
def JVal.deep : JVal → JDeep
  | .undefined => .undefined
  | .prim p => .prim p
  | .obj fields => .obj (fields.map fun kv => (kv.1, JVal.prim kv.2))

/-- Body of a sale submission, the fields of `player`, `team` and `leader` being scalars
or objects. -/
structure SaleBodyDeep where
  player : JDeep
  team : JDeep
  leader : JDeep
  saleDetails : JVal
  deriving DecidableEq, Repr

/-- A body whose fields are scalars, among the bodies with nested objects. -/
def SaleBody.deep (body : SaleBody) : SaleBodyDeep :=
  { player := body.player.deep, team := body.team.deep, leader := body.leader.deep,
    saleDetails := body.saleDetails }

/-- The `$set` document of the sale route (soldPlayerRoutes.js, lines 34 to 40). -/
def saleSetOfDeep (body : SaleBodyDeep) : SaleSet :=
  { isSold := true,
    soldTo := body.team.get "_id",
    soldAmount := body.saleDetails.get "amount",
    soldToLeader := body.leader.get "name",
    teamName := body.team.get "name" }

/-- The object the sale route pushes onto `players` (soldPlayerRoutes.js, lines 46 to
51). -/
def rosterEntryOfDeep (body : SaleBodyDeep) : List (String × JVal) :=
  [("playerId", body.player.get "_id"),
   ("playerName", body.player.get "name"),
   ("soldAmount", body.saleDetails.get "amount"),
   ("category", body.player.get "category")]

/-- Cast of an object pushed onto `players` of leaderSchema (src/models/Leader.js), an
array of ObjectId: an object is an id only through a text `_id`. -/
def leaderSchema_castPlayersElemDeep (entry : List (String × JVal)) : Except String String :=
  match entry.lookup "_id" with
  | some (.prim (.str s)) =>
    if s != "" then .ok s else .error "Cast to [ObjectId] failed at path players"
  | _ => .error "Cast to [ObjectId] failed at path players"

/-- The call `Leader.findByIdAndUpdate(id, \x7b $push: \x7b players: entry \x7d \x7d)` of
the sale route. -/
def Leader_findByIdAndUpdate_pushDeep (env : Env) (st : Store) (id : JVal)
    (entry : List (String × JVal)) : Except String Store :=
  match castObjectId id, leaderSchema_castPlayersElemDeep entry with
  | .ok tid, .ok playerRef =>
    if env.dbFails .leaderUpdate then .error "database error"
    else
      .ok { st with leaders := (updateFirst (fun l => hasId tid l._id)
              (fun l => { l with players := l.players ++ [playerRef] }) st.leaders) }
  | _, _ => .error "Cast failed for Leader"

/-- The sale route after `await soldPlayer.save()` has resolved (soldPlayerRoutes.js,
lines 32 to 62). -/
def soldPlayerRoutes_post_afterSaveDeep (env : Env) (st : Store) (body : SaleBodyDeep)
    (soldPlayer : SoldPlayerDoc) : Response × Store :=
  match Player_findByIdAndUpdate_set env st (body.player.get "_id") (saleSetOfDeep body) with
  | .error e => (saleServerError e, st)
  | .ok st1 =>
    match Leader_findByIdAndUpdate_pushDeep env st1 (body.team.get "_id")
            (rosterEntryOfDeep body) with
    | .error e => (saleServerError e, st1)
    | .ok st2 => ({ status := 201, body := .soldPlayer soldPlayer }, st2)

/-- The argument of `new SoldPlayer(...)` in the sale route (soldPlayerRoutes.js, lines
24 to 29). -/
def rawSoldPlayerOfDeep (body : SaleBodyDeep) : RawSoldPlayer :=
  { player := body.player.get "_id",
    team := body.team.get "_id",
    leader := body.leader.get "_id",
    saleDetails := body.saleDetails }

/-- The handler `router.post('/')` of src/routes/soldPlayerRoutes.js, on bodies with
nested objects. -/
def soldPlayerRoutes_postDeep (env : Env) (st : Store) (body : SaleBodyDeep) :
    Response × Store :=
  if !body.player.truthy || !body.team.truthy || !body.leader.truthy
      || !body.saleDetails.truthy || !(body.saleDetails.get "amount").truthy then
    ({ status := 400, body := .message "Missing required fields" }, st)
  else
    match SoldPlayer_findOne env st (body.player.get "_id") with
    | .error e => (saleServerError e, st)
    | .ok (some _) => ({ status := 400, body := .message "Player is already sold" }, st)
    | .ok none =>
      match SoldPlayer_save env st (rawSoldPlayerOfDeep body) with
      | .error e => (saleServerError e, st)
      | .ok (soldPlayer, st1) => soldPlayerRoutes_post_afterSaveDeep env st1 body soldPlayer

/-! ## JavaScript conversions used by the routes -/

/-- JavaScript `parseInt(v)`; `none` is `NaN`. A number is returned as it is, which is
what `parseInt` gives for the integers below 1e21, whose text is their decimal form. -/
def jsParseInt (env : Env) : JVal → Option Int
  | .prim (.num n) => some n
  | .prim (.str s) => env.parseInt s
  | _ => none

/-- JavaScript `parseFloat(v)`; `none` is `NaN`. -/
def jsParseFloat (env : Env) : JVal → Option Int
  | .prim (.num n) => some n
  | .prim (.str s) => env.parseFloat s
  | _ => none

/-- JavaScript `Number(v)`, the conversion behind `isNaN(v)` and `v < 0`; `none` is
`NaN`. -/
def jsToNumber (env : Env) : JVal → Option Int
  | .undefined => none
  | .prim .null => some 0
  | .prim (.bool b) => some (if b then 1 else 0)
  | .prim (.num n) => some n
  | .prim (.str s) => env.toNumber s
  | .obj _ => none

/-- JavaScript `isNaN(v)`. -/
def jsIsNaN (env : Env) (v : JVal) : Bool :=
  (jsToNumber env v).isNone

/-- JavaScript `v < 0`; a comparison with `NaN` is false. -/
def jsLtZero (env : Env) (v : JVal) : Bool :=
  match jsToNumber env v with
  | some n => decide (n < 0)
  | none => false

/-- Text of a value inside a template literal. -/
def jsToString : JVal → String
  | .undefined => "undefined"
  | .prim .null => "null"
  | .prim (.bool b) => if b then "true" else "false"
  | .prim (.num n) => toString n
  | .prim (.str s) => s
  | .obj _ => "[object Object]"

/-- Value computed by a route for a path: left out (`undefined`), not a value of the
type (`NaN`, an invalid date), or a value. -/
inductive Given (α : Type) where
  | unset
  | invalid
  | value (a : α)
  deriving DecidableEq, Repr

/-- Mongoose cast of a computed number or date: `NaN` and an invalid date are cast
errors. -/
def castGiven {α : Type} (what : String) : Given α → Except String (Option α)
  | .unset => .ok none
  | .invalid => .error ("Cast to " ++ what ++ " failed")
  | .value a => .ok (some a)

/-- The expression `v ? parseInt(v) : undefined`. -/
def parseIntIfTruthy (env : Env) (v : JVal) : Given Int :=
  if v.truthy then
    match jsParseInt env v with
    | some n => .value n
    | none => .invalid
  else .unset

/-- The expression `v ? new Date(v) : undefined`; a truthy scalar is handed to `Date`,
an object gives an invalid date. -/
def newDateIfTruthy (env : Env) (v : JVal) : Given JsDate :=
  if v.truthy then
    match v with
    | .prim p =>
      match env.newDate p with
      | some d => .value d
      | none => .invalid
    | _ => .invalid
  else .unset

/-! ## Object storage (src/utils/firebaseUtils.js) -/

/-- File received by `upload.single(...)`. -/
structure UploadedFile where
  originalname : String
  mimetype : String
  deriving DecidableEq, Repr

/-- Name under which `uploadToFirebase` stores a file. -/
def uploadObjectName (env : Env) (file : UploadedFile) (folder : String) : String :=
  folder ++ "/" ++ toString env.nowMs ++ "-" ++ file.originalname

/-- The function `uploadToFirebase(file, folder)`: no file gives `null`; otherwise the
object is saved and its URL returned, and a failing save is thrown to the caller. -/
def uploadToFirebase (env : Env) (st : Store) (file : Option UploadedFile) (folder : String) :
    Except String (Option String × Store) :=
  match file with
  | none => .ok (none, st)
  | some f =>
    if env.bucketSaveFails then .error "upload failed"
    else
      .ok (some ("https://firebasestorage.googleapis.com/v0/b/" ++ env.bucketName ++ "/o/"
                  ++ env.encodeURIComponent (uploadObjectName env f folder) ++ "?alt=media"),
           { st with bucket := st.bucket ++ [uploadObjectName env f folder],
                     bucketCalls := st.bucketCalls ++ [.save (uploadObjectName env f folder)] })

/-- Line terminators, which `.` of a regular expression does not match. -/
def isLineTerminator (c : Char) : Bool :=
  c == '\n' || c == '\r' || c.toNat == 0x2028 || c.toNat == 0x2029

/-- The part `(.*?)\?` of the pattern: the characters up to the first `?`, none of them
a line terminator. -/
def lazyUpToQuestionMark : List Char → Option (List Char)
  | [] => none
  | c :: rest =>
    if c == '?' then some []
    else if isLineTerminator c then none
    else (lazyUpToQuestionMark rest).map (c :: ·)

/-- First group of the leftmost match of `/\/o\/(.*?)\?/` in the text. -/
def matchObjectPath : List Char → Option (List Char)
  | [] => none
  | c :: rest =>
    match c, rest with
    | '/', 'o' :: '/' :: tail =>
      match lazyUpToQuestionMark tail with
      | some captured => some captured
      | none => matchObjectPath rest
    | _, _ => matchObjectPath rest

/-- The function `deleteFromFirebase(url)`: a falsy or non-text argument, a URL that does
not match, a failing decode and a failing delete all end the call without an error for
the caller; otherwise the named object is deleted. -/
def deleteFromFirebase (env : Env) (st : Store) (url : JVal) : Store :=
  match url with
  | .prim (.str u) =>
    if u == "" then st
    else
      match matchObjectPath u.toList with
      | none => st
      | some captured =>
        match env.decodeURIComponent (String.mk captured) with
        | none => st
        | some fileName =>
          if env.bucketDeleteFails || !st.bucket.contains fileName then
            { st with bucketCalls := st.bucketCalls ++ [.delete fileName] }
          else
            { st with bucket := st.bucket.filter (fun o => o != fileName),
                      bucketCalls := st.bucketCalls ++ [.delete fileName] }
  | _ => st

/-- Stored text or `null` as a JavaScript value. -/
def ofOptString : Option String → JVal
  | some s => .prim (.str s)
  | none => .prim .null

/-! ## Players (src/models/Player.js, src/routes/playerRoutes.js) -/

/-- Argument of `new Player(...)`: the value each route gives for each path. -/
structure RawPlayer where
  name : JVal
  dob : Given JsDate
  age : Given Int
  category : JVal
  serialNo : Given Int
  village : JVal
  mobileNo : JVal
  economicallyWeaker : JVal
  basePrice : Option Int
  profilePhoto : Option String
  battingStyle : JVal
  bowlingStyle : JVal
  password : JVal
  status : String
  deriving DecidableEq, Repr

/-- Building and validating a `Player` document against playerSchema: `name`,
`profilePhoto` and `serialNo` are required, `category`, `battingStyle`, `bowlingStyle`,
`economicallyWeaker` and `status` are enumerations, `economicallyWeaker` defaults to
'No', `isSold` to false, `teamName` to null, `status` to 'Available' and `basePrice`
to 0. -/
def playerSchema (env : Env) (raw : RawPlayer) : Except String PlayerDoc :=
  match requiredString "name" (castString raw.name),
        castGiven "date" raw.dob,
        castGiven "Number" raw.age,
        enumOf "category" ["Batsman", "Bowler", "All Rounder"] (castString raw.category),
        requiredString "profilePhoto" (.ok raw.profilePhoto),
        required "serialNo" (castGiven "Number" raw.serialNo),
        castString raw.village,
        castString raw.mobileNo,
        castString raw.password,
        enumOf "battingStyle" ["Right-Handed", "Left-Handed"] (castString raw.battingStyle),
        enumOf "bowlingStyle"
          ["Right-Arm Fast", "Right-Arm Medium", "Right-Arm Spin", "Left-Arm Fast",
           "Left-Arm Medium", "Left-Arm Spin"] (castString raw.bowlingStyle),
        enumOf "economicallyWeaker" ["Yes", "No"] (castString raw.economicallyWeaker),
        enumOf "status" ["Available", "Sold", "Unknown"] (.ok (some raw.status)) with
  | .ok name, .ok dob, .ok age, .ok category, .ok photo, .ok serialNo, .ok village,
    .ok mobileNo, .ok password, .ok battingStyle, .ok bowlingStyle, .ok weaker, .ok _ =>
    .ok { _id := env.newId, name := some name, dob := dob, age := age, category := category,
          profilePhoto := some photo, serialNo := serialNo, village := village,
          mobileNo := mobileNo, password := password, battingStyle := battingStyle,
          bowlingStyle := bowlingStyle,
          economicallyWeaker :=
            if raw.economicallyWeaker = .undefined then some "No" else weaker,
          soldTo := none, isSold := false, soldPrice := none, soldAt := none,
          teamName := none, soldDate := none, soldTime := none, status := raw.status,
          basePrice := raw.basePrice.getD 0 }
  | _, _, _, _, _, _, _, _, _, _, _, _, _ => .error "Player validation failed"

/-- The call `new Player(raw).save()`: validation, then the insert, which the unique
index on `serialNo` refuses when another player has the same serial number. -/
def Player_save (env : Env) (st : Store) (raw : RawPlayer) : Except String (PlayerDoc × Store) :=
  match playerSchema env raw with
  | .error e => .error e
  | .ok doc =>
    if env.dbFails .playerSave then .error "database error"
    else if st.players.any (fun p => p.serialNo == doc.serialNo) then
      .error "E11000 duplicate key error: serialNo"
    else .ok (doc, { st with players := st.players ++ [doc] })

/-- The query `Player.findOne().sort(\x7b serialNo: -1 \x7d)`: a player with the greatest
serial number. -/
def lastPlayer : List PlayerDoc → Option PlayerDoc
  | [] => none
  | p :: rest =>
    match lastPlayer rest with
    | none => some p
    | some q => if q.serialNo > p.serialNo then some q else some p

/-- Fields of `req.body` the player routes read. -/
structure PlayerBody where
  name : JVal
  dob : JVal
  age : JVal
  category : JVal
  serialNo : JVal
  village : JVal
  mobileNo : JVal
  economicallyWeaker : JVal
  basePrice : JVal
  battingStyle : JVal
  bowlingStyle : JVal
  password : JVal
  deriving DecidableEq, Repr

/-- Response of the `catch` blocks that answer `\x7b error: error.message \x7d`. -/
def errorResponse (status : Nat) (details : String) : Response :=
  { status := status, body := .failure details }

/-- The handler `router.post('/')` of src/routes/playerRoutes.js (admin route). -/
def playerRoutes_post (env : Env) (st : Store) (body : PlayerBody)
    (file : Option UploadedFile) : Response × Store :=
  if !body.name.truthy then
    ({ status := 400, body := .message "Name is required" }, st)
  else
    match uploadToFirebase env st file "players" with
    | .error e => (errorResponse 400 e, st)
    | .ok (profilePhotoUrl, st1) =>
      if body.serialNo.truthy = false && env.dbFails .playerFind then
        (errorResponse 400 "database error", st1)
      else
        match Player_save env st1
                { name := body.name,
                  dob := newDateIfTruthy env body.dob,
                  age := parseIntIfTruthy env body.age,
                  category := body.category.orElse .undefined,
                  serialNo :=
                    if body.serialNo.truthy then
                      match jsParseInt env body.serialNo with
                      | some n => .value n
                      | none => .invalid
                    else
                      match lastPlayer st1.players with
                      | some p => .value (p.serialNo + 1)
                      | none => .value 1,
                  village := body.village.orElse .undefined,
                  mobileNo := body.mobileNo.orElse .undefined,
                  economicallyWeaker := body.economicallyWeaker.orElse (.prim (.str "No")),
                  basePrice :=
                    match jsParseFloat env body.basePrice with
                    | some n => some n
                    | none => some 0,
                  profilePhoto := profilePhotoUrl,
                  battingStyle := body.battingStyle.orElse .undefined,
                  bowlingStyle := body.bowlingStyle.orElse .undefined,
                  password := body.password,
                  status := "Available" } with
        | .error e => (errorResponse 400 e, st1)
        | .ok (player, st2) => ({ status := 201, body := .player (some player) }, st2)

/-- Age computed by the public registration from the date of birth and today. -/
def ageOn (today birthDate : JsDate) : Int :=
  if today.month < birthDate.month
      || (today.month == birthDate.month && today.date < birthDate.date) then
    today.year - birthDate.year - 1
  else today.year - birthDate.year

/-- The handler `router.post('/public')` of src/routes/playerRoutes.js. -/
def playerRoutes_postPublic (env : Env) (st : Store) (body : PlayerBody)
    (file : Option UploadedFile) : Response × Store :=
  if !body.name.truthy || !body.village.truthy || !body.password.truthy then
    ({ status := 400, body := .message "Name, Village, and Password are required" }, st)
  else
    match uploadToFirebase env st file "players" with
    | .error e => (errorResponse 400 e, st)
    | .ok (profilePhotoUrl, st1) =>
      if env.dbFails .playerCount then (errorResponse 400 "database error", st1)
      else
        match Player_save env st1
                { name := body.name,
                  dob := newDateIfTruthy env body.dob,
                  age :=
                    match newDateIfTruthy env body.dob with
                    | .value birthDate => .value (ageOn env.today birthDate)
                    | .invalid => .invalid
                    | .unset => .unset,
                  category := body.category.orElse .undefined,
                  serialNo := .value ((st1.players.length : Int) + 1),
                  village := body.village,
                  mobileNo := body.mobileNo.orElse .undefined,
                  economicallyWeaker := body.economicallyWeaker.orElse (.prim (.str "No")),
                  basePrice := none,
                  profilePhoto := profilePhotoUrl,
                  battingStyle := body.battingStyle.orElse .undefined,
                  bowlingStyle := body.bowlingStyle.orElse .undefined,
                  password := body.password,
                  status := "Available" } with
        | .error e => (errorResponse 400 e, st1)
        | .ok (player, st2) =>
          ({ status := 201, body := .playerRegistered player },
           { st2 with emitted := st2.emitted ++ [.newPlayer player] })

/-- The object `updateData` of the player update route; a `JVal` that is `undefined` and
a `Given` that is `unset` stand for a key that is absent or holds `undefined`. -/
structure PlayerUpdate where
  name : JVal
  dob : Given JsDate
  age : Given Int
  category : JVal
  serialNo : Given Int
  village : JVal
  mobileNo : JVal
  economicallyWeaker : JVal
  battingStyle : JVal
  bowlingStyle : JVal
  password : JVal
  profilePhoto : Option String
  deriving DecidableEq, Repr

/-- Value a cast update gives a path whose new value the route computed. -/
def setGiven {α : Type} (given : Given α) (old : Option α) : Option α :=
  match given with
  | .value a => some a
  | _ => old

/-- Cast of `updateData` against playerSchema (validators do not run on an update). -/
def playerSchema_castUpdate (u : PlayerUpdate) : Except String (PlayerDoc → PlayerDoc) :=
  match castString u.name, castGiven "date" u.dob, castGiven "Number" u.age,
        castString u.category, castGiven "Number" u.serialNo, castString u.village,
        castString u.mobileNo, castString u.economicallyWeaker, castString u.battingStyle,
        castString u.bowlingStyle, castString u.password with
  | .ok name, .ok _, .ok _, .ok category, .ok _, .ok village, .ok mobileNo, .ok weaker,
    .ok battingStyle, .ok bowlingStyle, .ok password =>
    .ok fun p =>
      { p with name := setPath u.name name p.name,
               dob := setGiven u.dob p.dob,
               age := setGiven u.age p.age,
               category := setPath u.category category p.category,
               serialNo := (setGiven u.serialNo (some p.serialNo)).getD p.serialNo,
               village := setPath u.village village p.village,
               mobileNo := setPath u.mobileNo mobileNo p.mobileNo,
               economicallyWeaker := setPath u.economicallyWeaker weaker p.economicallyWeaker,
               battingStyle := setPath u.battingStyle battingStyle p.battingStyle,
               bowlingStyle := setPath u.bowlingStyle bowlingStyle p.bowlingStyle,
               password := setPath u.password password p.password,
               profilePhoto :=
                 match u.profilePhoto with
                 | some url => some url
                 | none => p.profilePhoto }
  | _, _, _, _, _, _, _, _, _, _, _ => .error "Cast failed in update of Player"

/-- Whether giving the first document with the id the serial number `serialNo` would
break the unique index, that is whether another document holds it. -/
def serialNoTaken (id : String) (serialNo : Int) : List PlayerDoc → Bool
  | [] => false
  | p :: rest =>
    if p._id == id then rest.any (fun q => q.serialNo == serialNo)
    else p.serialNo == serialNo || serialNoTaken id serialNo rest

/-- The call `Player.findByIdAndUpdate(id, updateData, \x7b new: true \x7d)`: the updated
document, or `null` when no player has the id. -/
def Player_findByIdAndUpdate (env : Env) (st : Store) (id : String) (u : PlayerUpdate) :
    Except String (Option PlayerDoc × Store) :=
  match playerSchema_castUpdate u with
  | .error e => .error e
  | .ok update =>
    if env.dbFails .playerUpdate then .error "database error"
    else
      match st.players.find? (fun p => p._id == id) with
      | none => .ok (none, st)
      | some p =>
        if serialNoTaken id (update p).serialNo st.players then
          .error "E11000 duplicate key error: serialNo"
        else
          .ok (some (update p),
               { st with players := updateFirst (fun q => q._id == id) update st.players })

/-- The object `updateData` built from the body and the URL of a new photo. -/
def playerUpdateData (env : Env) (body : PlayerBody) (profilePhoto : Option String) :
    PlayerUpdate :=
  { name := body.name,
    dob := newDateIfTruthy env body.dob,
    age := parseIntIfTruthy env body.age,
    category := body.category,
    serialNo := parseIntIfTruthy env body.serialNo,
    village := body.village,
    mobileNo := body.mobileNo,
    economicallyWeaker := body.economicallyWeaker,
    battingStyle := body.battingStyle,
    bowlingStyle := body.bowlingStyle,
    password := body.password,
    profilePhoto := profilePhoto }

/-- The statement `if (photo) \x7b await deleteFromFirebase(photo); \x7d`. -/
def releaseIfSet (env : Env) (st : Store) (photo : Option String) : Store :=
  if (ofOptString photo).truthy then deleteFromFirebase env st (ofOptString photo) else st

/-- End of the player update route: the update itself and the response. -/
def playerRoutes_put_update (env : Env) (st : Store) (id : String) (body : PlayerBody)
    (profilePhoto : Option String) : Response × Store :=
  match Player_findByIdAndUpdate env st id (playerUpdateData env body profilePhoto) with
  | .error e => (errorResponse 400 e, st)
  | .ok (updatedPlayer, st1) => ({ status := 200, body := .player updatedPlayer }, st1)

/-- The handler `router.put('/:id')` of src/routes/playerRoutes.js. -/
def playerRoutes_put (env : Env) (st : Store) (id : String) (body : PlayerBody)
    (file : Option UploadedFile) : Response × Store :=
  if env.dbFails .playerFind then (errorResponse 400 "database error", st)
  else
    match st.players.find? (fun p => p._id == id) with
    | none => ({ status := 404, body := .message "Player not found" }, st)
    | some player =>
      match file with
      | none => playerRoutes_put_update env st id body none
      | some f =>
        match uploadToFirebase env (releaseIfSet env st player.profilePhoto) (some f)
                "players" with
        | .error e => (errorResponse 400 e, releaseIfSet env st player.profilePhoto)
        | .ok (url, st2) => playerRoutes_put_update env st2 id body url

/-- The handler `router.delete('/:id')` of src/routes/playerRoutes.js. -/
def playerRoutes_delete (env : Env) (st : Store) (id : String) : Response × Store :=
  if env.dbFails .playerFind then ({ status := 500, body := .message "database error" }, st)
  else
    match st.players.find? (fun p => p._id == id) with
    | none => ({ status := 404, body := .message "Player not found" }, st)
    | some player =>
      if env.dbFails .playerDelete then
        ({ status := 500, body := .message "database error" },
         releaseIfSet env st player.profilePhoto)
      else
        ({ status := 200, body := .message "Player deleted successfully" },
         { releaseIfSet env st player.profilePhoto with
           players := (releaseIfSet env st player.profilePhoto).players.eraseP
                        (fun p => p._id == id) })

/-! ## Leaders and teams (src/models/Leader.js, src/routes/leaderRoutes.js) -/

/-- Argument of `new Leader(...)`. -/
structure RawLeader where
  leaderName : JVal
  teamName : JVal
  leaderVillage : JVal
  leaderMobileNo : JVal
  iconPlayer : JVal
  iconPlayerMobileNo : JVal
  password : JVal
  teamLogo : Option String
  teamNumber : Int
  deriving DecidableEq, Repr

/-- Building and validating a `Leader` document against leaderSchema: `teamName`,
`leaderName`, `teamLogo` and `teamNumber` are required, `maxAmount` defaults to 0 and
`players` to the empty array. -/
def leaderSchema (env : Env) (raw : RawLeader) : Except String LeaderDoc :=
  match requiredString "teamName" (castString raw.teamName),
        requiredString "leaderName" (castString raw.leaderName),
        castString raw.leaderVillage,
        castString raw.leaderMobileNo,
        castString raw.password,
        castString raw.iconPlayer,
        castString raw.iconPlayerMobileNo,
        requiredString "teamLogo" (.ok raw.teamLogo) with
  | .ok teamName, .ok leaderName, .ok village, .ok mobileNo, .ok password, .ok iconPlayer,
    .ok iconPlayerMobileNo, .ok teamLogo =>
    .ok { _id := env.newId, teamName := some teamName, leaderName := some leaderName,
          leaderVillage := village, leaderMobileNo := mobileNo, password := password,
          iconPlayer := iconPlayer, iconPlayerMobileNo := iconPlayerMobileNo,
          teamLogo := some teamLogo, teamNumber := raw.teamNumber, maxAmount := 0,
          players := [] }
  | _, _, _, _, _, _, _, _ => .error "Leader validation failed"

/-- The call `new Leader(raw).save()`: validation, then the insert, which the unique
index on `teamNumber` refuses when another leader has the same team number. -/
def Leader_save (env : Env) (st : Store) (raw : RawLeader) : Except String (LeaderDoc × Store) :=
  match leaderSchema env raw with
  | .error e => .error e
  | .ok doc =>
    if env.dbFails .leaderSave then .error "database error"
    else if st.leaders.any (fun l => l.teamNumber == doc.teamNumber) then
      .error "E11000 duplicate key error: teamNumber"
    else .ok (doc, { st with leaders := st.leaders ++ [doc] })

/-- Fields of `req.body` the leader routes read. -/
structure LeaderBody where
  leaderName : JVal
  teamName : JVal
  leaderVillage : JVal
  village : JVal
  leaderMobileNo : JVal
  iconPlayer : JVal
  iconPlayerName : JVal
  iconPlayerMobileNo : JVal
  password : JVal
  deriving DecidableEq, Repr

/-- The handler `router.post('/')` of src/routes/leaderRoutes.js (admin route). -/
def leaderRoutes_post (env : Env) (st : Store) (body : LeaderBody)
    (file : Option UploadedFile) : Response × Store :=
  match uploadToFirebase env st file "leaders" with
  | .error e => (errorResponse 500 e, st)
  | .ok (teamLogoUrl, st1) =>
    if !body.leaderName.truthy || !body.teamName.truthy then
      ({ status := 400, body := .message "Leader Name and Team Name are required" }, st1)
    else
      match castString body.leaderName with
      | .error e => (errorResponse 500 e, st1)
      | .ok leaderName =>
        if env.dbFails .leaderFind then (errorResponse 500 "database error", st1)
        else if st1.leaders.any (fun l => l.leaderName == leaderName) then
          ({ status := 400,
             body := .message
               "This leader already has a team! One leader cannot have multiple teams." },
           st1)
        else if env.dbFails .leaderCount then (errorResponse 500 "database error", st1)
        else
          match Leader_save env st1
                  { leaderName := body.leaderName,
                    teamName := body.teamName,
                    leaderVillage := body.leaderVillage.orElse .undefined,
                    leaderMobileNo := body.leaderMobileNo.orElse .undefined,
                    iconPlayer := body.iconPlayer.orElse .undefined,
                    iconPlayerMobileNo := body.iconPlayerMobileNo.orElse .undefined,
                    password := body.password.orElse .undefined,
                    teamLogo := teamLogoUrl,
                    teamNumber := (st1.leaders.length : Int) + 1 } with
          | .error e => (errorResponse 500 e, st1)
          | .ok (leader, st2) => ({ status := 201, body := .leader (some leader) }, st2)

/-- The query of the public registration: a leader whose `leaderMobileNo` equals the one
submitted (a missing one is sent as `null` and matches a leader without a number), or
whose `teamName` matches the case-insensitive pattern built from the submitted name. -/
def existingLeaderPublic (leaders : List LeaderDoc) (mobileNo : Option String)
    (teamNameTest : String → Bool) : Option LeaderDoc :=
  leaders.find? fun l =>
    l.leaderMobileNo == mobileNo ||
      match l.teamName with
      | some t => teamNameTest t
      | none => false

/-- The handler `router.post('/public')` of src/routes/leaderRoutes.js. -/
def leaderRoutes_postPublic (env : Env) (st : Store) (body : LeaderBody)
    (file : Option UploadedFile) : Response × Store :=
  if !body.leaderName.truthy || !body.teamName.truthy then
    ({ status := 400, body := .message "Leader Name and Team Name are required" }, st)
  else if !body.village.truthy then
    ({ status := 400, body := .message "Village is required for public registration" }, st)
  else if !body.password.truthy then
    ({ status := 400, body := .message "Password is required for public registration" }, st)
  else
    match env.regexTestCI ("^" ++ jsToString body.teamName ++ "$"),
          castString body.leaderMobileNo with
    | some teamNameTest, .ok mobileNo =>
      if env.dbFails .leaderFind then (errorResponse 400 "database error", st)
      else
        match existingLeaderPublic st.leaders mobileNo teamNameTest with
        | some _ =>
          ({ status := 400,
             body := .message "A leader with this mobile number or team name already exists" },
           st)
        | none =>
          match uploadToFirebase env st file "leaders" with
          | .error e => (errorResponse 400 e, st)
          | .ok (teamLogoUrl, st1) =>
            if env.dbFails .leaderCount then (errorResponse 400 "database error", st1)
            else
              match Leader_save env st1
                      { teamName := body.teamName.orElse (.prim (.str "")),
                        leaderName := body.leaderName.orElse (.prim (.str "")),
                        leaderVillage := body.village,
                        leaderMobileNo := body.leaderMobileNo.orElse .undefined,
                        password := body.password,
                        iconPlayer := body.iconPlayerName.orElse .undefined,
                        iconPlayerMobileNo := body.iconPlayerMobileNo.orElse .undefined,
                        teamLogo := teamLogoUrl,
                        teamNumber := (st1.leaders.length : Int) + 1 } with
              | .error e => (errorResponse 400 e, st1)
              | .ok (leader, st2) =>
                ({ status := 201, body := .leaderRegistered leader },
                 { st2 with emitted := st2.emitted ++ [.newLeader leader] })
    | _, _ => (errorResponse 400 "invalid query", st)

/-- The handler `router.put('/set-max-amount')` of src/routes/leaderRoutes.js. The update
sets `maxAmount` of every leader to `parseFloat(maxAmount)`; when that is `NaN` the cast
of the update fails and the `catch` block answers 500. -/
def leaderRoutes_setMaxAmount (env : Env) (st : Store) (maxAmount : JVal) : Response × Store :=
  if !maxAmount.truthy || jsLtZero env maxAmount || jsIsNaN env maxAmount then
    ({ status := 400, body := .message "Invalid max amount. Must be a positive number." }, st)
  else
    match jsParseFloat env maxAmount with
    | none => ({ status := 500, body := .message "Server error" }, st)
    | some amount =>
      if env.dbFails .leaderUpdateMany then
        ({ status := 500, body := .message "Server error" }, st)
      else
        ({ status := 200,
           body := .message ("Max amount set to ₹" ++ jsToString maxAmount ++ " for all teams") },
         { st with leaders := st.leaders.map (fun l => { l with maxAmount := amount }) })

/-- The object `updateData` of the leader update route. -/
structure LeaderUpdate where
  leaderName : JVal
  teamName : JVal
  leaderVillage : JVal
  leaderMobileNo : JVal
  iconPlayer : JVal
  iconPlayerMobileNo : JVal
  password : JVal
  teamLogo : Option String
  deriving DecidableEq, Repr

/-- Cast of `updateData` against leaderSchema (validators do not run on an update). -/
def leaderSchema_castUpdate (u : LeaderUpdate) : Except String (LeaderDoc → LeaderDoc) :=
  match castString u.leaderName, castString u.teamName, castString u.leaderVillage,
        castString u.leaderMobileNo, castString u.iconPlayer,
        castString u.iconPlayerMobileNo, castString u.password with
  | .ok leaderName, .ok teamName, .ok village, .ok mobileNo, .ok iconPlayer,
    .ok iconPlayerMobileNo, .ok password =>
    .ok fun l =>
      { l with leaderName := setPath u.leaderName leaderName l.leaderName,
               teamName := setPath u.teamName teamName l.teamName,
               leaderVillage := setPath u.leaderVillage village l.leaderVillage,
               leaderMobileNo := setPath u.leaderMobileNo mobileNo l.leaderMobileNo,
               iconPlayer := setPath u.iconPlayer iconPlayer l.iconPlayer,
               iconPlayerMobileNo :=
                 setPath u.iconPlayerMobileNo iconPlayerMobileNo l.iconPlayerMobileNo,
               password := setPath u.password password l.password,
               teamLogo :=
                 match u.teamLogo with
                 | some url => some url
                 | none => l.teamLogo }
  | _, _, _, _, _, _, _ => .error "Cast failed in update of Leader"

/-- The call `Leader.findByIdAndUpdate(id, updateData, \x7b new: true \x7d)`. -/
def Leader_findByIdAndUpdate (env : Env) (st : Store) (id : String) (u : LeaderUpdate) :
    Except String (Option LeaderDoc × Store) :=
  match leaderSchema_castUpdate u with
  | .error e => .error e
  | .ok update =>
    if env.dbFails .leaderUpdate then .error "database error"
    else
      match st.leaders.find? (fun l => l._id == id) with
      | none => .ok (none, st)
      | some l =>
        .ok (some (update l),
             { st with leaders := updateFirst (fun q => q._id == id) update st.leaders })

/-- End of the leader update route: the update itself and the response. -/
def leaderRoutes_put_update (env : Env) (st : Store) (id : String) (body : LeaderBody)
    (teamLogo : Option String) : Response × Store :=
  match Leader_findByIdAndUpdate env st id
          { leaderName := body.leaderName,
            teamName := body.teamName,
            leaderVillage := body.leaderVillage,
            leaderMobileNo := body.leaderMobileNo,
            iconPlayer := body.iconPlayer,
            iconPlayerMobileNo := body.iconPlayerMobileNo,
            password := body.password,
            teamLogo := teamLogo } with
  | .error e => ({ status := 500, body := .message e }, st)
  | .ok (updatedLeader, st1) => ({ status := 200, body := .leader updatedLeader }, st1)

/-- The handler `router.put('/:id')` of src/routes/leaderRoutes.js. -/
def leaderRoutes_put (env : Env) (st : Store) (id : String) (body : LeaderBody)
    (file : Option UploadedFile) : Response × Store :=
  if env.dbFails .leaderFind then ({ status := 500, body := .message "database error" }, st)
  else
    match st.leaders.find? (fun l => l._id == id) with
    | none => ({ status := 404, body := .message "Leader not found" }, st)
    | some leader =>
      match file with
      | none => leaderRoutes_put_update env st id body none
      | some f =>
        match uploadToFirebase env (releaseIfSet env st leader.teamLogo) (some f)
                "leaders" with
        | .error e =>
          ({ status := 500, body := .message e }, releaseIfSet env st leader.teamLogo)
        | .ok (url, st2) => leaderRoutes_put_update env st2 id body url

/-- The handler `router.delete('/:id')` of src/routes/leaderRoutes.js. -/
def leaderRoutes_delete (env : Env) (st : Store) (id : String) : Response × Store :=
  if env.dbFails .leaderFind then (errorResponse 500 "database error", st)
  else
    match st.leaders.find? (fun l => l._id == id) with
    | none => ({ status := 404, body := .message "Leader not found" }, st)
    | some leader =>
      if env.dbFails .leaderDelete then
        (errorResponse 500 "database error", releaseIfSet env st leader.teamLogo)
      else
        ({ status := 200, body := .message "Leader deleted successfully" },
         { releaseIfSet env st leader.teamLogo with
           leaders := (releaseIfSet env st leader.teamLogo).leaders.eraseP
                        (fun l => l._id == id) })

/-! ## The system as a transition system -/

/-- Request that changes the state: one constructor per modifying route. -/
inductive Request where
  | createPlayer (body : PlayerBody) (file : Option UploadedFile)
  | registerPlayer (body : PlayerBody) (file : Option UploadedFile)
  | updatePlayer (id : String) (body : PlayerBody) (file : Option UploadedFile)
  | deletePlayer (id : String)
  | createLeader (body : LeaderBody) (file : Option UploadedFile)
  | registerLeader (body : LeaderBody) (file : Option UploadedFile)
  | updateLeader (id : String) (body : LeaderBody) (file : Option UploadedFile)
  | deleteLeader (id : String)
  | setMaxAmount (maxAmount : JVal)
  | sale (body : SaleBody)
  deriving DecidableEq, Repr

/-- One request served to completion. -/
def handle (env : Env) (st : Store) : Request → Response × Store
  | .createPlayer body file => playerRoutes_post env st body file
  | .registerPlayer body file => playerRoutes_postPublic env st body file
  | .updatePlayer id body file => playerRoutes_put env st id body file
  | .deletePlayer id => playerRoutes_delete env st id
  | .createLeader body file => leaderRoutes_post env st body file
  | .registerLeader body file => leaderRoutes_postPublic env st body file
  | .updateLeader id body file => leaderRoutes_put env st id body file
  | .deleteLeader id => leaderRoutes_delete env st id
  | .setMaxAmount maxAmount => leaderRoutes_setMaxAmount env st maxAmount
  | .sale body => soldPlayerRoutes_post env st body

/-- Requests served one after another, each in its own environment. -/
def run (st : Store) : List (Env × Request) → Store
  | [] => st
  | (env, req) :: rest => run (handle env st req).2 rest

/-- The ledger holds at most one entry per player id. -/
def atMostOneSalePerPlayer (st : Store) : Prop :=
  (st.soldPlayers.map (fun d => d.player.id)).Nodup

/-- The ledger holds an entry for the player id. -/
def hasSale (st : Store) (playerId : String) : Prop :=
  ∃ d ∈ st.soldPlayers, d.player.id = playerId

/-- Sale submissions served one after another. -/
def runSales (st : Store) : List (Env × SaleBody) → Store
  | [] => st
  | (env, body) :: rest => runSales (soldPlayerRoutes_post env st body).2 rest

/-- The player is recorded as not sold: status 'Available' and no buying team. -/
def unsold (p : PlayerDoc) : Prop :=
  p.status = "Available" ∧ p.soldTo = none

/-- No sale has left a trace: the ledger is empty and every player is unsold. -/
def neverSold (st : Store) : Prop :=
  st.soldPlayers = [] ∧ ∀ p ∈ st.players, unsold p

/-- The three collections of the second store are those of the first. -/
def sameCollections (st st' : Store) : Prop :=
  st'.players = st.players ∧ st'.leaders = st.leaders ∧ st'.soldPlayers = st.soldPlayers

/-- Every player of the second store is unsold or has the status and the buying team of
a player of the first store. -/
def playersEvolve (st st' : Store) : Prop :=
  ∀ q ∈ st'.players, unsold q ∨ ∃ p ∈ st.players, q.status = p.status ∧ q.soldTo = p.soldTo

/-- What an update does to a text path given the value `given` of the request: an absent
value keeps the old text, `null` clears it, a text replaces it. -/
def textUpdated (given : JVal) (old new : Option String) : Prop :=
  (given = .undefined → new = old) ∧ (given = .prim .null → new = none)
    ∧ ∀ s, given = .prim (.str s) → new = some s

/-- What an update does to a path whose new value the route computes: nothing when the
route computed none, the computed value otherwise; the computed value is never invalid. -/
def givenUpdated {α : Type} (given : Given α) (old new : Option α) : Prop :=
  (given = .unset → new = old) ∧ (∀ a, given = .value a → new = some a) ∧ given ≠ .invalid

/-- What the player update route makes of the player `p` when it answers with the player
`q`: the text paths follow the request, `dob`, `age` and `serialNo` follow the values the
route computes from the request, the photo is kept when no file is sent, and the base
price, the sale fields and the id are kept. -/
def playerUpdatedAs (env : Env) (body : PlayerBody) (newPhoto : Bool) (p q : PlayerDoc) :
    Prop :=
  textUpdated body.name p.name q.name
    ∧ textUpdated body.category p.category q.category
    ∧ textUpdated body.village p.village q.village
    ∧ textUpdated body.mobileNo p.mobileNo q.mobileNo
    ∧ textUpdated body.economicallyWeaker p.economicallyWeaker q.economicallyWeaker
    ∧ textUpdated body.battingStyle p.battingStyle q.battingStyle
    ∧ textUpdated body.bowlingStyle p.bowlingStyle q.bowlingStyle
    ∧ textUpdated body.password p.password q.password
    ∧ givenUpdated (newDateIfTruthy env body.dob) p.dob q.dob
    ∧ givenUpdated (parseIntIfTruthy env body.age) p.age q.age
    ∧ givenUpdated (parseIntIfTruthy env body.serialNo) (some p.serialNo) (some q.serialNo)
    ∧ (newPhoto = false → q.profilePhoto = p.profilePhoto)
    ∧ q.basePrice = p.basePrice ∧ q.status = p.status ∧ q.soldTo = p.soldTo
    ∧ q.soldPrice = p.soldPrice ∧ q.isSold = p.isSold ∧ q.soldAt = p.soldAt
    ∧ q.teamName = p.teamName ∧ q.soldDate = p.soldDate ∧ q.soldTime = p.soldTime
    ∧ q._id = p._id

/-- Name of the object `deleteFromFirebase` derives from a URL: the text matched by the
group of `/\/o\/(.*?)\?/`, URI-decoded; `none` when the URL does not match or the
decoding throws. -/
def objectNameOf (env : Env) (url : String) : Option String :=
  match matchObjectPath url.toList with
  | none => none
  | some captured => env.decodeURIComponent (String.mk captured)

/-- The `try` block of `deleteFromFirebase` (firebaseUtils.js, lines 19 to 32): the store
it leaves when it ends normally, or the error thrown inside it, by `decodeURIComponent`
or by `file.delete()`, with the store at that moment. -/
def deleteFromFirebase_try (env : Env) (st : Store) (url : JVal) :
    Except (String × Store) Store :=
  match url with
  | .prim (.str u) =>
    if u == "" then .ok st
    else
      match matchObjectPath u.toList with
      | none => .ok st
      | some captured =>
        match env.decodeURIComponent (String.mk captured) with
        | none => .error ("URIError: URI malformed", st)
        | some fileName =>
          if env.bucketDeleteFails || !st.bucket.contains fileName then
            .error ("delete failed",
                    { st with bucketCalls := st.bucketCalls ++ [.delete fileName] })
          else
            .ok { st with bucket := st.bucket.filter (fun o => o != fileName),
                          bucketCalls := st.bucketCalls ++ [.delete fileName] }
  | _ => .ok st

/-- A `try` block followed by a `catch` block that only logs: the store is the one the
block left, or the one at the moment of the throw, and nothing is thrown further. -/
def caught (r : Except (String × Store) Store) : Store :=
  match r with
  | .ok st => st
  | .error (_, st) => st

/-! ## Sale submissions served concurrently -/

/-- A sale submission being served, at one of the points where the handler of
src/routes/soldPlayerRoutes.js yields to other requests (the `await` of lines 18, 30,
33 and 44), or answered. -/
inductive SaleTask where
  /-- The request has arrived; the handler has not run yet. -/
  | received (body : SaleBody)
  /-- The query of line 18 found no sale; `soldPlayer.save()` is the next operation. -/
  | checked (body : SaleBody)
  /-- The insert of line 30 is made; the update of the player is the next operation. -/
  | saved (body : SaleBody) (soldPlayer : SoldPlayerDoc)
  /-- The update of line 33 is made; the push onto the roster is the next operation. -/
  | playerUpdated (body : SaleBody) (soldPlayer : SoldPlayerDoc)
  /-- The response is sent. -/
  | answered (response : Response)
  deriving DecidableEq, Repr

/-- One database operation of a sale submission, with the code of the handler that runs
up to the next `await`. -/
def SaleTask.step (env : Env) (st : Store) : SaleTask → SaleTask × Store
  | .received body =>
    if !body.player.truthy || !body.team.truthy || !body.leader.truthy
        || !body.saleDetails.truthy || !(body.saleDetails.get "amount").truthy then
      (.answered { status := 400, body := .message "Missing required fields" }, st)
    else
      match SoldPlayer_findOne env st (body.player.get "_id") with
      | .error e => (.answered (saleServerError e), st)
      | .ok (some _) =>
        (.answered { status := 400, body := .message "Player is already sold" }, st)
      | .ok none => (.checked body, st)
  | .checked body =>
    match SoldPlayer_save env st (rawSoldPlayerOf body) with
    | .error e => (.answered (saleServerError e), st)
    | .ok (soldPlayer, st1) => (.saved body soldPlayer, st1)
  | .saved body soldPlayer =>
    match Player_findByIdAndUpdate_set env st (body.player.get "_id") (saleSetOf body) with
    | .error e => (.answered (saleServerError e), st)
    | .ok st1 => (.playerUpdated body soldPlayer, st1)
  | .playerUpdated body soldPlayer =>
    match Leader_findByIdAndUpdate_push env st (body.team.get "_id") (rosterEntryOf body) with
    | .error e => (.answered (saleServerError e), st)
    | .ok st1 => (.answered { status := 201, body := .soldPlayer soldPlayer }, st1)
  | .answered response => (.answered response, st)

/-- The given number of operations of one submission, with no other request in
between. -/
def SaleTask.steps (env : Env) : Nat → Store → SaleTask → SaleTask × Store
  | 0, st, task => (task, st)
  | n + 1, st, task => SaleTask.steps env n (SaleTask.step env st task).2
                         (SaleTask.step env st task).1

/-- The submission `i` makes its next operation; the others wait. -/
def stepAt (env : Env) (st : Store) (tasks : List SaleTask) (i : Nat) :
    List SaleTask × Store :=
  match tasks.get? i with
  | none => (tasks, st)
  | some task => (tasks.set i (SaleTask.step env st task).1, (SaleTask.step env st task).2)

/-- Submissions served concurrently: the schedule names, operation after operation, the
submission that moves and the environment of that operation. -/
def interleave (st : Store) (tasks : List SaleTask) : List (Env × Nat) → List SaleTask × Store
  | [] => (tasks, st)
  | (env, i) :: rest => interleave (stepAt env st tasks i).2 (stepAt env st tasks i).1 rest

/-- The submission is answered with 201. -/
def SaleTask.succeeded : SaleTask → Bool
  | .answered response => response.status == 201
  | _ => false

/-- The submission is answered with 400 'Player is already sold'. -/
def SaleTask.alreadySold : SaleTask → Bool
  | .answered response =>
    response == { status := 400, body := .message "Player is already sold" }
  | _ => false

/-- The submission has made no insert and is not answered with 201 nor with 'Player is
already sold'. -/
def SaleTask.notSettled : SaleTask → Prop
  | .received _ => True
  | .checked _ => True
  | .saved _ _ => False
  | .playerUpdated _ _ => False
  | .answered response =>
    response.status ≠ 201
      ∧ response ≠ { status := 400, body := .message "Player is already sold" }

/-- The second store holds the player and leader records of the first, in the same
order, where only a player with the id `player._id` of the submission and only a leader
with the id `team._id` may differ from before, in fields other than the id, and no
leader differs in `maxAmount`. -/
def changesOnlySaleParties (body : SaleBody) (st st' : Store) : Prop :=
  List.Forall₂
      (fun q q' => q' = q ∨ (body.player.get "_id" = .prim (.str q._id) ∧ q'._id = q._id))
      st.players st'.players
    ∧ List.Forall₂
      (fun l l' => (l' = l ∨ (body.team.get "_id" = .prim (.str l._id) ∧ l'._id = l._id))
        ∧ l'.maxAmount = l.maxAmount)
      st.leaders st'.leaders

/-! ## Paginated listings (src/models/Player.js, src/models/Leader.js) -/

/-- Documents in ascending order of a numeric key: the option `sort(\x7b key: 1 \x7d)` of a
query. Documents with equal keys keep their order; the unique indexes on `serialNo` and
`teamNumber` leave no two documents with equal keys. -/
def sortedBy {α : Type} (key : α → Int) (docs : List α) : List α :=
  docs.insertionSort (fun a b => key a ≤ key b)

/-- The query `find().limit(limit).skip(skip).sort(\x7b key: 1 \x7d)`: the server sorts,
then skips, then limits, whatever the order of the calls that set the three options. A
negative `skip` is refused, and `limit(0)` sets no limit. -/
def findSortedPage {α : Type} (key : α → Int) (docs : List α) (skip : Int) (limit : Nat) :
    Except String (List α) :=
  if skip < 0 then .error "Skip value must be non-negative"
  else if limit = 0 then .ok ((sortedBy key docs).drop skip.toNat)
  else .ok (((sortedBy key docs).drop skip.toNat).take limit)

/-- The static `Player.getPlayers(page = 1, pageSize = 20)` of src/models/Player.js;
`none` is an argument left out. -/
def Player_getPlayers (env : Env) (st : Store) (page pageSize : Option Nat) :
    Except String (List PlayerDoc) :=
  if env.dbFails .playerFind then .error "database error"
  else
    findSortedPage (fun p => p.serialNo) st.players
      ((((page.getD 1 : Nat) : Int) - 1) * ((pageSize.getD 20 : Nat) : Int)) (pageSize.getD 20)

/-- The static `Leader.getLeaders(page = 1, pageSize = 10)` of src/models/Leader.js;
`none` is an argument left out. -/
def Leader_getLeaders (env : Env) (st : Store) (page pageSize : Option Nat) :
    Except String (List LeaderDoc) :=
  if env.dbFails .leaderFind then .error "database error"
  else
    findSortedPage (fun l => l.teamNumber) st.leaders
      ((((page.getD 1 : Nat) : Int) - 1) * ((pageSize.getD 10 : Nat) : Int)) (pageSize.getD 10)

/-- Page `page` of size `pageSize` of a list: the elements at the positions
`(page - 1) * pageSize` up to `page * pageSize - 1`. -/
def pageOf {α : Type} (all : List α) (page pageSize : Nat) : List α :=
  (all.drop ((page - 1) * pageSize)).take pageSize

/-! ## Concrete data: the scenario of the specification -/

namespace Demo

/-- Environment in which no external service fails. -/
def env : Env :=
  { today := { year := 2025, month := 0, date := 15 }, nowMs := 1736900000000,
    newId := "s1", toNumber := fun _ => none, parseInt := fun _ => none,
    parseFloat := fun _ => none, newDate := fun _ => none,
    encodeURIComponent := fun s => s, decodeURIComponent := fun s => some s,
    regexTestCI := fun _ => none, bucketName := "bucket", dbFails := fun _ => false,
    bucketSaveFails := false, bucketDeleteFails := false }

/-- Player `p1`, registered and not sold. -/
def player1 : PlayerDoc :=
  { _id := "p1", name := some "X", dob := none, age := none, category := some "Batsman",
    profilePhoto := some "photo", serialNo := 1, village := none, mobileNo := none,
    password := none, battingStyle := none, bowlingStyle := none,
    economicallyWeaker := some "No", soldTo := none, isSold := false, soldPrice := none,
    soldAt := none, teamName := none, soldDate := none, soldTime := none,
    status := "Available", basePrice := 500 }

/-- Team `t1` of leader `L`, with an empty roster. -/
def team1 : LeaderDoc :=
  { _id := "t1", teamName := some "Lions", leaderName := some "L", leaderVillage := none,
    leaderMobileNo := none, password := none, iconPlayer := none,
    iconPlayerMobileNo := none, teamLogo := some "logo", teamNumber := 1, maxAmount := 0,
    players := [] }

/-- The sale submission of the specification's scenario. -/
def saleBody : SaleBody :=
  { player := .obj [("_id", .str "p1"), ("name", .str "X"), ("category", .str "Batsman"),
                    ("basePrice", .num 500)],
    team := .obj [("_id", .str "t1"), ("name", .str "Lions")],
    leader := .obj [("name", .str "L")],
    saleDetails := .obj [("amount", .num 1500)] }

/-- The same submission with the amount -5. -/
def saleBodyNegative : SaleBody :=
  { saleBody with saleDetails := .obj [("amount", .num (-5))] }

/-- The same submission with the amount 0. -/
def saleBodyZero : SaleBody :=
  { saleBody with saleDetails := .obj [("amount", .num 0)] }

/-- Ledger entry recording the sale of `p1` to `t1` for 1500. -/
def sale1 : SoldPlayerDoc :=
  { _id := "s0",
    player := { id := "p1", name := "X", category := "Batsman", basePrice := 500,
                profilePhoto := none },
    team := { id := "t1", name := "Lions", logo := none },
    leader := { name := "L" },
    saleDetails := { amount := 1500, date := some { year := 2025, month := 0, date := 14 } } }

/-- Store with `p1` and `t1` and an empty ledger. -/
def storeBefore : Store :=
  { players := [player1], leaders := [team1], soldPlayers := [], bucket := [],
    bucketCalls := [], emitted := [] }

/-- Store with `p1` and `t1` whose ledger holds the sale of `p1`. -/
def storeSold : Store :=
  { storeBefore with soldPlayers := [sale1] }

/-- Photo uploaded with a registration. -/
def photoFile : UploadedFile :=
  { originalname := "x.png", mimetype := "image/png" }

/-- Body of the admin creation of player `X`. -/
def playerBody : PlayerBody :=
  { name := .prim (.str "X"), dob := .undefined, age := .undefined,
    category := .prim (.str "Batsman"), serialNo := .undefined, village := .prim (.str "V"),
    mobileNo := .undefined, economicallyWeaker := .undefined, basePrice := .prim (.num 500),
    battingStyle := .undefined, bowlingStyle := .undefined, password := .undefined }

/-- The player the admin creation of `playerBody` stores in the empty store. -/
def createdPlayer : PlayerDoc :=
  { _id := "s1", name := some "X", dob := none, age := none, category := some "Batsman",
    profilePhoto :=
      some "https://firebasestorage.googleapis.com/v0/b/bucket/o/players/1736900000000-x.png?alt=media",
    serialNo := 1, village := some "V", mobileNo := none, password := none,
    battingStyle := none, bowlingStyle := none, economicallyWeaker := some "No",
    soldTo := none, isSold := false, soldPrice := none, soldAt := none, teamName := none,
    soldDate := none, soldTime := none, status := "Available", basePrice := 500 }

/-- Creation of player `X`, then a sale submission for that player. -/
def requests : List (Env × Request) :=
  [(env, .createPlayer playerBody (some photoFile)),
   (env, .sale { saleBody with
                 player := .obj [("_id", .str "s1"), ("name", .str "X"),
                                 ("category", .str "Batsman"), ("basePrice", .num 500)] })]

/-- Store `storeSold` after the player update of the sale route. -/
def storeSoldUpdated : Store :=
  { storeSold with
    players := [{ player1 with isSold := true, soldTo := some "t1", teamName := some "Lions" }] }

/-- Body of a creation with the name `A`, the village `V` and the category `Batsman`
only. -/
def bodyA : PlayerBody :=
  { name := .prim (.str "A"), dob := .undefined, age := .undefined,
    category := .prim (.str "Batsman"), serialNo := .undefined, village := .prim (.str "V"),
    mobileNo := .undefined, economicallyWeaker := .undefined, basePrice := .undefined,
    battingStyle := .undefined, bowlingStyle := .undefined, password := .undefined }

/-- The player the admin creation of `bodyA` with a photo stores in the empty store. -/
def createdA : PlayerDoc :=
  { _id := "s1", name := some "A", dob := none, age := none, category := some "Batsman",
    profilePhoto :=
      some "https://firebasestorage.googleapis.com/v0/b/bucket/o/players/1736900000000-x.png?alt=media",
    serialNo := 1, village := some "V", mobileNo := none, password := none,
    battingStyle := none, bowlingStyle := none, economicallyWeaker := some "No",
    soldTo := none, isSold := false, soldPrice := none, soldAt := none, teamName := none,
    soldDate := none, soldTime := none, status := "Available", basePrice := 0 }

/-- The player the admin creation of `bodyA` with a photo stores after player `p1`. -/
def createdSecond : PlayerDoc :=
  { createdA with serialNo := 2 }

/-- Environment of a request that creates the document `id` at the time `nowMs`. -/
def envAt (id : String) (nowMs : Nat) : Env :=
  { env with newId := id, nowMs := nowMs }

/-- Body of a public registration of player `B`. -/
def bodyPublic : PlayerBody :=
  { bodyA with name := .prim (.str "B"), password := .prim (.str "pw") }

/-- Two admin creations (serial numbers 1 and 2), then the deletion of the first
player. -/
def requestsWithDeletion : List (Env × Request) :=
  [(envAt "a1" 1, .createPlayer bodyA (some photoFile)),
   (envAt "a2" 2, .createPlayer bodyA (some photoFile)),
   (envAt "a3" 3, .deletePlayer "a1")]

/-- Store after the two creations and the deletion: one player, with serial number 2. -/
def storeAfterDeletion : Store :=
  run Store.empty requestsWithDeletion

/-- An admin creation with the explicit serial number 5. -/
def requestsExplicitSerial : List (Env × Request) :=
  [(envAt "a1" 1, .createPlayer { bodyA with serialNo := .prim (.num 5) } (some photoFile))]

/-- Store with one player, whose serial number is 5. -/
def storeExplicitSerial : Store :=
  run Store.empty requestsExplicitSerial

/-- The JavaScript regular expressions `new RegExp(source, 'i')` of the examples:
`^A+$` matches the texts made of one or more letters `a` or `A`; `^Tigers$` and
`^Bears$` match the names `Tigers` and `Bears` in any letter case. -/
def regexCI (source : String) : Option (String → Bool) :=
  if source == "^A+$" then
    some fun text => text != "" && text.toList.all (fun c => c == 'A' || c == 'a')
  else if source == "^Tigers$" then
    some fun text => text.toList.map Char.toLower == "tigers".toList
  else if source == "^Bears$" then
    some fun text => text.toList.map Char.toLower == "bears".toList
  else none

/-- Environment with the regular expressions of the examples. -/
def envRegex (id : String) (nowMs : Nat) : Env :=
  { env with newId := id, nowMs := nowMs, regexTestCI := regexCI }

/-- Logo uploaded with the registration of a leader. -/
def logoFile : UploadedFile :=
  { originalname := "logo.png", mimetype := "image/png" }

/-- Body of the creation of leader `leaderName` with team `teamName` and a mobile
number. -/
def leaderBody (leaderName teamName mobileNo : String) : LeaderBody :=
  { leaderName := .prim (.str leaderName), teamName := .prim (.str teamName),
    leaderVillage := .prim (.str "V"), village := .prim (.str "V"),
    leaderMobileNo := .prim (.str mobileNo), iconPlayer := .undefined,
    iconPlayerName := .undefined, iconPlayerMobileNo := .undefined,
    password := .prim (.str "pw") }

/-- Two admin creations of leaders (team numbers 1 and 2), then the deletion of the
first leader. -/
def leaderRequestsWithDeletion : List (Env × Request) :=
  [(envRegex "l1" 1, .createLeader (leaderBody "K" "Lions" "111") (some logoFile)),
   (envRegex "l2" 2, .createLeader (leaderBody "L" "Bears" "222") (some logoFile)),
   (envRegex "l3" 3, .deleteLeader "l1")]

/-- Store after the two creations and the deletion: one leader, with team number 2. -/
def leaderStoreAfterDeletion : Store :=
  run Store.empty leaderRequestsWithDeletion

/-- Store after the public registration of leader `K` with the team `A+`. -/
def storeTeamAPlus : Store :=
  (leaderRoutes_postPublic (envRegex "l1" 1) Store.empty (leaderBody "K" "A+" "111")
    (some logoFile)).2

/-- Player `p1` with the age 20. -/
def playerAged : PlayerDoc :=
  { player1 with age := some 20 }

/-- Store with the player `p1` aged 20. -/
def storeAged : Store :=
  { storeBefore with players := [playerAged] }

/-- Update request that carries `basePrice: 700` and `age: null` and nothing else. -/
def bodyPriceAndAge : PlayerBody :=
  { name := .undefined, dob := .undefined, age := .prim .null, category := .undefined,
    serialNo := .undefined, village := .undefined, mobileNo := .undefined,
    economicallyWeaker := .undefined, basePrice := .prim (.num 700),
    battingStyle := .undefined, bowlingStyle := .undefined, password := .undefined }

/-- Update request that carries the name `Y` and the village `W` and nothing else. -/
def bodyNameVillage : PlayerBody :=
  { bodyPriceAndAge with name := .prim (.str "Y"), village := .prim (.str "W"),
                         age := .undefined, basePrice := .undefined }

/-- Store after the admin creation of one player, whose photo is the object
`players/1-x.png`. -/
def storeOnePlayer : Store :=
  run Store.empty [(envAt "a1" 1, .createPlayer bodyA (some photoFile))]

/-- Store after the admin creation of one leader, whose logo is the object
`leaders/1-logo.png`. -/
def storeOneLeader : Store :=
  run Store.empty [(envAt "l1" 1, .createLeader (leaderBody "K" "Lions" "111") (some logoFile))]

/-- Update request that carries nothing but a file. -/
def bodyEmpty : PlayerBody :=
  { bodyPriceAndAge with age := .undefined, basePrice := .undefined }

/-- Leader update request that carries nothing but a file. -/
def leaderBodyEmpty : LeaderBody :=
  { leaderName := .undefined, teamName := .undefined, leaderVillage := .undefined,
    village := .undefined, leaderMobileNo := .undefined, iconPlayer := .undefined,
    iconPlayerName := .undefined, iconPlayerMobileNo := .undefined, password := .undefined }

/-- Environment at the time 2 in which storing an object fails. -/
def envSaveFails : Env :=
  { envAt "a2" 2 with bucketSaveFails := true }

/-- Environment at the time 2 in which deleting an object fails. -/
def envDeleteFails : Env :=
  { envAt "a2" 2 with bucketDeleteFails := true }

/-- URL of the photo of the player of `storeOnePlayer`. -/
def photoUrl : String :=
  "https://firebasestorage.googleapis.com/v0/b/bucket/o/players/1-x.png?alt=media"

/-- Body of a creation with an empty name. -/
def bodyNoName : PlayerBody :=
  { bodyPublic with name := .prim (.str "") }

/-- Environment of a registration on 15 January 2025 in which `new Date('2000-06-15')`
is 15 June 2000. -/
def envBorn : Env :=
  { envAt "b1" 1 with
    newDate := fun p =>
      if p = .str "2000-06-15" then some { year := 2000, month := 5, date := 15 } else none }

/-- Body of a public registration with the date of birth 15 June 2000. -/
def bodyBorn : PlayerBody :=
  { bodyPublic with dob := .prim (.str "2000-06-15") }

/-- The player the public registration of `bodyBorn` stores in the empty store. -/
def registeredBorn : PlayerDoc :=
  { createdA with
    _id := "b1", name := some "B", dob := some { year := 2000, month := 5, date := 15 },
    age := some 24, password := some "pw", profilePhoto := some photoUrl }

/-- Store with three players, inserted with the serial numbers 3, 1 and 2. -/
def storeThree : Store :=
  { Store.empty with
    players := [{ createdA with _id := "c", serialNo := 3 },
                { createdA with _id := "a", serialNo := 1 },
                { createdA with _id := "b", serialNo := 2 }] }

/-- Environment at the time 1 with JavaScript's values of `encodeURIComponent` and
`decodeURIComponent` on the object names of the examples. -/
def envEncoded : Env :=
  { envAt "a1" 1 with
    encodeURIComponent := fun s => if s = "players/1-x.png" then "players%2F1-x.png" else s,
    decodeURIComponent := fun s =>
      if s = "players%2F1-x.png" then some "players/1-x.png"
      else if s = "o/players%2F1-x.png" then some "o/players/1-x.png"
      else some s }

/-- Environment at the time 1 in which the bucket has the name `o`. -/
def envBucketO : Env :=
  { envEncoded with bucketName := "o" }

/-- Id of a player, in the form of the text of an ObjectId (24 hexadecimal digits). -/
def playerId : String := "65a000000000000000000001"

/-- Id of a team, in the form of the text of an ObjectId. -/
def teamId : String := "65a000000000000000000002"

/-- Environment of the request that creates the document with the given id, in the form
of the text of an ObjectId. -/
def envSale1 : Env := envAt "65a0000000000000000000a1" 2

/-- Environment of a later request. -/
def envSale2 : Env := envAt "65a0000000000000000000a2" 3

/-- A sale submission in which `player._id`, `team._id` and `leader._id` hold the objects
soldPlayerSchema asks for under `player`, `team` and `leader`. -/
def saleBodySnapshots : SaleBodyDeep :=
  { player := .obj [("_id", .obj [("id", .str playerId), ("name", .str "X"),
                                  ("category", .str "Batsman"), ("basePrice", .num 500)]),
                    ("name", .prim (.str "X")), ("category", .prim (.str "Batsman"))],
    team := .obj [("_id", .obj [("id", .str teamId), ("name", .str "Lions")]),
                  ("name", .prim (.str "Lions"))],
    leader := .obj [("_id", .obj [("name", .str "L")]), ("name", .prim (.str "L"))],
    saleDetails := .obj [("amount", .num 1500)] }

/-- A sale submission in which `player._id` and `team._id` hold, with the fields
soldPlayerSchema asks for, the `_id` of the record. -/
def saleBodySnapshotsWithId : SaleBodyDeep :=
  { player := .obj [("_id", .obj [("_id", .str playerId), ("id", .str playerId),
                                  ("name", .str "X"), ("category", .str "Batsman"),
                                  ("basePrice", .num 500)]),
                    ("name", .prim (.str "X")), ("category", .prim (.str "Batsman"))],
    team := .obj [("_id", .obj [("_id", .str teamId), ("id", .str teamId),
                                ("name", .str "Lions")]),
                  ("name", .prim (.str "Lions"))],
    leader := .obj [("_id", .obj [("name", .str "L")]), ("name", .prim (.str "L"))],
    saleDetails := .obj [("amount", .num 1500)] }

/-- Store after the admin creation of player `X`, which is given the id `playerId`. -/
def storeCreated : Store :=
  run Store.empty [(envAt playerId 1, .createPlayer playerBody (some photoFile))]

/-- The player of `storeCreated`. -/
def createdX : PlayerDoc :=
  { createdPlayer with _id := playerId, profilePhoto := some photoUrl }

end Demo

/-! ## Properties of the sale route -/

/-- A property read never yields an object. -/
theorem JVal.get_ne_obj (v : JVal) (key : String) (fields : List (String × Prim)) :
    v.get key ≠ .obj fields := by
  unfold JVal.get
  split
  · split <;> simp
  · simp

/-- A property read from the result of a property read is `undefined`. -/
theorem JVal.get_get (v : JVal) (k k' : String) : (v.get k).get k' = .undefined := by
  cases h : v.get k with
  | undefined => rfl
  | prim p => rfl
  | obj fs => exact absurd h (JVal.get_ne_obj v k fs)

/-- A document whose `player` is given no `id` does not pass validation. -/
theorem soldPlayerSchema_error_of_no_id (env : Env) (raw : RawSoldPlayer)
    (h : raw.player.get "id" = .undefined) :
    soldPlayerSchema env raw = .error "SoldPlayer validation failed" := by
  unfold soldPlayerSchema
  rw [h]
  simp [castObjectId, required]

/-- The stored sub-document `player` holds an ObjectId and equals no value of a
request. -/
theorem mongoEq_playerValue (d : SoldPlayerDoc) (query : JVal) :
    mongoEq d.playerValue query = false := by
  cases query with
  | undefined => rfl
  | prim p => rfl
  | obj fields =>
    cases fields with
    | nil => simp [mongoEq, SoldPlayerDoc.playerValue]
    | cons kv rest => simp [mongoEq, SoldPlayerDoc.playerValue]

/-- The query of the sale route finds no ledger entry, whatever the ledger holds and
whatever the value of `player._id`. -/
theorem SoldPlayer_findOne_none (env : Env) (st : Store) (query : JVal) :
    SoldPlayer_findOne env st query = .error "database error"
      ∨ SoldPlayer_findOne env st query = .ok none := by
  unfold SoldPlayer_findOne
  split
  · exact Or.inl rfl
  · right
    congr 1
    rw [List.find?_eq_none]
    intro d _
    simp [mongoEq_playerValue]

/-- The query of the sale route finds no ledger entry, whatever the ledger holds. -/
theorem SoldPlayer_findOne_get (env : Env) (st : Store) (v : JVal) (key : String) :
    SoldPlayer_findOne env st (v.get key) = .error "database error"
      ∨ SoldPlayer_findOne env st (v.get key) = .ok none :=
  SoldPlayer_findOne_none env st (v.get key)

/-- Validation accepts a document whose nested paths are given their snapshots. -/
theorem soldPlayerSchema_accepts_snapshot :
    soldPlayerSchema Demo.env
        { player := .obj [("id", .str "p1"), ("name", .str "X"), ("category", .str "Batsman"),
                          ("basePrice", .num 500)],
          team := .obj [("id", .str "t1"), ("name", .str "Lions")],
          leader := .obj [("name", .str "L")],
          saleDetails := .obj [("amount", .num 1500)] }
      = .ok { Demo.sale1 with
              _id := "s1",
              saleDetails := { amount := 1500, date := some Demo.env.today } } := by
  rfl

/-- The insert of the sale route fails: the document is built from the three `_id`
values, which give the nested paths no field. -/
theorem SoldPlayer_save_of_ids (env : Env) (st : Store) (body : SaleBody) :
    SoldPlayer_save env st (rawSoldPlayerOf body) = .error "SoldPlayer validation failed" := by
  unfold SoldPlayer_save
  rw [soldPlayerSchema_error_of_no_id env _ (JVal.get_get _ _ _)]

/-- The sale route leaves the store as it was. -/
theorem soldPlayerRoutes_post_store (env : Env) (st : Store) (body : SaleBody) :
    (soldPlayerRoutes_post env st body).2 = st := by
  unfold soldPlayerRoutes_post
  split
  · rfl
  · rw [SoldPlayer_save_of_ids]
    split <;> rfl

/-! ## Claims about the sale route -/

/-- C1, evaluated on the code: with the sale of `p1` already in the ledger, a complete
submission for `p1` is not answered with 400 'Player is already sold'. The query compares
the stored sub-document `player` with the id and finds nothing, the insert then fails
validation, and the answer is 500; the store is left as it was. -/
theorem sale_of_sold_player_answers_500 :
    hasSale Demo.storeSold "p1"
      ∧ SoldPlayer_findOne Demo.env Demo.storeSold (Demo.saleBody.player.get "_id") = .ok none
      ∧ soldPlayerRoutes_post Demo.env Demo.storeSold Demo.saleBody
          = ({ status := 500, body := .failure "SoldPlayer validation failed" },
             Demo.storeSold) := by
  refine ⟨⟨Demo.sale1, ?_, rfl⟩, rfl, ?_⟩
  · simp [Demo.storeSold]
  · decide

/-- C3 as stated fails: a submission with all four parts and the amount -5 passes the
presence check and is not answered with 400. -/
theorem sale_negative_amount_not_rejected_with_400 :
    Demo.saleBodyNegative.saleDetails.get "amount" = .prim (.num (-5))
      ∧ (soldPlayerRoutes_post Demo.env Demo.storeBefore Demo.saleBodyNegative).1.status = 500
      ∧ (soldPlayerRoutes_post Demo.env Demo.storeBefore Demo.saleBodyNegative).1.status ≠ 400 := by
  decide

/-- C3, amended: a submission in which `player`, `team`, `leader` or `saleDetails` is
missing (falsy), or whose `saleDetails.amount` is missing or falsy (absent, null, 0,
empty text, false), is answered with 400 'Missing required fields' and the store is left
as it was. -/
theorem sale_missing_field_rejected (env : Env) (st : Store) (body : SaleBody)
    (h : body.player.truthy = false ∨ body.team.truthy = false ∨ body.leader.truthy = false
          ∨ body.saleDetails.truthy = false
          ∨ (body.saleDetails.get "amount").truthy = false) :
    soldPlayerRoutes_post env st body
      = ({ status := 400, body := .message "Missing required fields" }, st) := by
  unfold soldPlayerRoutes_post
  rw [if_pos]
  rcases h with h | h | h | h | h <;> simp [h]

/-- Witness of amended C3: the scenario's submission with the amount 0. -/
theorem sale_missing_field_rejected_witness :
    (Demo.saleBodyZero.saleDetails.get "amount").truthy = false
      ∧ soldPlayerRoutes_post Demo.env Demo.storeBefore Demo.saleBodyZero
          = ({ status := 400, body := .message "Missing required fields" }, Demo.storeBefore) :=
  ⟨by decide,
   sale_missing_field_rejected Demo.env Demo.storeBefore Demo.saleBodyZero
     (Or.inr (Or.inr (Or.inr (Or.inr (by decide)))))⟩

/-- C4, evaluated on the code: the scenario's submission for the unsold player `p1` is
answered with 500 and leaves `p1` with status 'Available', no `soldTo` and no
`soldPrice`. Moreover the update the route would run after a successful insert sets
`isSold`, `soldTo` and `teamName` only: on the store that holds the sale of `p1` it
leaves the status 'Available' and `soldPrice` unset. -/
theorem sale_does_not_mark_player_sold :
    (soldPlayerRoutes_post Demo.env Demo.storeBefore Demo.saleBody).1.status = 500
      ∧ (soldPlayerRoutes_post Demo.env Demo.storeBefore Demo.saleBody).2.players
          = [Demo.player1]
      ∧ Demo.player1.status = "Available" ∧ Demo.player1.soldTo = none
      ∧ Demo.player1.soldPrice = none
      ∧ (soldPlayerRoutes_post_afterSave Demo.env Demo.storeSold Demo.saleBody Demo.sale1).2.players
          = [{ Demo.player1 with isSold := true, soldTo := some "t1",
                                 teamName := some "Lions" }] := by
  decide

/-- C5, evaluated on the code: the scenario's submission is answered with 500 and leaves
the roster of `t1` empty. Moreover the push the route would run after a successful
insert fails: the pushed object is not an ObjectId, so on the store that holds the sale
of `p1` the answer is 500 and the roster stays empty. -/
theorem sale_does_not_extend_roster :
    (soldPlayerRoutes_post Demo.env Demo.storeBefore Demo.saleBody).1.status = 500
      ∧ (soldPlayerRoutes_post Demo.env Demo.storeBefore Demo.saleBody).2.leaders
          = [Demo.team1]
      ∧ Demo.team1.players = []
      ∧ (soldPlayerRoutes_post_afterSave Demo.env Demo.storeSold Demo.saleBody Demo.sale1).1
          = { status := 500, body := .failure "Cast failed for Leader" }
      ∧ (soldPlayerRoutes_post_afterSave Demo.env Demo.storeSold Demo.saleBody Demo.sale1).2.leaders
          = [Demo.team1] := by
  decide

/-- C6, evaluated on the code: the document the route builds for the scenario's
submission holds the three `_id` values and `saleDetails` only, so it fails the
validation of soldPlayerSchema; no ledger entry is stored and the answer is 500, not 201
with an entry. -/
theorem sale_stores_no_ledger_entry :
    soldPlayerSchema Demo.env
        { player := .prim (.str "p1"), team := .prim (.str "t1"), leader := .undefined,
          saleDetails := .obj [("amount", .num 1500)] }
      = .error "SoldPlayer validation failed"
      ∧ (soldPlayerRoutes_post Demo.env Demo.storeBefore Demo.saleBody).1
          = { status := 500, body := .failure "SoldPlayer validation failed" }
      ∧ (soldPlayerRoutes_post Demo.env Demo.storeBefore Demo.saleBody).2.soldPlayers = [] := by
  refine ⟨rfl, ?_, ?_⟩ <;> decide

/-! ## Frame properties of the storage helpers and of the inserts -/

theorem sameCollections_refl (st : Store) : sameCollections st st :=
  ⟨rfl, rfl, rfl⟩

theorem sameCollections_trans {a b c : Store} (h1 : sameCollections a b)
    (h2 : sameCollections b c) : sameCollections a c :=
  ⟨h2.1.trans h1.1, h2.2.1.trans h1.2.1, h2.2.2.trans h1.2.2⟩

/-- An upload changes the bucket only. -/
theorem uploadToFirebase_frame {env : Env} {st st1 : Store} {file : Option UploadedFile}
    {folder : String} {url : Option String}
    (h : uploadToFirebase env st file folder = .ok (url, st1)) : sameCollections st st1 := by
  unfold uploadToFirebase at h
  split at h
  · cases h; exact sameCollections_refl st
  · split at h
    · cases h
    · cases h; exact ⟨rfl, rfl, rfl⟩

/-- Releasing an object changes the bucket only. -/
theorem deleteFromFirebase_frame (env : Env) (st : Store) (url : JVal) :
    sameCollections st (deleteFromFirebase env st url) := by
  unfold deleteFromFirebase
  repeat' split
  all_goals exact ⟨rfl, rfl, rfl⟩

/-- Releasing a photo that is set changes the bucket only. -/
theorem releaseIfSet_frame (env : Env) (st : Store) (photo : Option String) :
    sameCollections st (releaseIfSet env st photo) := by
  unfold releaseIfSet
  split
  · exact deleteFromFirebase_frame env st _
  · exact sameCollections_refl st

/-- A validated player document has the status it was given and no sale field. -/
theorem playerSchema_ok {env : Env} {raw : RawPlayer} {doc : PlayerDoc}
    (h : playerSchema env raw = .ok doc) :
    doc.status = raw.status ∧ doc.soldTo = none ∧ doc.soldPrice = none ∧ doc.isSold = false := by
  unfold playerSchema at h
  split at h
  · cases h; exact ⟨rfl, rfl, rfl, rfl⟩
  · cases h

/-- A successful player insert appends the validated document to the players. -/
theorem Player_save_ok {env : Env} {st st1 : Store} {raw : RawPlayer} {doc : PlayerDoc}
    (h : Player_save env st raw = .ok (doc, st1)) :
    playerSchema env raw = .ok doc ∧ st1.players = st.players ++ [doc]
      ∧ st1.leaders = st.leaders ∧ st1.soldPlayers = st.soldPlayers := by
  unfold Player_save at h
  split at h
  · cases h
  · rename_i d hd
    split at h
    · cases h
    · split at h
      · cases h
      · cases h; exact ⟨hd, rfl, rfl, rfl⟩

/-- A successful leader insert appends one document to the leaders. -/
theorem Leader_save_ok {env : Env} {st st1 : Store} {raw : RawLeader} {doc : LeaderDoc}
    (h : Leader_save env st raw = .ok (doc, st1)) :
    st1.players = st.players ∧ st1.leaders = st.leaders ++ [doc]
      ∧ st1.soldPlayers = st.soldPlayers := by
  unfold Leader_save at h
  split at h
  · cases h
  · split at h
    · cases h
    · split at h
      · cases h
      · cases h; exact ⟨rfl, rfl, rfl⟩

/-- An element of an updated list is an old element or the image of one. -/
theorem mem_updateFirst {α : Type} {p : α → Bool} {f : α → α} {l : List α} {b : α}
    (h : b ∈ updateFirst p f l) : b ∈ l ∨ ∃ a ∈ l, b = f a := by
  induction l with
  | nil => simp [updateFirst] at h
  | cons a rest ih =>
    unfold updateFirst at h
    split at h
    · rcases List.mem_cons.mp h with h | h
      · exact Or.inr ⟨a, List.mem_cons_self _ _, h⟩
      · exact Or.inl (List.mem_cons_of_mem _ h)
    · rcases List.mem_cons.mp h with h | h
      · exact Or.inl (h ▸ List.mem_cons_self _ _)
      · rcases ih h with h | ⟨c, hc, hb⟩
        · exact Or.inl (List.mem_cons_of_mem _ h)
        · exact Or.inr ⟨c, List.mem_cons_of_mem _ hc, hb⟩

/-- The update of the player route writes neither `status` nor a sale field. -/
theorem playerSchema_castUpdate_ok {u : PlayerUpdate} {update : PlayerDoc → PlayerDoc}
    (h : playerSchema_castUpdate u = .ok update) (p : PlayerDoc) :
    (update p).status = p.status ∧ (update p).soldTo = p.soldTo
      ∧ (update p).soldPrice = p.soldPrice ∧ (update p).isSold = p.isSold
      ∧ (update p)._id = p._id := by
  unfold playerSchema_castUpdate at h
  split at h
  · cases h; exact ⟨rfl, rfl, rfl, rfl, rfl⟩
  · cases h

/-- A successful player update keeps leaders and ledger, and every player of the new
store is an old player or the image of one under a map that keeps the sale fields. -/
theorem Player_findByIdAndUpdate_ok {env : Env} {st st1 : Store} {id : String}
    {u : PlayerUpdate} {res : Option PlayerDoc}
    (h : Player_findByIdAndUpdate env st id u = .ok (res, st1)) :
    st1.leaders = st.leaders ∧ st1.soldPlayers = st.soldPlayers
      ∧ ∀ q ∈ st1.players, q ∈ st.players
          ∨ ∃ p ∈ st.players, q.status = p.status ∧ q.soldTo = p.soldTo := by
  unfold Player_findByIdAndUpdate at h
  split at h
  · cases h
  · rename_i update hu
    split at h
    · cases h
    · split at h
      · cases h; exact ⟨rfl, rfl, fun q hq => Or.inl hq⟩
      · split at h
        · cases h
        · cases h
          refine ⟨rfl, rfl, fun q hq => ?_⟩
          rcases mem_updateFirst hq with hq | ⟨a, ha, rfl⟩
          · exact Or.inl hq
          · exact Or.inr ⟨a, ha, (playerSchema_castUpdate_ok hu a).1,
              (playerSchema_castUpdate_ok hu a).2.1⟩

/-! ## Frame properties of the routes -/

theorem playersEvolve_of_eq {st st' : Store} (h : st'.players = st.players) :
    playersEvolve st st' := by
  intro q hq
  rw [h] at hq
  exact Or.inr ⟨q, hq, rfl, rfl⟩

/-- Admin creation of a player keeps leaders and ledger; a player it adds is unsold. -/
theorem playerRoutes_post_frame (env : Env) (st : Store) (body : PlayerBody)
    (file : Option UploadedFile) :
    (playerRoutes_post env st body file).2.leaders = st.leaders
      ∧ (playerRoutes_post env st body file).2.soldPlayers = st.soldPlayers
      ∧ playersEvolve st (playerRoutes_post env st body file).2 := by
  unfold playerRoutes_post
  split
  · exact ⟨rfl, rfl, playersEvolve_of_eq rfl⟩
  · split
    · exact ⟨rfl, rfl, playersEvolve_of_eq rfl⟩
    · rename_i url st1 hup
      have h1 := uploadToFirebase_frame hup
      split
      · exact ⟨h1.2.1, h1.2.2, playersEvolve_of_eq h1.1⟩
      · split
        · exact ⟨h1.2.1, h1.2.2, playersEvolve_of_eq h1.1⟩
        · rename_i player st2 hsave
          have h2 := Player_save_ok hsave
          have h3 := playerSchema_ok h2.1
          refine ⟨h2.2.2.1.trans h1.2.1, h2.2.2.2.trans h1.2.2, fun q hq => ?_⟩
          simp only [h2.2.1, List.mem_append, List.mem_singleton] at hq
          rcases hq with hq | rfl
          · rw [h1.1] at hq; exact Or.inr ⟨q, hq, rfl, rfl⟩
          · exact Or.inl ⟨h3.1, h3.2.1⟩

/-- Public registration of a player keeps leaders and ledger; a player it adds is
unsold. -/
theorem playerRoutes_postPublic_frame (env : Env) (st : Store) (body : PlayerBody)
    (file : Option UploadedFile) :
    (playerRoutes_postPublic env st body file).2.leaders = st.leaders
      ∧ (playerRoutes_postPublic env st body file).2.soldPlayers = st.soldPlayers
      ∧ playersEvolve st (playerRoutes_postPublic env st body file).2 := by
  unfold playerRoutes_postPublic
  split
  · exact ⟨rfl, rfl, playersEvolve_of_eq rfl⟩
  · split
    · exact ⟨rfl, rfl, playersEvolve_of_eq rfl⟩
    · rename_i url st1 hup
      have h1 := uploadToFirebase_frame hup
      split
      · exact ⟨h1.2.1, h1.2.2, playersEvolve_of_eq h1.1⟩
      · split
        · exact ⟨h1.2.1, h1.2.2, playersEvolve_of_eq h1.1⟩
        · rename_i player st2 hsave
          have h2 := Player_save_ok hsave
          have h3 := playerSchema_ok h2.1
          refine ⟨h2.2.2.1.trans h1.2.1, h2.2.2.2.trans h1.2.2, fun q hq => ?_⟩
          simp only [h2.2.1, List.mem_append, List.mem_singleton] at hq
          rcases hq with hq | rfl
          · rw [h1.1] at hq; exact Or.inr ⟨q, hq, rfl, rfl⟩
          · exact Or.inl ⟨h3.1, h3.2.1⟩

/-- The update step of the player route keeps leaders, ledger and the sale fields. -/
theorem playerRoutes_put_update_frame (env : Env) (st : Store) (id : String)
    (body : PlayerBody) (photo : Option String) :
    (playerRoutes_put_update env st id body photo).2.leaders = st.leaders
      ∧ (playerRoutes_put_update env st id body photo).2.soldPlayers = st.soldPlayers
      ∧ playersEvolve st (playerRoutes_put_update env st id body photo).2 := by
  unfold playerRoutes_put_update
  split
  · exact ⟨rfl, rfl, playersEvolve_of_eq rfl⟩
  · rename_i res st1 hupd
    have h := Player_findByIdAndUpdate_ok hupd
    refine ⟨h.1, h.2.1, fun q hq => ?_⟩
    rcases h.2.2 q hq with hq | hq
    · exact Or.inr ⟨q, hq, rfl, rfl⟩
    · exact Or.inr hq

/-- The player update route keeps leaders, ledger and the sale fields of every player. -/
theorem playerRoutes_put_frame (env : Env) (st : Store) (id : String) (body : PlayerBody)
    (file : Option UploadedFile) :
    (playerRoutes_put env st id body file).2.leaders = st.leaders
      ∧ (playerRoutes_put env st id body file).2.soldPlayers = st.soldPlayers
      ∧ playersEvolve st (playerRoutes_put env st id body file).2 := by
  unfold playerRoutes_put
  split
  · exact ⟨rfl, rfl, playersEvolve_of_eq rfl⟩
  · split
    · exact ⟨rfl, rfl, playersEvolve_of_eq rfl⟩
    · rename_i player _
      split
      · exact playerRoutes_put_update_frame env st id body none
      · rename_i f
        have h0 := releaseIfSet_frame env st player.profilePhoto
        split
        · exact ⟨h0.2.1, h0.2.2, playersEvolve_of_eq h0.1⟩
        · rename_i url st2 hup
          have h1 := sameCollections_trans h0 (uploadToFirebase_frame hup)
          have h2 := playerRoutes_put_update_frame env st2 id body url
          refine ⟨h2.1.trans h1.2.1, h2.2.1.trans h1.2.2, fun q hq => ?_⟩
          rcases h2.2.2 q hq with hq | ⟨a, ha, hqa⟩
          · exact Or.inl hq
          · rw [h1.1] at ha; exact Or.inr ⟨a, ha, hqa⟩

/-- The player delete route keeps leaders and ledger and adds no player. -/
theorem playerRoutes_delete_frame (env : Env) (st : Store) (id : String) :
    (playerRoutes_delete env st id).2.leaders = st.leaders
      ∧ (playerRoutes_delete env st id).2.soldPlayers = st.soldPlayers
      ∧ playersEvolve st (playerRoutes_delete env st id).2 := by
  unfold playerRoutes_delete
  split
  · exact ⟨rfl, rfl, playersEvolve_of_eq rfl⟩
  · split
    · exact ⟨rfl, rfl, playersEvolve_of_eq rfl⟩
    · rename_i player _
      have h0 := releaseIfSet_frame env st player.profilePhoto
      split
      · exact ⟨h0.2.1, h0.2.2, playersEvolve_of_eq h0.1⟩
      · refine ⟨h0.2.1, h0.2.2, fun q hq => ?_⟩
        have hq := List.mem_of_mem_eraseP hq
        rw [h0.1] at hq
        exact Or.inr ⟨q, hq, rfl, rfl⟩

/-- Admin creation of a leader keeps players and ledger. -/
theorem leaderRoutes_post_frame (env : Env) (st : Store) (body : LeaderBody)
    (file : Option UploadedFile) :
    (leaderRoutes_post env st body file).2.players = st.players
      ∧ (leaderRoutes_post env st body file).2.soldPlayers = st.soldPlayers := by
  unfold leaderRoutes_post
  split
  · exact ⟨rfl, rfl⟩
  · rename_i url st1 hup
    have h1 := uploadToFirebase_frame hup
    repeat' split
    all_goals first
      | exact ⟨h1.1, h1.2.2⟩
      | (rename_i hsave
         exact ⟨(Leader_save_ok hsave).1.trans h1.1, (Leader_save_ok hsave).2.2.trans h1.2.2⟩)

/-- Public registration of a leader keeps players and ledger. -/
theorem leaderRoutes_postPublic_frame (env : Env) (st : Store) (body : LeaderBody)
    (file : Option UploadedFile) :
    (leaderRoutes_postPublic env st body file).2.players = st.players
      ∧ (leaderRoutes_postPublic env st body file).2.soldPlayers = st.soldPlayers := by
  unfold leaderRoutes_postPublic
  split
  · exact ⟨rfl, rfl⟩
  · split
    · exact ⟨rfl, rfl⟩
    · split
      · exact ⟨rfl, rfl⟩
      · split
        · split
          · exact ⟨rfl, rfl⟩
          · split
            · exact ⟨rfl, rfl⟩
            · split
              · exact ⟨rfl, rfl⟩
              · rename_i url st1 hup
                have h1 := uploadToFirebase_frame hup
                split
                · exact ⟨h1.1, h1.2.2⟩
                · split
                  · exact ⟨h1.1, h1.2.2⟩
                  · rename_i leader st2 hsave
                    exact ⟨(Leader_save_ok hsave).1.trans h1.1,
                           (Leader_save_ok hsave).2.2.trans h1.2.2⟩
        · exact ⟨rfl, rfl⟩

/-- A successful leader update keeps players and ledger. -/
theorem Leader_findByIdAndUpdate_ok {env : Env} {st st1 : Store} {id : String}
    {u : LeaderUpdate} {res : Option LeaderDoc}
    (h : Leader_findByIdAndUpdate env st id u = .ok (res, st1)) :
    st1.players = st.players ∧ st1.soldPlayers = st.soldPlayers := by
  unfold Leader_findByIdAndUpdate at h
  repeat' split at h
  all_goals first
    | (cases h; exact ⟨rfl, rfl⟩)
    | cases h

/-- The update step of the leader route keeps players and ledger. -/
theorem leaderRoutes_put_update_frame (env : Env) (st : Store) (id : String)
    (body : LeaderBody) (logo : Option String) :
    (leaderRoutes_put_update env st id body logo).2.players = st.players
      ∧ (leaderRoutes_put_update env st id body logo).2.soldPlayers = st.soldPlayers := by
  unfold leaderRoutes_put_update
  split
  · exact ⟨rfl, rfl⟩
  · rename_i hupd
    exact Leader_findByIdAndUpdate_ok hupd

/-- The leader update route keeps players and ledger. -/
theorem leaderRoutes_put_frame (env : Env) (st : Store) (id : String) (body : LeaderBody)
    (file : Option UploadedFile) :
    (leaderRoutes_put env st id body file).2.players = st.players
      ∧ (leaderRoutes_put env st id body file).2.soldPlayers = st.soldPlayers := by
  unfold leaderRoutes_put
  split
  · exact ⟨rfl, rfl⟩
  · split
    · exact ⟨rfl, rfl⟩
    · rename_i leader _
      split
      · exact leaderRoutes_put_update_frame env st id body none
      · have h0 := releaseIfSet_frame env st leader.teamLogo
        split
        · exact ⟨h0.1, h0.2.2⟩
        · rename_i url st2 hup
          have h1 := sameCollections_trans h0 (uploadToFirebase_frame hup)
          have h2 := leaderRoutes_put_update_frame env st2 id body url
          exact ⟨h2.1.trans h1.1, h2.2.trans h1.2.2⟩

/-- The leader delete route keeps players and ledger. -/
theorem leaderRoutes_delete_frame (env : Env) (st : Store) (id : String) :
    (leaderRoutes_delete env st id).2.players = st.players
      ∧ (leaderRoutes_delete env st id).2.soldPlayers = st.soldPlayers := by
  unfold leaderRoutes_delete
  split
  · exact ⟨rfl, rfl⟩
  · split
    · exact ⟨rfl, rfl⟩
    · rename_i leader _
      have h0 := releaseIfSet_frame env st leader.teamLogo
      split
      · exact ⟨h0.1, h0.2.2⟩
      · exact ⟨h0.1, h0.2.2⟩

/-- The bulk budget route keeps players, ledger, bucket and events. -/
theorem leaderRoutes_setMaxAmount_frame (env : Env) (st : Store) (maxAmount : JVal) :
    (leaderRoutes_setMaxAmount env st maxAmount).2.players = st.players
      ∧ (leaderRoutes_setMaxAmount env st maxAmount).2.soldPlayers = st.soldPlayers := by
  unfold leaderRoutes_setMaxAmount
  repeat' split
  all_goals exact ⟨rfl, rfl⟩

/-- Every request other than a sale submission keeps the ledger, and every request
keeps the sale fields of the players it keeps and adds unsold players only. -/
theorem handle_frame (env : Env) (st : Store) (req : Request) :
    (handle env st req).2.soldPlayers = st.soldPlayers
      ∧ playersEvolve st (handle env st req).2 := by
  cases req with
  | createPlayer body file =>
    exact ⟨(playerRoutes_post_frame env st body file).2.1,
           (playerRoutes_post_frame env st body file).2.2⟩
  | registerPlayer body file =>
    exact ⟨(playerRoutes_postPublic_frame env st body file).2.1,
           (playerRoutes_postPublic_frame env st body file).2.2⟩
  | updatePlayer id body file =>
    exact ⟨(playerRoutes_put_frame env st id body file).2.1,
           (playerRoutes_put_frame env st id body file).2.2⟩
  | deletePlayer id =>
    exact ⟨(playerRoutes_delete_frame env st id).2.1, (playerRoutes_delete_frame env st id).2.2⟩
  | createLeader body file =>
    exact ⟨(leaderRoutes_post_frame env st body file).2,
           playersEvolve_of_eq (leaderRoutes_post_frame env st body file).1⟩
  | registerLeader body file =>
    exact ⟨(leaderRoutes_postPublic_frame env st body file).2,
           playersEvolve_of_eq (leaderRoutes_postPublic_frame env st body file).1⟩
  | updateLeader id body file =>
    exact ⟨(leaderRoutes_put_frame env st id body file).2,
           playersEvolve_of_eq (leaderRoutes_put_frame env st id body file).1⟩
  | deleteLeader id =>
    exact ⟨(leaderRoutes_delete_frame env st id).2,
           playersEvolve_of_eq (leaderRoutes_delete_frame env st id).1⟩
  | setMaxAmount maxAmount =>
    exact ⟨(leaderRoutes_setMaxAmount_frame env st maxAmount).2,
           playersEvolve_of_eq (leaderRoutes_setMaxAmount_frame env st maxAmount).1⟩
  | sale body =>
    have h : (handle env st (.sale body)).2 = st := soldPlayerRoutes_post_store env st body
    rw [h]
    exact ⟨rfl, playersEvolve_of_eq rfl⟩

/-- Serving a request keeps the property that no sale has left a trace. -/
theorem handle_neverSold (env : Env) (st : Store) (req : Request) (h : neverSold st) :
    neverSold (handle env st req).2 := by
  have hf := handle_frame env st req
  refine ⟨hf.1.trans h.1, fun q hq => ?_⟩
  rcases hf.2 q hq with hq | ⟨p, hp, hs, ht⟩
  · exact hq
  · exact ⟨hs.trans (h.2 p hp).1, ht.trans (h.2 p hp).2⟩

/-- From the empty store no sequence of requests leaves a trace of a sale. -/
theorem run_neverSold (st : Store) (reqs : List (Env × Request)) (h : neverSold st) :
    neverSold (run st reqs) := by
  induction reqs generalizing st with
  | nil => exact h
  | cons req rest ih =>
    obtain ⟨env, r⟩ := req
    exact ih _ (handle_neverSold env st r h)

/-! ## Claims about reachable states, the ledger and the bulk budget -/

/-- The part of the sale route after the insert keeps the ledger. -/
theorem soldPlayerRoutes_post_afterSave_soldPlayers (env : Env) (st : Store)
    (body : SaleBody) (e : SoldPlayerDoc) :
    (soldPlayerRoutes_post_afterSave env st body e).2.soldPlayers = st.soldPlayers := by
  have hp : ∀ st1, Player_findByIdAndUpdate_set env st (body.player.get "_id")
      (saleSetOf body) = .ok st1 → st1.soldPlayers = st.soldPlayers := by
    intro st1 h
    unfold Player_findByIdAndUpdate_set at h
    split at h
    · split at h
      · cases h
      · cases h; rfl
    · cases h
  have hl : ∀ st1 st2, Leader_findByIdAndUpdate_push env st1 (body.team.get "_id")
      (rosterEntryOf body) = .ok st2 → st2.soldPlayers = st1.soldPlayers := by
    intro st1 st2 h
    unfold Leader_findByIdAndUpdate_push at h
    split at h
    · split at h
      · cases h
      · cases h; rfl
    · cases h
  unfold soldPlayerRoutes_post_afterSave
  split
  · rfl
  · rename_i st1 h1
    split
    · exact hp st1 h1
    · rename_i st2 h2
      exact (hl st1 st2 h2).trans (hp st1 h1)

/-- A successful ledger insert appends the validated document to the ledger. -/
theorem SoldPlayer_save_ok {env : Env} {st st1 : Store} {raw : RawSoldPlayer}
    {e : SoldPlayerDoc} (h : SoldPlayer_save env st raw = .ok (e, st1)) :
    st1.soldPlayers = st.soldPlayers ++ [e] := by
  unfold SoldPlayer_save at h
  split at h
  · cases h
  · split at h
    · cases h
    · cases h; rfl

/-- C8: the ledger is append-only. Every modifying request leaves the ledger as it was,
or it is a sale submission whose ledger insert succeeded and the ledger is the old one
followed by exactly the inserted entry. -/
theorem ledger_append_only (env : Env) (st : Store) (req : Request) :
    (handle env st req).2.soldPlayers = st.soldPlayers
      ∨ ∃ body e st1, req = .sale body
          ∧ SoldPlayer_save env st (rawSoldPlayerOf body) = .ok (e, st1)
          ∧ (handle env st req).2.soldPlayers = st.soldPlayers ++ [e] := by
  cases req with
  | createPlayer body file => exact Or.inl (playerRoutes_post_frame env st body file).2.1
  | registerPlayer body file =>
    exact Or.inl (playerRoutes_postPublic_frame env st body file).2.1
  | updatePlayer id body file => exact Or.inl (playerRoutes_put_frame env st id body file).2.1
  | deletePlayer id => exact Or.inl (playerRoutes_delete_frame env st id).2.1
  | createLeader body file => exact Or.inl (leaderRoutes_post_frame env st body file).2
  | registerLeader body file =>
    exact Or.inl (leaderRoutes_postPublic_frame env st body file).2
  | updateLeader id body file => exact Or.inl (leaderRoutes_put_frame env st id body file).2
  | deleteLeader id => exact Or.inl (leaderRoutes_delete_frame env st id).2
  | setMaxAmount maxAmount => exact Or.inl (leaderRoutes_setMaxAmount_frame env st maxAmount).2
  | sale body =>
    have key : ∀ r, soldPlayerRoutes_post env st body = r →
        r.2.soldPlayers = st.soldPlayers
          ∨ ∃ e st1, SoldPlayer_save env st (rawSoldPlayerOf body) = .ok (e, st1)
              ∧ r.2.soldPlayers = st.soldPlayers ++ [e] := by
      intro r hr
      unfold soldPlayerRoutes_post at hr
      split at hr
      · exact Or.inl (hr ▸ rfl)
      · split at hr
        · exact Or.inl (hr ▸ rfl)
        · exact Or.inl (hr ▸ rfl)
        · split at hr
          · exact Or.inl (hr ▸ rfl)
          · rename_i e st1 hsave
            refine Or.inr ⟨e, st1, hsave, ?_⟩
            rw [← hr, soldPlayerRoutes_post_afterSave_soldPlayers]
            exact SoldPlayer_save_ok hsave
    rcases key _ rfl with h | ⟨e, st1, hsave, h⟩
    · exact Or.inl h
    · exact Or.inr ⟨body, e, st1, rfl, hsave, h⟩

/-- C9: on a store into which the ledger entry `e` has just been inserted, if the player
update of the sale route fails, or it succeeds and the roster update fails, the route
answers 500 and the ledger still ends with `e`: the insert is not rolled back. -/
theorem sale_update_failure_keeps_ledger_entry (env : Env) (st : Store) (body : SaleBody)
    (e : SoldPlayerDoc)
    (h : (Player_findByIdAndUpdate_set env { st with soldPlayers := st.soldPlayers ++ [e] }
            (body.player.get "_id") (saleSetOf body)).isOk = false
          ∨ ∃ st1, Player_findByIdAndUpdate_set env
                { st with soldPlayers := st.soldPlayers ++ [e] }
                (body.player.get "_id") (saleSetOf body) = .ok st1
              ∧ (Leader_findByIdAndUpdate_push env st1 (body.team.get "_id")
                  (rosterEntryOf body)).isOk = false) :
    (soldPlayerRoutes_post_afterSave env { st with soldPlayers := st.soldPlayers ++ [e] }
        body e).1.status = 500
      ∧ (soldPlayerRoutes_post_afterSave env { st with soldPlayers := st.soldPlayers ++ [e] }
          body e).2.soldPlayers = st.soldPlayers ++ [e] := by
  refine ⟨?_, soldPlayerRoutes_post_afterSave_soldPlayers env _ body e⟩
  unfold soldPlayerRoutes_post_afterSave
  split
  · rfl
  · rename_i st1 h1
    split
    · rfl
    · rename_i st2 h2
      rcases h with h | ⟨st1', h1', h2'⟩
      · rw [h1] at h
        simp [Except.isOk, Except.toBool] at h
      · rw [h1] at h1'
        cases h1'
        rw [h2] at h2'
        simp [Except.isOk, Except.toBool] at h2'

/-- Witness of C9: after the insert of the scenario's sale the player update succeeds and
the roster update fails. -/
theorem sale_update_failure_keeps_ledger_entry_witness :
    (∃ st1, Player_findByIdAndUpdate_set Demo.env
          { Demo.storeBefore with soldPlayers := Demo.storeBefore.soldPlayers ++ [Demo.sale1] }
          (Demo.saleBody.player.get "_id") (saleSetOf Demo.saleBody) = .ok st1
        ∧ (Leader_findByIdAndUpdate_push Demo.env st1 (Demo.saleBody.team.get "_id")
            (rosterEntryOf Demo.saleBody)).isOk = false)
      ∧ (soldPlayerRoutes_post_afterSave Demo.env
          { Demo.storeBefore with soldPlayers := Demo.storeBefore.soldPlayers ++ [Demo.sale1] }
          Demo.saleBody Demo.sale1).1.status = 500
      ∧ (soldPlayerRoutes_post_afterSave Demo.env
          { Demo.storeBefore with soldPlayers := Demo.storeBefore.soldPlayers ++ [Demo.sale1] }
          Demo.saleBody Demo.sale1).2.soldPlayers = Demo.storeBefore.soldPlayers ++ [Demo.sale1] :=
  ⟨⟨Demo.storeSoldUpdated, rfl, rfl⟩,
   sale_update_failure_keeps_ledger_entry Demo.env Demo.storeBefore Demo.saleBody Demo.sale1
     (Or.inr ⟨Demo.storeSoldUpdated, rfl, rfl⟩)⟩

/-- C10: when the bulk budget request with the numeric amount `a` succeeds (status 200),
every leader record has `maxAmount = a`, every other field of every leader record is as
before, and the players, the ledger, the bucket and the events are as before. -/
theorem setMaxAmount_sets_every_team (env : Env) (st : Store) (v : JVal) (a : Int)
    (hv : jsParseFloat env v = some a)
    (h : (leaderRoutes_setMaxAmount env st v).1.status = 200) :
    (leaderRoutes_setMaxAmount env st v).2
        = { st with leaders := st.leaders.map (fun l => { l with maxAmount := a }) }
      ∧ (∀ l ∈ (leaderRoutes_setMaxAmount env st v).2.leaders, l.maxAmount = a)
      ∧ (leaderRoutes_setMaxAmount env st v).2.players = st.players := by
  have hst : (leaderRoutes_setMaxAmount env st v).2
      = { st with leaders := st.leaders.map (fun l => { l with maxAmount := a }) } := by
    unfold leaderRoutes_setMaxAmount at h ⊢
    rw [hv] at h ⊢
    dsimp only at h ⊢
    split at h
    · simp at h
    · rename_i hc
      rw [if_neg hc]
      split at h
      · simp at h
      · rename_i hd
        rw [if_neg hd]
  refine ⟨hst, ?_, ?_⟩
  · rw [hst]
    intro l hl
    simp only [List.mem_map] at hl
    obtain ⟨l0, _, rfl⟩ := hl
    rfl
  · rw [hst]

/-- Witness of C10: the amount 5000 on the store with team `t1`. -/
theorem setMaxAmount_sets_every_team_witness :
    jsParseFloat Demo.env (.prim (.num 5000)) = some 5000
      ∧ (leaderRoutes_setMaxAmount Demo.env Demo.storeBefore (.prim (.num 5000))).1.status = 200
      ∧ (leaderRoutes_setMaxAmount Demo.env Demo.storeBefore (.prim (.num 5000))).2
          = { Demo.storeBefore with
              leaders := Demo.storeBefore.leaders.map (fun l => { l with maxAmount := 5000 }) }
      ∧ (∀ l ∈ (leaderRoutes_setMaxAmount Demo.env Demo.storeBefore (.prim (.num 5000))).2.leaders,
          l.maxAmount = 5000)
      ∧ (leaderRoutes_setMaxAmount Demo.env Demo.storeBefore (.prim (.num 5000))).2.players
          = Demo.storeBefore.players :=
  ⟨rfl, by decide,
   setMaxAmount_sets_every_team Demo.env Demo.storeBefore (.prim (.num 5000)) 5000 rfl
     (by decide)⟩

/-! ## Claims about the validation of the bulk budget -/

/-- C11 as stated fails: the amount `true`, which is not a number, passes the three
tests of the route (`!true` is false, `true < 0` is false, `isNaN(true)` is false since
`Number(true)` is 1); `parseFloat(true)` is `NaN`, the update fails its cast and the
answer is 500, not 400. No leader record is changed. -/
theorem setMaxAmount_true_answers_500 :
    leaderRoutes_setMaxAmount Demo.env Demo.storeBefore (.prim (.bool true))
      = ({ status := 500, body := .message "Server error" }, Demo.storeBefore) := by
  rfl

/-- C11, amended: a bulk budget request whose amount is missing or falsy, or is negative
(`maxAmount < 0`), or is not a number in the sense of the test of the route
(`isNaN(maxAmount)`, that is `Number(maxAmount)` is `NaN`), is answered with 400 and the
store, with every leader record, is left as it was; and a request that is not answered
with 200, whatever its amount, leaves the store as it was. -/
theorem setMaxAmount_rejects_invalid (env : Env) (st : Store) (v : JVal)
    (h : v.truthy = false ∨ (∃ n, jsToNumber env v = some n ∧ n < 0)
          ∨ jsToNumber env v = none) :
    leaderRoutes_setMaxAmount env st v
        = ({ status := 400, body := .message "Invalid max amount. Must be a positive number." },
           st)
      ∧ (∀ w, (leaderRoutes_setMaxAmount env st w).1.status ≠ 200 →
          (leaderRoutes_setMaxAmount env st w).2 = st) := by
  constructor
  · unfold leaderRoutes_setMaxAmount
    rw [if_pos]
    rcases h with h | ⟨n, hn, hlt⟩ | h
    · simp [h]
    · simp [jsLtZero, hn, hlt]
    · simp [jsIsNaN, h]
  · intro w
    unfold leaderRoutes_setMaxAmount
    split
    · intro _; rfl
    · split
      · intro _; rfl
      · split
        · intro _; rfl
        · intro hne
          exact absurd rfl hne

/-- Witness of amended C11: the amount -5 on the store with team `t1`. -/
theorem setMaxAmount_rejects_invalid_witness :
    (∃ n, jsToNumber Demo.env (.prim (.num (-5))) = some n ∧ n < 0)
      ∧ leaderRoutes_setMaxAmount Demo.env Demo.storeBefore (.prim (.num (-5)))
          = ({ status := 400,
               body := .message "Invalid max amount. Must be a positive number." },
             Demo.storeBefore) :=
  ⟨⟨-5, rfl, by decide⟩,
   (setMaxAmount_rejects_invalid Demo.env Demo.storeBefore (.prim (.num (-5)))
     (Or.inr (Or.inl ⟨-5, rfl, by decide⟩))).1⟩

/-- C12 as stated fails: the amount 0 is answered with 400 and no leader record is
changed. -/
theorem setMaxAmount_rejects_zero :
    leaderRoutes_setMaxAmount Demo.env Demo.storeBefore (.prim (.num 0))
      = ({ status := 400, body := .message "Invalid max amount. Must be a positive number." },
         Demo.storeBefore) := by
  decide

/-- C12, amended: when the update of the store does not fail, a numeric amount is
answered with 200 exactly when it is positive, and a numeric amount that is 0 or negative
is answered with 400 and leaves the store as it was. -/
theorem setMaxAmount_accepts_exactly_positive (env : Env) (st : Store) (a : Int)
    (hdb : env.dbFails .leaderUpdateMany = false) :
    ((leaderRoutes_setMaxAmount env st (.prim (.num a))).1.status = 200 ↔ 0 < a)
      ∧ (a ≤ 0 →
          leaderRoutes_setMaxAmount env st (.prim (.num a))
            = ({ status := 400,
                 body := .message "Invalid max amount. Must be a positive number." }, st)) := by
  have hrej : a ≤ 0 →
      leaderRoutes_setMaxAmount env st (.prim (.num a))
        = ({ status := 400,
             body := .message "Invalid max amount. Must be a positive number." }, st) := by
    intro ha
    unfold leaderRoutes_setMaxAmount
    rw [if_pos]
    rcases lt_or_eq_of_le ha with hlt | heq
    · simp [jsLtZero, jsToNumber, hlt]
    · simp [JVal.truthy, Prim.truthy, heq]
  refine ⟨⟨fun h => ?_, fun h => ?_⟩, hrej⟩
  · by_contra hn
    rw [hrej (not_lt.mp hn)] at h
    simp at h
  · unfold leaderRoutes_setMaxAmount
    have hne : a ≠ 0 := ne_of_gt h
    have hnl : ¬ a < 0 := not_lt.mpr (le_of_lt h)
    simp [JVal.truthy, Prim.truthy, jsLtZero, jsIsNaN, jsToNumber, jsParseFloat, hne, hnl, hdb]

/-- Witness of amended C12: the amount 5000 in the environment without failures. -/
theorem setMaxAmount_accepts_exactly_positive_witness :
    Demo.env.dbFails .leaderUpdateMany = false
      ∧ ((leaderRoutes_setMaxAmount Demo.env Demo.storeBefore (.prim (.num 5000))).1.status = 200
          ↔ (0 : Int) < 5000)
      ∧ ((5000 : Int) ≤ 0 →
          leaderRoutes_setMaxAmount Demo.env Demo.storeBefore (.prim (.num 5000))
            = ({ status := 400,
                 body := .message "Invalid max amount. Must be a positive number." },
               Demo.storeBefore)) :=
  ⟨rfl, setMaxAmount_accepts_exactly_positive Demo.env Demo.storeBefore 5000 rfl⟩

/-! ## Claims about the creation of players -/

/-- A validated player document holds the serial number it was given. -/
theorem playerSchema_serialNo {env : Env} {raw : RawPlayer} {doc : PlayerDoc} {n : Int}
    (h : playerSchema env raw = .ok doc) (hn : raw.serialNo = .value n) : doc.serialNo = n := by
  unfold playerSchema at h
  rw [hn] at h
  split at h
  · rename_i hs _ _ _ _ _ _ _
    cases h
    simp [castGiven, required] at hs
    exact hs.symm
  · cases h

/-- A validated player document given 'No' for `economicallyWeaker` holds 'No'. -/
theorem playerSchema_weaker_no {env : Env} {raw : RawPlayer} {doc : PlayerDoc}
    (h : playerSchema env raw = .ok doc) (hw : raw.economicallyWeaker = .prim (.str "No")) :
    doc.economicallyWeaker = some "No" := by
  unfold playerSchema at h
  rw [hw] at h
  split at h
  · rename_i hweaker _
    cases h
    simp [castString, enumOf] at hweaker
    simp [hweaker]
  · cases h

/-- A falsy `economicallyWeaker` is replaced by 'No'. -/
theorem orElse_no_of_falsy {v : JVal} (h : v.truthy = false) :
    v.orElse (.prim (.str "No")) = .prim (.str "No") := by
  simp [JVal.orElse, h]

/-- C13 as stated fails: the creation with `name`, `village` and `category` only, without
a photo, stores no player. The admin route answers 400 because playerSchema requires
`profilePhoto`; the public route answers 400 because it requires a password. -/
theorem create_without_photo_stores_nothing :
    playerRoutes_post Demo.env Store.empty Demo.bodyA none
        = ({ status := 400, body := .failure "Player validation failed" }, Store.empty)
      ∧ playerRoutes_postPublic Demo.env Store.empty Demo.bodyA none
        = ({ status := 400, body := .message "Name, Village, and Password are required" },
           Store.empty) := by
  decide

/-- C13, amended: every player created successfully, by the admin route or by the public
route, is stored with status 'Available', and with `economicallyWeaker` 'No' when the
request supplied none (a missing or falsy value). -/
theorem created_player_has_defaults (env : Env) (st st' : Store) (body : PlayerBody)
    (file : Option UploadedFile) (p : PlayerDoc)
    (h : playerRoutes_post env st body file = ({ status := 201, body := .player (some p) }, st')
          ∨ playerRoutes_postPublic env st body file
              = ({ status := 201, body := .playerRegistered p }, st')) :
    p ∈ st'.players ∧ p.status = "Available"
      ∧ (body.economicallyWeaker.truthy = false → p.economicallyWeaker = some "No") := by
  rcases h with h | h
  · unfold playerRoutes_post at h
    split at h
    · simp at h
    · split at h
      · simp [errorResponse] at h
      · split at h
        · simp [errorResponse] at h
        · split at h
          · simp [errorResponse] at h
          · rename_i player st2 hsave
            have h2 := Player_save_ok hsave
            have h3 := playerSchema_ok h2.1
            simp only [Prod.mk.injEq, Response.mk.injEq, Payload.player.injEq,
              Option.some.injEq, true_and] at h
            obtain ⟨rfl, rfl⟩ := h
            refine ⟨?_, h3.1, fun hw => ?_⟩
            · simp [h2.2.1]
            · exact playerSchema_weaker_no h2.1 (orElse_no_of_falsy hw)
  · unfold playerRoutes_postPublic at h
    split at h
    · simp at h
    · split at h
      · simp [errorResponse] at h
      · split at h
        · simp [errorResponse] at h
        · split at h
          · simp [errorResponse] at h
          · rename_i player st2 hsave
            have h2 := Player_save_ok hsave
            have h3 := playerSchema_ok h2.1
            simp only [Prod.mk.injEq, Response.mk.injEq, Payload.playerRegistered.injEq,
              true_and] at h
            obtain ⟨rfl, rfl⟩ := h
            refine ⟨?_, h3.1, fun hw => ?_⟩
            · simp [h2.2.1]
            · exact playerSchema_weaker_no h2.1 (orElse_no_of_falsy hw)

/-- Witness of amended C13: the creation with `name`, `village` and `category` only, with
a photo, on the admin route. -/
theorem created_player_has_defaults_witness :
    playerRoutes_post Demo.env Store.empty Demo.bodyA (some Demo.photoFile)
        = ({ status := 201, body := .player (some Demo.createdA) },
           (playerRoutes_post Demo.env Store.empty Demo.bodyA (some Demo.photoFile)).2)
      ∧ Demo.createdA
          ∈ (playerRoutes_post Demo.env Store.empty Demo.bodyA (some Demo.photoFile)).2.players
      ∧ Demo.createdA.status = "Available"
      ∧ (Demo.bodyA.economicallyWeaker.truthy = false
          → Demo.createdA.economicallyWeaker = some "No") :=
  ⟨by decide,
   created_player_has_defaults Demo.env Store.empty
     (playerRoutes_post Demo.env Store.empty Demo.bodyA (some Demo.photoFile)).2
     Demo.bodyA (some Demo.photoFile) Demo.createdA (Or.inl (by decide))⟩

/-- The query for the last player finds nothing exactly when there is no player. -/
theorem lastPlayer_eq_none {l : List PlayerDoc} : lastPlayer l = none ↔ l = [] := by
  cases l with
  | nil => simp [lastPlayer]
  | cons p rest =>
    simp only [lastPlayer]
    constructor
    · intro h
      split at h
      · cases h
      · split at h <;> cases h
    · intro h
      cases h

/-- The last player is a player whose serial number is the greatest. -/
theorem lastPlayer_spec {l : List PlayerDoc} {m : PlayerDoc} (h : lastPlayer l = some m) :
    m ∈ l ∧ ∀ q ∈ l, q.serialNo ≤ m.serialNo := by
  induction l generalizing m with
  | nil => simp [lastPlayer] at h
  | cons p rest ih =>
    simp only [lastPlayer] at h
    split at h
    · rename_i hnone
      cases h
      rw [lastPlayer_eq_none] at hnone
      subst hnone
      simp
    · rename_i q0 hq0
      obtain ⟨hmem, hmax⟩ := ih hq0
      split at h
      · rename_i hgt
        cases h
        refine ⟨List.mem_cons_of_mem _ hmem, fun q hq => ?_⟩
        rcases List.mem_cons.mp hq with rfl | hq
        · exact le_of_lt hgt
        · exact hmax q hq
      · rename_i hgt
        cases h
        refine ⟨List.mem_cons_self _ _, fun q hq => ?_⟩
        rcases List.mem_cons.mp hq with rfl | hq
        · exact le_refl _
        · exact le_trans (hmax q hq) (not_lt.mp hgt)

/-- C14: when the admin route creates a player from a request without a serial number,
the serial number of the new player is 1 if there was no player, and otherwise `m + 1`
for `m` the greatest serial number of the players there were; it is greater than the
serial number of every player there was. -/
theorem admin_create_assigns_next_serialNo (env : Env) (st st' : Store) (body : PlayerBody)
    (file : Option UploadedFile) (p : PlayerDoc)
    (hs : body.serialNo.truthy = false)
    (h : playerRoutes_post env st body file
          = ({ status := 201, body := .player (some p) }, st')) :
    (st.players = [] → p.serialNo = 1)
      ∧ (st.players ≠ [] →
          ∃ m ∈ st.players, (∀ q ∈ st.players, q.serialNo ≤ m.serialNo)
            ∧ p.serialNo = m.serialNo + 1)
      ∧ ∀ q ∈ st.players, q.serialNo < p.serialNo := by
  unfold playerRoutes_post at h
  split at h
  · simp at h
  · split at h
    · simp [errorResponse] at h
    · rename_i url st1 hup
      have h1 := uploadToFirebase_frame hup
      split at h
      · simp [errorResponse] at h
      · split at h
        · simp [errorResponse] at h
        · rename_i player st2 hsave
          have h2 := Player_save_ok hsave
          simp only [Prod.mk.injEq, Response.mk.injEq, Payload.player.injEq,
            Option.some.injEq, true_and] at h
          obtain ⟨rfl, rfl⟩ := h
          rw [h1.1] at h2
          cases hl : lastPlayer st.players with
          | none =>
            have hn : player.serialNo = 1 :=
              playerSchema_serialNo h2.1 (by simp [hs, hl])
            have he := lastPlayer_eq_none.mp hl
            refine ⟨fun _ => hn, fun hne => absurd he hne, fun q hq => ?_⟩
            rw [he] at hq
            simp at hq
          | some m =>
            have hn : player.serialNo = m.serialNo + 1 :=
              playerSchema_serialNo h2.1 (by simp [hs, hl])
            obtain ⟨hmem, hmax⟩ := lastPlayer_spec hl
            refine ⟨fun he => ?_, fun _ => ⟨m, hmem, hmax, hn⟩, fun q hq => ?_⟩
            · rw [he] at hmem
              simp at hmem
            · rw [hn]
              exact Int.lt_add_one_iff.mpr (hmax q hq)

/-- Witness of C14: the admin creation after player `p1`, whose serial number is 1. -/
theorem admin_create_assigns_next_serialNo_witness :
    Demo.bodyA.serialNo.truthy = false
      ∧ playerRoutes_post Demo.env Demo.storeBefore Demo.bodyA (some Demo.photoFile)
          = ({ status := 201, body := .player (some Demo.createdSecond) },
             (playerRoutes_post Demo.env Demo.storeBefore Demo.bodyA (some Demo.photoFile)).2)
      ∧ (Demo.storeBefore.players = [] → Demo.createdSecond.serialNo = 1)
      ∧ (Demo.storeBefore.players ≠ [] →
          ∃ m ∈ Demo.storeBefore.players,
            (∀ q ∈ Demo.storeBefore.players, q.serialNo ≤ m.serialNo)
              ∧ Demo.createdSecond.serialNo = m.serialNo + 1)
      ∧ ∀ q ∈ Demo.storeBefore.players, q.serialNo < Demo.createdSecond.serialNo :=
  ⟨rfl, by decide,
   admin_create_assigns_next_serialNo Demo.env Demo.storeBefore
     (playerRoutes_post Demo.env Demo.storeBefore Demo.bodyA (some Demo.photoFile)).2
     Demo.bodyA (some Demo.photoFile) Demo.createdSecond rfl (by decide)⟩

/-! ## Claims about serial numbers, team numbers and duplicate leaders -/

/-- C15, evaluated on the code: after two creations and the deletion of the first player
the store holds one player, with the serial number 2; a public registration with valid
fields and a photo then computes `countDocuments() + 1 = 2`, the unique index refuses
the insert, and the answer is 400 with no player added. On a store whose only player has
the serial number 5 the registration succeeds with the serial number 2, which is not
greater than 5. -/
theorem public_registration_serialNo_collides :
    Demo.storeAfterDeletion.players.map (fun p => p.serialNo) = [2]
      ∧ (playerRoutes_postPublic (Demo.envAt "a4" 4) Demo.storeAfterDeletion Demo.bodyPublic
          (some Demo.photoFile)).1
          = { status := 400, body := .failure "E11000 duplicate key error: serialNo" }
      ∧ (playerRoutes_postPublic (Demo.envAt "a4" 4) Demo.storeAfterDeletion Demo.bodyPublic
          (some Demo.photoFile)).2.players = Demo.storeAfterDeletion.players
      ∧ Demo.storeExplicitSerial.players.map (fun p => p.serialNo) = [5]
      ∧ (playerRoutes_postPublic (Demo.envAt "a4" 4) Demo.storeExplicitSerial Demo.bodyPublic
          (some Demo.photoFile)).1.status = 201
      ∧ (playerRoutes_postPublic (Demo.envAt "a4" 4) Demo.storeExplicitSerial Demo.bodyPublic
          (some Demo.photoFile)).2.players.map (fun p => p.serialNo) = [5, 2] := by
  decide

/-- C16, evaluated on the code: after two creations and the deletion of the first leader
the store holds one leader, with the team number 2; a creation with valid fields, a logo
and a new leader name, team name and mobile number then computes `countDocuments() + 1
= 2`, the unique index refuses the insert, and the answer is 500 on the admin route and
400 on the public route, with no leader added. -/
theorem leader_creation_teamNumber_collides :
    Demo.leaderStoreAfterDeletion.leaders.map (fun l => l.teamNumber) = [2]
      ∧ (leaderRoutes_post (Demo.envRegex "l4" 4) Demo.leaderStoreAfterDeletion
          (Demo.leaderBody "M" "Tigers" "333") (some Demo.logoFile)).1
          = { status := 500, body := .failure "E11000 duplicate key error: teamNumber" }
      ∧ (leaderRoutes_post (Demo.envRegex "l4" 4) Demo.leaderStoreAfterDeletion
          (Demo.leaderBody "M" "Tigers" "333") (some Demo.logoFile)).2.leaders
          = Demo.leaderStoreAfterDeletion.leaders
      ∧ (leaderRoutes_postPublic (Demo.envRegex "l4" 4) Demo.leaderStoreAfterDeletion
          (Demo.leaderBody "M" "Tigers" "333") (some Demo.logoFile)).1
          = { status := 400, body := .failure "E11000 duplicate key error: teamNumber" }
      ∧ (leaderRoutes_postPublic (Demo.envRegex "l4" 4) Demo.leaderStoreAfterDeletion
          (Demo.leaderBody "M" "Tigers" "333") (some Demo.logoFile)).2.leaders
          = Demo.leaderStoreAfterDeletion.leaders := by
  decide

/-- C17, evaluated on the code: with a leader whose team is named `A+` in the store, a
public registration of another leader, with another mobile number and the same team name
`A+`, is not rejected: the pattern `^A+$` built from the submitted name does not match
the stored name `A+`, the answer is 201 and the store then holds two leaders whose team
is named `A+`. -/
theorem public_registration_accepts_duplicate_team_name :
    Demo.storeTeamAPlus.leaders.map (fun l => (l.teamName, l.leaderMobileNo))
        = [(some "A+", some "111")]
      ∧ (leaderRoutes_postPublic (Demo.envRegex "l2" 2) Demo.storeTeamAPlus
          (Demo.leaderBody "N" "A+" "222") (some Demo.logoFile)).1.status = 201
      ∧ (leaderRoutes_postPublic (Demo.envRegex "l2" 2) Demo.storeTeamAPlus
          (Demo.leaderBody "N" "A+" "222") (some Demo.logoFile)).2.leaders.map
            (fun l => (l.teamName, l.leaderMobileNo))
          = [(some "A+", some "111"), (some "A+", some "222")] := by
  decide

/-! ## Claims about the update of a player -/

/-- The cast of a text path of an update does what `textUpdated` says. -/
theorem textUpdated_setPath {given : JVal} {cast old : Option String}
    (h : castString given = .ok cast) : textUpdated given old (setPath given cast old) := by
  refine ⟨fun hg => ?_, fun hg => ?_, fun s hg => ?_⟩
  · simp [setPath, hg]
  · subst hg
    simp [castString] at h
    simp [setPath, ← h]
  · subst hg
    simp [castString] at h
    simp [setPath, ← h]

/-- The cast of a computed path of an update does what `givenUpdated` says. -/
theorem givenUpdated_setGiven {α : Type} {what : String} {given : Given α}
    {cast old : Option α} (h : castGiven what given = .ok cast) :
    givenUpdated given old (setGiven given old) := by
  cases given with
  | unset => exact ⟨fun _ => rfl, fun a ha => (by cases ha), (by simp)⟩
  | invalid => simp [castGiven] at h
  | value a => exact ⟨fun ha => (by cases ha), fun b hb => (by cases hb; rfl), (by simp)⟩

/-- Field by field, what the cast update of the player route does to a player. -/
theorem playerSchema_castUpdate_fields {u : PlayerUpdate} {update : PlayerDoc → PlayerDoc}
    (h : playerSchema_castUpdate u = .ok update) (p : PlayerDoc) :
    textUpdated u.name p.name (update p).name
      ∧ textUpdated u.category p.category (update p).category
      ∧ textUpdated u.village p.village (update p).village
      ∧ textUpdated u.mobileNo p.mobileNo (update p).mobileNo
      ∧ textUpdated u.economicallyWeaker p.economicallyWeaker (update p).economicallyWeaker
      ∧ textUpdated u.battingStyle p.battingStyle (update p).battingStyle
      ∧ textUpdated u.bowlingStyle p.bowlingStyle (update p).bowlingStyle
      ∧ textUpdated u.password p.password (update p).password
      ∧ givenUpdated u.dob p.dob (update p).dob
      ∧ givenUpdated u.age p.age (update p).age
      ∧ givenUpdated u.serialNo (some p.serialNo) (some (update p).serialNo)
      ∧ (update p).profilePhoto = (u.profilePhoto.orElse fun _ => p.profilePhoto)
      ∧ (update p).basePrice = p.basePrice ∧ (update p).soldAt = p.soldAt
      ∧ (update p).teamName = p.teamName ∧ (update p).soldDate = p.soldDate
      ∧ (update p).soldTime = p.soldTime := by
  unfold playerSchema_castUpdate at h
  split at h
  · rename_i hname hdob hage hcat hserial hvillage hmobile hweaker hbat hbowl hpass
    cases h
    refine ⟨textUpdated_setPath hname, textUpdated_setPath hcat, textUpdated_setPath hvillage,
      textUpdated_setPath hmobile, textUpdated_setPath hweaker, textUpdated_setPath hbat,
      textUpdated_setPath hbowl, textUpdated_setPath hpass, givenUpdated_setGiven hdob,
      givenUpdated_setGiven hage, ?_, ?_, rfl, rfl, rfl, rfl, rfl⟩
    · have hs : givenUpdated u.serialNo (some p.serialNo) (setGiven u.serialNo (some p.serialNo)) :=
        givenUpdated_setGiven hserial
      cases hu : u.serialNo with
      | unset => exact ⟨fun _ => rfl, fun a ha => (by cases ha), (by simp)⟩
      | invalid => exact absurd hu hs.2.2
      | value a => exact ⟨fun ha => (by cases ha), fun b hb => (by cases hb; rfl), (by simp)⟩
    · cases u.profilePhoto <;> rfl
  · cases h

/-- The image of the element found is an element of the updated list. -/
theorem mem_updateFirst_of_find {α : Type} {pred : α → Bool} {f : α → α} {l : List α} {a : α}
    (h : l.find? pred = some a) : f a ∈ updateFirst pred f l := by
  induction l with
  | nil => simp at h
  | cons b rest ih =>
    unfold updateFirst
    by_cases hb : pred b = true
    · simp [List.find?, hb] at h
      subst h
      simp [hb]
    · simp [List.find?, hb] at h
      simp only [hb]
      exact List.mem_cons_of_mem _ (ih h)

/-- A player update answered with 200 and a player: the player is the image of the
player found, under the cast update, and is in the new store. -/
theorem playerRoutes_put_update_ok {env : Env} {st st' : Store} {id : String}
    {body : PlayerBody} {photo : Option String} {p q : PlayerDoc}
    (hf : st.players.find? (fun x => x._id == id) = some p)
    (h : playerRoutes_put_update env st id body photo
          = ({ status := 200, body := .player (some q) }, st')) :
    ∃ update, playerSchema_castUpdate (playerUpdateData env body photo) = .ok update
      ∧ q = update p ∧ q ∈ st'.players := by
  unfold playerRoutes_put_update at h
  split at h
  · simp [errorResponse] at h
  · rename_i res st1 hupd
    simp only [Prod.mk.injEq, Response.mk.injEq, Payload.player.injEq, true_and] at h
    obtain ⟨rfl, rfl⟩ := h
    unfold Player_findByIdAndUpdate at hupd
    split at hupd
    · cases hupd
    · rename_i update hu
      split at hupd
      · cases hupd
      · rw [hf] at hupd
        dsimp only at hupd
        split at hupd
        · cases hupd
        · cases hupd
          exact ⟨update, hu, rfl, mem_updateFirst_of_find hf⟩

/-- C18 as stated fails: a request that carries `basePrice: 700` and `age: null` is
answered with 200 and leaves the player with the base price 500 and the age 20. -/
theorem update_ignores_basePrice_and_null_age :
    Demo.bodyPriceAndAge.basePrice = .prim (.num 700) ∧ Demo.bodyPriceAndAge.age = .prim .null
      ∧ Demo.playerAged.basePrice = 500 ∧ Demo.playerAged.age = some 20
      ∧ playerRoutes_put Demo.env Demo.storeAged "p1" Demo.bodyPriceAndAge none
          = ({ status := 200, body := .player (some Demo.playerAged) }, Demo.storeAged) := by
  decide

/-- The update step of the player route, on any store with the same players. -/
theorem playerRoutes_put_update_effect {env : Env} {st st0 st' : Store} {id : String}
    {body : PlayerBody} {photo : Option String} {newPhoto : Bool} {p q : PlayerDoc}
    (hf : st.players.find? (fun x => x._id == id) = some p)
    (hpl : st0.players = st.players)
    (hput : playerRoutes_put_update env st0 id body photo
              = ({ status := 200, body := .player (some q) }, st'))
    (hphoto : newPhoto = false → photo = none) :
    q ∈ st'.players ∧ playerUpdatedAs env body newPhoto p q := by
  rw [← hpl] at hf
  obtain ⟨update, hu, rfl, hmem⟩ := playerRoutes_put_update_ok hf hput
  have hfields := playerSchema_castUpdate_fields hu p
  have hsale := playerSchema_castUpdate_ok hu p
  refine ⟨hmem, hfields.1, hfields.2.1, hfields.2.2.1, hfields.2.2.2.1, hfields.2.2.2.2.1,
    hfields.2.2.2.2.2.1, hfields.2.2.2.2.2.2.1, hfields.2.2.2.2.2.2.2.1,
    hfields.2.2.2.2.2.2.2.2.1, hfields.2.2.2.2.2.2.2.2.2.1,
    hfields.2.2.2.2.2.2.2.2.2.2.1, fun hnone => ?_,
    hfields.2.2.2.2.2.2.2.2.2.2.2.2.1, hsale.1, hsale.2.1, hsale.2.2.1, hsale.2.2.2.1,
    hfields.2.2.2.2.2.2.2.2.2.2.2.2.2.1, hfields.2.2.2.2.2.2.2.2.2.2.2.2.2.2.1,
    hfields.2.2.2.2.2.2.2.2.2.2.2.2.2.2.2.1, hfields.2.2.2.2.2.2.2.2.2.2.2.2.2.2.2.2,
    hsale.2.2.2.2⟩
  rw [hfields.2.2.2.2.2.2.2.2.2.2.2.1]
  simp [playerUpdateData, hphoto hnone]

/-- C18, amended: when the update of an existing player `p` is answered with 200 and the
player `q`, then `q` is in the store and, field by field: `name`, `category`, `village`,
`mobileNo`, `economicallyWeaker`, `battingStyle`, `bowlingStyle` and `password` keep
their value when absent from the request, are cleared by `null` and otherwise hold the
requested text; `dob`, `age` and `serialNo` keep their value when absent or falsy and
otherwise hold `new Date(dob)`, `parseInt(age)` and `parseInt(serialNo)`; the photo is
kept when no file is sent; `basePrice`, `status`, `soldTo`, `soldPrice`, `isSold`,
`soldAt`, `teamName`, `soldDate`, `soldTime` and `_id` are never changed. -/
theorem update_player_effect (env : Env) (st st' : Store) (id : String) (body : PlayerBody)
    (file : Option UploadedFile) (p q : PlayerDoc)
    (hf : st.players.find? (fun x => x._id == id) = some p)
    (h : playerRoutes_put env st id body file
          = ({ status := 200, body := .player (some q) }, st')) :
    q ∈ st'.players ∧ playerUpdatedAs env body file.isSome p q := by
  unfold playerRoutes_put at h
  split at h
  · simp [errorResponse] at h
  · rw [hf] at h
    dsimp only at h
    split at h
    · exact playerRoutes_put_update_effect hf rfl h (fun _ => rfl)
    · rename_i f
      split at h
      · simp [errorResponse] at h
      · rename_i url st2 hup
        have h1 := sameCollections_trans (releaseIfSet_frame env st p.profilePhoto)
          (uploadToFirebase_frame hup)
        exact playerRoutes_put_update_effect hf h1.1 h (fun hnone => by simp at hnone)

/-- Witness of amended C18: the request with the name `Y` and the village `W` on the
player `p1`. -/
theorem update_player_effect_witness :
    Demo.storeBefore.players.find? (fun x => x._id == "p1") = some Demo.player1
      ∧ playerRoutes_put Demo.env Demo.storeBefore "p1" Demo.bodyNameVillage none
          = ({ status := 200,
               body := .player (some { Demo.player1 with name := some "Y", village := some "W" }) },
             (playerRoutes_put Demo.env Demo.storeBefore "p1" Demo.bodyNameVillage none).2)
      ∧ { Demo.player1 with name := some "Y", village := some "W" }
          ∈ (playerRoutes_put Demo.env Demo.storeBefore "p1" Demo.bodyNameVillage none).2.players
      ∧ playerUpdatedAs Demo.env Demo.bodyNameVillage (none : Option UploadedFile).isSome
          Demo.player1 { Demo.player1 with name := some "Y", village := some "W" } :=
  ⟨by decide, by decide,
   update_player_effect Demo.env Demo.storeBefore
     (playerRoutes_put Demo.env Demo.storeBefore "p1" Demo.bodyNameVillage none).2 "p1"
     Demo.bodyNameVillage none Demo.player1
     { Demo.player1 with name := some "Y", village := some "W" } (by decide) (by decide)⟩

/-! ## Claims about the release of photos -/

/-- Releasing a photo whose URL names an object issues one delete call for that object,
and removes the object when the delete does not fail. -/
theorem releaseIfSet_calls {env : Env} {st : Store} {url name : String}
    (hurl : url ≠ "") (hname : objectNameOf env url = some name) :
    (releaseIfSet env st (some url)).bucketCalls = st.bucketCalls ++ [.delete name]
      ∧ (env.bucketDeleteFails = false → name ∉ (releaseIfSet env st (some url)).bucket) := by
  unfold objectNameOf at hname
  split at hname
  · cases hname
  · rename_i captured hcap
    unfold releaseIfSet deleteFromFirebase
    simp only [ofOptString, JVal.truthy, Prim.truthy, bne_iff_ne, ne_eq, hurl, not_false_eq_true,
      decide_True, ite_true, beq_iff_eq, ite_false, hcap, hname]
    split
    · rename_i hfail
      refine ⟨rfl, fun hdel => ?_⟩
      simp only [hdel, Bool.false_or, Bool.not_eq_true', List.contains_eq_any_beq,
        List.any_eq_false, beq_iff_eq] at hfail
      intro hmem
      exact hfail name hmem rfl
    · refine ⟨rfl, fun _ => ?_⟩
      simp

/-- The update step of the player route makes no call to the bucket. -/
theorem playerRoutes_put_update_bucket (env : Env) (st : Store) (id : String)
    (body : PlayerBody) (photo : Option String) :
    (playerRoutes_put_update env st id body photo).2.bucket = st.bucket
      ∧ (playerRoutes_put_update env st id body photo).2.bucketCalls = st.bucketCalls := by
  have hb : ∀ res st1, Player_findByIdAndUpdate env st id (playerUpdateData env body photo)
      = .ok (res, st1) → st1.bucket = st.bucket ∧ st1.bucketCalls = st.bucketCalls := by
    intro res st1 h
    unfold Player_findByIdAndUpdate at h
    repeat' split at h
    all_goals first
      | (cases h; exact ⟨rfl, rfl⟩)
      | cases h
  unfold playerRoutes_put_update
  split
  · exact ⟨rfl, rfl⟩
  · rename_i res st1 hupd
    exact hb res st1 hupd

/-- The update step of the leader route makes no call to the bucket. -/
theorem leaderRoutes_put_update_bucket (env : Env) (st : Store) (id : String)
    (body : LeaderBody) (logo : Option String) :
    (leaderRoutes_put_update env st id body logo).2.bucket = st.bucket
      ∧ (leaderRoutes_put_update env st id body logo).2.bucketCalls = st.bucketCalls := by
  have hb : ∀ u res st1, Leader_findByIdAndUpdate env st id u = .ok (res, st1) →
      st1.bucket = st.bucket ∧ st1.bucketCalls = st.bucketCalls := by
    intro u res st1 h
    unfold Leader_findByIdAndUpdate at h
    repeat' split at h
    all_goals first
      | (cases h; exact ⟨rfl, rfl⟩)
      | cases h
  unfold leaderRoutes_put_update
  split
  · exact ⟨rfl, rfl⟩
  · rename_i res st1 hupd
    exact hb _ res st1 hupd

/-- C19 as stated fails: when the player created with the photo `players/1-x.png` is
updated with a new file, the delete of the old object is called before the save of the
new one; and when the save fails, the answer is 400, the old object is gone from the
bucket and the player still refers to it. The same holds for the logo of a leader. -/
theorem update_deletes_old_photo_before_store :
    Demo.storeOnePlayer.bucketCalls = [.save "players/1-x.png"]
      ∧ (playerRoutes_put (Demo.envAt "a2" 2) Demo.storeOnePlayer "a1" Demo.bodyEmpty
          (some Demo.photoFile)).2.bucketCalls
          = [.save "players/1-x.png", .delete "players/1-x.png", .save "players/2-x.png"]
      ∧ (playerRoutes_put Demo.envSaveFails Demo.storeOnePlayer "a1" Demo.bodyEmpty
          (some Demo.photoFile)).1 = { status := 400, body := .failure "upload failed" }
      ∧ (playerRoutes_put Demo.envSaveFails Demo.storeOnePlayer "a1" Demo.bodyEmpty
          (some Demo.photoFile)).2.bucket = []
      ∧ (playerRoutes_put Demo.envSaveFails Demo.storeOnePlayer "a1" Demo.bodyEmpty
          (some Demo.photoFile)).2.players = Demo.storeOnePlayer.players
      ∧ (leaderRoutes_put (Demo.envAt "l2" 2) Demo.storeOneLeader "l1" Demo.leaderBodyEmpty
          (some Demo.logoFile)).2.bucketCalls
          = [.save "leaders/1-logo.png", .delete "leaders/1-logo.png",
             .save "leaders/2-logo.png"]
      ∧ (leaderRoutes_put Demo.envSaveFails Demo.storeOneLeader "l1" Demo.leaderBodyEmpty
          (some Demo.logoFile)).2.bucket = [] := by
  decide

/-- C19, amended: when the update of a player (or of a leader) is given a new file and
the record has a photo (a logo) whose URL names the object `name`, the calls the request
makes to the bucket are the delete of `name` followed, when the store of the new object
succeeds, by the save of the new object. When the store fails the request is answered
with 400 (500 for a leader), the records are left as they were and, unless the delete
failed, the old object is no longer in the bucket. -/
theorem update_releases_old_photo_first (env : Env) (st : Store) (id : String)
    (f : UploadedFile) (url name : String)
    (hurl : url ≠ "") (hname : objectNameOf env url = some name) :
    (∀ body p, env.dbFails .playerFind = false →
        st.players.find? (fun x => x._id == id) = some p → p.profilePhoto = some url →
        (playerRoutes_put env st id body (some f)).2.bucketCalls
            = st.bucketCalls ++ .delete name ::
                (if env.bucketSaveFails then [] else [.save (uploadObjectName env f "players")])
          ∧ (env.bucketSaveFails = true →
              (playerRoutes_put env st id body (some f)).1.status = 400
                ∧ (playerRoutes_put env st id body (some f)).2.players = st.players
                ∧ (env.bucketDeleteFails = false →
                    name ∉ (playerRoutes_put env st id body (some f)).2.bucket)))
      ∧ (∀ body l, env.dbFails .leaderFind = false →
        st.leaders.find? (fun x => x._id == id) = some l → l.teamLogo = some url →
        (leaderRoutes_put env st id body (some f)).2.bucketCalls
            = st.bucketCalls ++ .delete name ::
                (if env.bucketSaveFails then [] else [.save (uploadObjectName env f "leaders")])
          ∧ (env.bucketSaveFails = true →
              (leaderRoutes_put env st id body (some f)).1.status = 500
                ∧ (leaderRoutes_put env st id body (some f)).2.leaders = st.leaders
                ∧ (env.bucketDeleteFails = false →
                    name ∉ (leaderRoutes_put env st id body (some f)).2.bucket))) := by
  have hrel := @releaseIfSet_calls env st url name hurl hname
  have hfr := releaseIfSet_frame env st (some url)
  constructor
  · intro body p hdb hfind hphoto
    unfold playerRoutes_put
    simp only [hdb, hfind, hphoto, Bool.false_eq_true, if_false]
    unfold uploadToFirebase
    cases hs : env.bucketSaveFails with
    | true =>
      simp only [if_true, errorResponse]
      exact ⟨by simp [hrel.1], fun _ => ⟨trivial, hfr.1, hrel.2⟩⟩
    | false =>
      simp only [Bool.false_eq_true, if_false]
      refine ⟨?_, fun h => by cases h⟩
      rw [(playerRoutes_put_update_bucket env _ id body _).2]
      simp [hrel.1]
  · intro body l hdb hfind hlogo
    unfold leaderRoutes_put
    simp only [hdb, hfind, hlogo, Bool.false_eq_true, if_false]
    unfold uploadToFirebase
    cases hs : env.bucketSaveFails with
    | true =>
      simp only [if_true]
      exact ⟨by simp [hrel.1], fun _ => ⟨trivial, hfr.2.1, hrel.2⟩⟩
    | false =>
      simp only [Bool.false_eq_true, if_false]
      refine ⟨?_, fun h => by cases h⟩
      rw [(leaderRoutes_put_update_bucket env _ id body _).2]
      simp [hrel.1]

/-- Witness of amended C19: the player and the leader created with a file, updated with
a new file. -/
theorem update_releases_old_photo_first_witness :
    objectNameOf (Demo.envAt "a2" 2)
        "https://firebasestorage.googleapis.com/v0/b/bucket/o/players/1-x.png?alt=media"
        = some "players/1-x.png"
      ∧ (Demo.storeOnePlayer.players.find? (fun x => x._id == "a1")).map
          (fun p => p.profilePhoto)
          = some (some
              "https://firebasestorage.googleapis.com/v0/b/bucket/o/players/1-x.png?alt=media")
      ∧ (playerRoutes_put (Demo.envAt "a2" 2) Demo.storeOnePlayer "a1" Demo.bodyEmpty
          (some Demo.photoFile)).2.bucketCalls
          = Demo.storeOnePlayer.bucketCalls ++ BucketCall.delete "players/1-x.png" ::
              (if (Demo.envAt "a2" 2).bucketSaveFails then []
               else [.save (uploadObjectName (Demo.envAt "a2" 2) Demo.photoFile "players")]) :=
  ⟨by decide, by decide,
   ((update_releases_old_photo_first (Demo.envAt "a2" 2) Demo.storeOnePlayer "a1"
      Demo.photoFile
      "https://firebasestorage.googleapis.com/v0/b/bucket/o/players/1-x.png?alt=media"
      "players/1-x.png" (by decide) (by decide)).1 Demo.bodyEmpty
      (Demo.storeOnePlayer.players.head (by decide)) rfl (by decide) (by decide)).1⟩

/-! ## Claims about `deleteFromFirebase` -/

/-- The response and the players of the update step depend on the players of the store
only, and not on whether deletes from the bucket fail. -/
theorem playerRoutes_put_update_congr (env : Env) (b : Bool) {st0 st1 : Store}
    (hpl : st0.players = st1.players) (id : String) (body : PlayerBody)
    (photo : Option String) :
    (playerRoutes_put_update { env with bucketDeleteFails := b } st0 id body photo).1
        = (playerRoutes_put_update env st1 id body photo).1
      ∧ (playerRoutes_put_update { env with bucketDeleteFails := b } st0 id body photo).2.players
        = (playerRoutes_put_update env st1 id body photo).2.players := by
  have hu : playerUpdateData { env with bucketDeleteFails := b } body photo
      = playerUpdateData env body photo := rfl
  unfold playerRoutes_put_update Player_findByIdAndUpdate
  rw [hu, hpl]
  cases playerSchema_castUpdate (playerUpdateData env body photo) with
  | error e => exact ⟨rfl, hpl⟩
  | ok update =>
    dsimp only
    cases env.dbFails .playerUpdate with
    | true => exact ⟨rfl, hpl⟩
    | false =>
      simp only [Bool.false_eq_true, if_false]
      cases st1.players.find? (fun p => p._id == id) with
      | none => exact ⟨rfl, hpl⟩
      | some p =>
        dsimp only
        cases serialNoTaken id (update p).serialNo st1.players with
        | true => exact ⟨rfl, hpl⟩
        | false => exact ⟨rfl, rfl⟩

/-- The function `deleteFromFirebase` is its `try` block with every error caught. -/
theorem deleteFromFirebase_eq_caught (env : Env) (st : Store) (url : JVal) :
    deleteFromFirebase env st url = caught (deleteFromFirebase_try env st url) := by
  unfold deleteFromFirebase deleteFromFirebase_try
  cases url with
  | undefined => rfl
  | obj fields => rfl
  | prim p =>
    cases p with
    | null => rfl
    | bool b => rfl
    | num n => rfl
    | str u =>
      dsimp only
      cases u == "" with
      | true => rfl
      | false =>
        simp only [Bool.false_eq_true, if_false]
        cases matchObjectPath u.toList with
        | none => rfl
        | some captured =>
          dsimp only
          cases env.decodeURIComponent (String.mk captured) with
          | none => rfl
          | some fileName =>
            dsimp only
            cases (env.bucketDeleteFails || !st.bucket.contains fileName) with
            | true => rfl
            | false => rfl

/-- The response and the players of the player update route do not depend on whether
deletes from the bucket fail. -/
theorem playerRoutes_put_congr (env : Env) (b : Bool) (st : Store) (id : String)
    (body : PlayerBody) (file : Option UploadedFile) :
    (playerRoutes_put { env with bucketDeleteFails := b } st id body file).1
        = (playerRoutes_put env st id body file).1
      ∧ (playerRoutes_put { env with bucketDeleteFails := b } st id body file).2.players
        = (playerRoutes_put env st id body file).2.players := by
  unfold playerRoutes_put
  dsimp only
  cases env.dbFails .playerFind with
  | true => exact ⟨rfl, rfl⟩
  | false =>
    simp only [Bool.false_eq_true, if_false]
    cases st.players.find? (fun p => p._id == id) with
    | none => exact ⟨rfl, rfl⟩
    | some player =>
      dsimp only
      cases file with
      | none => exact playerRoutes_put_update_congr env b rfl id body none
      | some f =>
        dsimp only
        have h0 := releaseIfSet_frame env st player.profilePhoto
        have h1 := releaseIfSet_frame { env with bucketDeleteFails := b } st player.profilePhoto
        unfold uploadToFirebase
        dsimp only
        by_cases hs : env.bucketSaveFails = true
        · simp only [hs, if_true]
          exact ⟨trivial, h1.1.trans h0.1.symm⟩
        · simp only [hs, if_false]
          refine playerRoutes_put_update_congr env b ?_ id body _
          exact h1.1.trans h0.1.symm

/-- The response and the players of the player delete route do not depend on whether
deletes from the bucket fail. -/
theorem playerRoutes_delete_congr (env : Env) (b : Bool) (st : Store) (id : String) :
    (playerRoutes_delete { env with bucketDeleteFails := b } st id).1
        = (playerRoutes_delete env st id).1
      ∧ (playerRoutes_delete { env with bucketDeleteFails := b } st id).2.players
        = (playerRoutes_delete env st id).2.players := by
  unfold playerRoutes_delete
  dsimp only
  cases env.dbFails .playerFind with
  | true => exact ⟨rfl, rfl⟩
  | false =>
    simp only [Bool.false_eq_true, if_false]
    cases st.players.find? (fun p => p._id == id) with
    | none => exact ⟨rfl, rfl⟩
    | some player =>
      dsimp only
      have h0 := releaseIfSet_frame env st player.profilePhoto
      have h1 := releaseIfSet_frame { env with bucketDeleteFails := b } st player.profilePhoto
      cases env.dbFails .playerDelete with
      | true => exact ⟨rfl, h1.1.trans h0.1.symm⟩
      | false =>
        simp only [Bool.false_eq_true, if_false]
        exact ⟨trivial, by rw [h1.1, h0.1]⟩

/-- C20: `deleteFromFirebase` never raises to its caller. For every argument and every
outcome of the bucket delete, the function is its `try` block with every error caught,
and it leaves the three collections as they were. Consequently the response and the
player records of the player update route and of the player delete route are the same
whether the bucket delete fails or not, and the deletion of an existing player is
answered with 200 whenever the two database operations of the route do not fail. -/
theorem deleteFromFirebase_never_raises (env : Env) (st : Store) (url : JVal) :
    deleteFromFirebase env st url = caught (deleteFromFirebase_try env st url)
      ∧ sameCollections st (deleteFromFirebase env st url)
      ∧ (∀ (b : Bool) (id : String) (body : PlayerBody) (file : Option UploadedFile),
          (playerRoutes_put { env with bucketDeleteFails := b } st id body file).1
              = (playerRoutes_put env st id body file).1
            ∧ (playerRoutes_put { env with bucketDeleteFails := b } st id body file).2.players
              = (playerRoutes_put env st id body file).2.players)
      ∧ (∀ (b : Bool) (id : String),
          (playerRoutes_delete { env with bucketDeleteFails := b } st id).1
              = (playerRoutes_delete env st id).1
            ∧ (playerRoutes_delete { env with bucketDeleteFails := b } st id).2.players
              = (playerRoutes_delete env st id).2.players)
      ∧ (∀ (id : String) (p : PlayerDoc), env.dbFails .playerFind = false →
          env.dbFails .playerDelete = false →
          st.players.find? (fun x => x._id == id) = some p →
          (playerRoutes_delete env st id).1
            = { status := 200, body := .message "Player deleted successfully" }) := by
  refine ⟨deleteFromFirebase_eq_caught env st url, deleteFromFirebase_frame env st url,
    fun b id body file => playerRoutes_put_congr env b st id body file,
    fun b id => playerRoutes_delete_congr env b st id, fun id p h1 h2 hf => ?_⟩
  unfold playerRoutes_delete
  simp [h1, h2, hf]

/-- Witness of C20: with a failing bucket delete, the `try` block throws, the function
returns, and the deletion of the player whose photo cannot be released is answered with
200. -/
theorem deleteFromFirebase_never_raises_witness :
    (deleteFromFirebase_try Demo.envDeleteFails Demo.storeOnePlayer
        (.prim (.str Demo.photoUrl))).isOk = false
      ∧ (playerRoutes_delete Demo.envDeleteFails Demo.storeOnePlayer "a1").1
          = { status := 200, body := .message "Player deleted successfully" }
      ∧ deleteFromFirebase Demo.envDeleteFails Demo.storeOnePlayer (.prim (.str Demo.photoUrl))
          = caught (deleteFromFirebase_try Demo.envDeleteFails Demo.storeOnePlayer
              (.prim (.str Demo.photoUrl))) :=
  ⟨by decide,
   (deleteFromFirebase_never_raises Demo.envDeleteFails Demo.storeOnePlayer
      (.prim (.str Demo.photoUrl))).2.2.2.2 "a1" (Demo.storeOnePlayer.players.head (by decide))
      rfl rfl (by decide),
   (deleteFromFirebase_never_raises Demo.envDeleteFails Demo.storeOnePlayer
      (.prim (.str Demo.photoUrl))).1⟩

/-! ## Claims about rejected creations and published events -/

/-- C25: a creation whose name is missing or empty (a falsy `name`) is answered with 400
by the admin route and by the public route, and the store is left as it was: no player
record, no object in the bucket, no event. -/
theorem create_player_without_name_rejected (env : Env) (st : Store) (body : PlayerBody)
    (file : Option UploadedFile) (h : body.name.truthy = false) :
    playerRoutes_post env st body file
        = ({ status := 400, body := .message "Name is required" }, st)
      ∧ playerRoutes_postPublic env st body file
        = ({ status := 400, body := .message "Name, Village, and Password are required" },
           st) := by
  unfold playerRoutes_post playerRoutes_postPublic
  simp [h]

/-- Witness of C25: a creation with the name `''` and a photo, on the store with `p1`. -/
theorem create_player_without_name_rejected_witness :
    Demo.bodyNoName.name.truthy = false
      ∧ playerRoutes_post Demo.env Demo.storeBefore Demo.bodyNoName (some Demo.photoFile)
        = ({ status := 400, body := .message "Name is required" }, Demo.storeBefore)
      ∧ playerRoutes_postPublic Demo.env Demo.storeBefore Demo.bodyNoName (some Demo.photoFile)
        = ({ status := 400, body := .message "Name, Village, and Password are required" },
           Demo.storeBefore) :=
  ⟨rfl,
   create_player_without_name_rejected Demo.env Demo.storeBefore Demo.bodyNoName
     (some Demo.photoFile) rfl⟩

/-- An upload publishes no event. -/
theorem uploadToFirebase_emitted {env : Env} {st st1 : Store} {file : Option UploadedFile}
    {folder : String} {url : Option String}
    (h : uploadToFirebase env st file folder = .ok (url, st1)) : st1.emitted = st.emitted := by
  unfold uploadToFirebase at h
  split at h
  · cases h; rfl
  · split at h
    · cases h
    · cases h; rfl

/-- A player insert publishes no event. -/
theorem Player_save_emitted {env : Env} {st st1 : Store} {raw : RawPlayer} {doc : PlayerDoc}
    (h : Player_save env st raw = .ok (doc, st1)) : st1.emitted = st.emitted := by
  unfold Player_save at h
  repeat' split at h
  all_goals first
    | (cases h; rfl)
    | cases h

/-- A leader insert publishes no event. -/
theorem Leader_save_emitted {env : Env} {st st1 : Store} {raw : RawLeader} {doc : LeaderDoc}
    (h : Leader_save env st raw = .ok (doc, st1)) : st1.emitted = st.emitted := by
  unfold Leader_save at h
  repeat' split at h
  all_goals first
    | (cases h; rfl)
    | cases h

/-- The public registration of a player either saves the player and publishes one
`newPlayer` event that carries it, or saves nothing and publishes nothing. -/
theorem playerRoutes_postPublic_emitted (env : Env) (st : Store) (body : PlayerBody)
    (file : Option UploadedFile) :
    (∃ p, (playerRoutes_postPublic env st body file).1
            = { status := 201, body := .playerRegistered p }
          ∧ (playerRoutes_postPublic env st body file).2.players = st.players ++ [p]
          ∧ (playerRoutes_postPublic env st body file).2.emitted
              = st.emitted ++ [.newPlayer p])
      ∨ ((playerRoutes_postPublic env st body file).1.status ≠ 201
          ∧ (playerRoutes_postPublic env st body file).2.players = st.players
          ∧ (playerRoutes_postPublic env st body file).2.emitted = st.emitted) := by
  unfold playerRoutes_postPublic
  split
  · exact Or.inr ⟨by simp, rfl, rfl⟩
  · split
    · exact Or.inr ⟨by simp [errorResponse], rfl, rfl⟩
    · rename_i url st1 hup
      have h1 := uploadToFirebase_frame hup
      have e1 := uploadToFirebase_emitted hup
      split
      · exact Or.inr ⟨by simp [errorResponse], h1.1, e1⟩
      · split
        · exact Or.inr ⟨by simp [errorResponse], h1.1, e1⟩
        · rename_i player st2 hsave
          have h2 := Player_save_ok hsave
          have e2 := Player_save_emitted hsave
          refine Or.inl ⟨player, rfl, ?_, ?_⟩
          · show st2.players = _
            rw [h2.2.1, h1.1]
          · show st2.emitted ++ _ = _
            rw [e2, e1]

/-- The public registration of a leader either saves the leader and publishes one
`newLeader` event that carries it, or saves nothing and publishes nothing. -/
theorem leaderRoutes_postPublic_emitted (env : Env) (st : Store) (body : LeaderBody)
    (file : Option UploadedFile) :
    (∃ l, (leaderRoutes_postPublic env st body file).1
            = { status := 201, body := .leaderRegistered l }
          ∧ (leaderRoutes_postPublic env st body file).2.leaders = st.leaders ++ [l]
          ∧ (leaderRoutes_postPublic env st body file).2.emitted
              = st.emitted ++ [.newLeader l])
      ∨ ((leaderRoutes_postPublic env st body file).1.status ≠ 201
          ∧ (leaderRoutes_postPublic env st body file).2.leaders = st.leaders
          ∧ (leaderRoutes_postPublic env st body file).2.emitted = st.emitted) := by
  unfold leaderRoutes_postPublic
  split
  · exact Or.inr ⟨by simp, rfl, rfl⟩
  · split
    · exact Or.inr ⟨by simp, rfl, rfl⟩
    · split
      · exact Or.inr ⟨by simp, rfl, rfl⟩
      · split
        · split
          · exact Or.inr ⟨by simp [errorResponse], rfl, rfl⟩
          · split
            · exact Or.inr ⟨by simp, rfl, rfl⟩
            · split
              · exact Or.inr ⟨by simp [errorResponse], rfl, rfl⟩
              · rename_i url st1 hup
                have h1 := uploadToFirebase_frame hup
                have e1 := uploadToFirebase_emitted hup
                split
                · exact Or.inr ⟨by simp [errorResponse], h1.2.1, e1⟩
                · split
                  · exact Or.inr ⟨by simp [errorResponse], h1.2.1, e1⟩
                  · rename_i leader st2 hsave
                    have h2 := Leader_save_ok hsave
                    have e2 := Leader_save_emitted hsave
                    refine Or.inl ⟨leader, rfl, ?_, ?_⟩
                    · show st2.leaders = _
                      rw [h2.2.1, h1.2.1]
                    · show st2.emitted ++ _ = _
                      rw [e2, e1]
        · exact Or.inr ⟨by simp [errorResponse], rfl, rfl⟩

/-- The admin creation of a player publishes no event. -/
theorem playerRoutes_post_emitted (env : Env) (st : Store) (body : PlayerBody)
    (file : Option UploadedFile) :
    (playerRoutes_post env st body file).2.emitted = st.emitted := by
  unfold playerRoutes_post
  split
  · rfl
  · split
    · rfl
    · rename_i url st1 hup
      have e1 := uploadToFirebase_emitted hup
      split
      · exact e1
      · split
        · exact e1
        · rename_i player st2 hsave
          exact (Player_save_emitted hsave).trans e1

/-- The admin creation of a leader publishes no event. -/
theorem leaderRoutes_post_emitted (env : Env) (st : Store) (body : LeaderBody)
    (file : Option UploadedFile) :
    (leaderRoutes_post env st body file).2.emitted = st.emitted := by
  unfold leaderRoutes_post
  split
  · rfl
  · rename_i url st1 hup
    have e1 := uploadToFirebase_emitted hup
    repeat' split
    all_goals first
      | exact e1
      | (rename_i hsave
         exact (Leader_save_emitted hsave).trans e1)

/-- The sale route publishes no event, whatever its inserts and updates do. -/
theorem soldPlayerRoutes_post_emitted (env : Env) (st : Store) (body : SaleBody) :
    (soldPlayerRoutes_post env st body).2.emitted = st.emitted := by
  have hp : ∀ s s1, Player_findByIdAndUpdate_set env s (body.player.get "_id")
      (saleSetOf body) = .ok s1 → s1.emitted = s.emitted := by
    intro s s1 h
    unfold Player_findByIdAndUpdate_set at h
    repeat' split at h
    all_goals first
      | (cases h; rfl)
      | cases h
  have hl : ∀ s s1, Leader_findByIdAndUpdate_push env s (body.team.get "_id")
      (rosterEntryOf body) = .ok s1 → s1.emitted = s.emitted := by
    intro s s1 h
    unfold Leader_findByIdAndUpdate_push at h
    repeat' split at h
    all_goals first
      | (cases h; rfl)
      | cases h
  have hs : ∀ e s1, SoldPlayer_save env st (rawSoldPlayerOf body) = .ok (e, s1) →
      s1.emitted = st.emitted := by
    intro e s1 h
    unfold SoldPlayer_save at h
    repeat' split at h
    all_goals first
      | (cases h; rfl)
      | cases h
  unfold soldPlayerRoutes_post
  split
  · rfl
  · split
    · rfl
    · rfl
    · split
      · rfl
      · rename_i e s1 hsave
        unfold soldPlayerRoutes_post_afterSave
        split
        · exact hs e s1 hsave
        · rename_i s2 h2
          split
          · exact (hp s1 s2 h2).trans (hs e s1 hsave)
          · rename_i s3 h3
            exact (hl s2 s3 h3).trans ((hp s1 s2 h2).trans (hs e s1 hsave))

/-- C23: a public registration of a player publishes exactly one `newPlayer` event,
carrying the saved player, when it is answered with 201 and the record was saved, and
publishes nothing and saves nothing otherwise; the same holds for `newLeader` on the
public registration of a leader; the admin creations and the sale submission publish no
event. -/
theorem events_only_on_successful_public_registration (env : Env) (st : Store) :
    (∀ (body : PlayerBody) (file : Option UploadedFile),
        (∃ p, (playerRoutes_postPublic env st body file).1
                = { status := 201, body := .playerRegistered p }
              ∧ (playerRoutes_postPublic env st body file).2.players = st.players ++ [p]
              ∧ (playerRoutes_postPublic env st body file).2.emitted
                  = st.emitted ++ [.newPlayer p])
          ∨ ((playerRoutes_postPublic env st body file).1.status ≠ 201
              ∧ (playerRoutes_postPublic env st body file).2.players = st.players
              ∧ (playerRoutes_postPublic env st body file).2.emitted = st.emitted))
      ∧ (∀ (body : LeaderBody) (file : Option UploadedFile),
        (∃ l, (leaderRoutes_postPublic env st body file).1
                = { status := 201, body := .leaderRegistered l }
              ∧ (leaderRoutes_postPublic env st body file).2.leaders = st.leaders ++ [l]
              ∧ (leaderRoutes_postPublic env st body file).2.emitted
                  = st.emitted ++ [.newLeader l])
          ∨ ((leaderRoutes_postPublic env st body file).1.status ≠ 201
              ∧ (leaderRoutes_postPublic env st body file).2.leaders = st.leaders
              ∧ (leaderRoutes_postPublic env st body file).2.emitted = st.emitted))
      ∧ (∀ (body : PlayerBody) (file : Option UploadedFile),
          (playerRoutes_post env st body file).2.emitted = st.emitted)
      ∧ (∀ (body : LeaderBody) (file : Option UploadedFile),
          (leaderRoutes_post env st body file).2.emitted = st.emitted)
      ∧ ∀ body : SaleBody, (soldPlayerRoutes_post env st body).2.emitted = st.emitted :=
  ⟨playerRoutes_postPublic_emitted env st, leaderRoutes_postPublic_emitted env st,
   playerRoutes_post_emitted env st, leaderRoutes_post_emitted env st,
   soldPlayerRoutes_post_emitted env st⟩

/-! ## Claims about an update without a new photo and about the deletion of a player -/

theorem setPath_idem {α : Type} (given : JVal) (cast old : Option α) :
    setPath given cast (setPath given cast old) = setPath given cast old := by
  unfold setPath
  split <;> rfl

theorem setGiven_idem {α : Type} (given : Given α) (old : Option α) :
    setGiven given (setGiven given old) = setGiven given old := by
  cases given <;> rfl

/-- Applying the cast update of the player route twice is applying it once. -/
theorem playerSchema_castUpdate_idem {u : PlayerUpdate} {update : PlayerDoc → PlayerDoc}
    (h : playerSchema_castUpdate u = .ok update) (p : PlayerDoc) :
    update (update p) = update p := by
  unfold playerSchema_castUpdate at h
  split at h
  · cases h
    simp only [setPath_idem, setGiven_idem]
    congr 1
    · cases u.profilePhoto <;> rfl
    · cases u.serialNo <;> rfl
  · cases h

/-- Looking up in an updated list, when the update keeps what the lookup tests. -/
theorem find_updateFirst {α : Type} (pred : α → Bool) (f : α → α) (l : List α)
    (hpred : ∀ a, pred (f a) = pred a) :
    (updateFirst pred f l).find? pred = (l.find? pred).map f := by
  induction l with
  | nil => rfl
  | cons a rest ih =>
    unfold updateFirst
    by_cases ha : pred a = true
    · simp [ha, List.find?, hpred]
    · simp [ha, List.find?, ih]

/-- Updating an updated list again changes nothing, for an idempotent update that keeps
what the lookup tests. -/
theorem updateFirst_idem {α : Type} (pred : α → Bool) (f : α → α) (l : List α)
    (hpred : ∀ a, pred (f a) = pred a) (hf : ∀ a, f (f a) = f a) :
    updateFirst pred f (updateFirst pred f l) = updateFirst pred f l := by
  induction l with
  | nil => rfl
  | cons a rest ih =>
    by_cases ha : pred a = true
    · simp [updateFirst, ha, hpred, hf]
    · simp [updateFirst, ha, ih]

/-- Mapping an updated list through a function the update keeps. -/
theorem map_updateFirst {α β : Type} (pred : α → Bool) (f : α → α) (g : α → β) (l : List α)
    (hg : ∀ a, g (f a) = g a) : (updateFirst pred f l).map g = l.map g := by
  induction l with
  | nil => rfl
  | cons a rest ih =>
    by_cases ha : pred a = true
    · simp [updateFirst, ha, hg]
    · simp [updateFirst, ha, ih]

/-- Whether a serial number is taken by another document is the same after the update
of the document itself. -/
theorem serialNoTaken_updateFirst (id : String) (serialNo : Int) (f : PlayerDoc → PlayerDoc)
    (l : List PlayerDoc) (hid : ∀ a, (f a)._id = a._id) :
    serialNoTaken id serialNo (updateFirst (fun q => q._id == id) f l)
      = serialNoTaken id serialNo l := by
  induction l with
  | nil => rfl
  | cons a rest ih =>
    by_cases ha : (a._id == id) = true
    · simp [updateFirst, serialNoTaken, ha, hid]
    · simp [updateFirst, serialNoTaken, ha, ih]

/-- The update step of the player route, run again on the store it left, answers the
same and leaves the same store. -/
theorem playerRoutes_put_update_idem (env : Env) (st : Store) (id : String)
    (body : PlayerBody) (photo : Option String) :
    playerRoutes_put_update env (playerRoutes_put_update env st id body photo).2 id body photo
      = playerRoutes_put_update env st id body photo := by
  unfold playerRoutes_put_update Player_findByIdAndUpdate
  cases hu : playerSchema_castUpdate (playerUpdateData env body photo) with
  | error e => simp [hu]
  | ok update =>
    have hid : ∀ a, (update a)._id = a._id := fun a => (playerSchema_castUpdate_ok hu a).2.2.2.2
    have hpred : ∀ a, ((update a)._id == id) = (a._id == id) := fun a => by rw [hid a]
    by_cases hdb : env.dbFails .playerUpdate = true
    · simp [hu, hdb]
    · cases hf : st.players.find? (fun p => p._id == id) with
      | none => simp [hu, hdb, hf]
      | some p =>
        by_cases ht : serialNoTaken id (update p).serialNo st.players = true
        · simp [hu, hdb, hf, ht]
        · have hf2 := find_updateFirst (fun q : PlayerDoc => q._id == id) update st.players hpred
          rw [hf] at hf2
          simp only [hu, hdb, hf, ht, Bool.false_eq_true, if_false, hf2, Option.map_some',
            playerSchema_castUpdate_idem hu, serialNoTaken_updateFirst id _ update st.players hid,
            updateFirst_idem (fun q : PlayerDoc => q._id == id) update st.players hpred
              (playerSchema_castUpdate_idem hu)]

/-- The update step of the player route keeps the list of the photo references when it
is given no new photo. -/
theorem playerRoutes_put_update_photos (env : Env) (st : Store) (id : String)
    (body : PlayerBody) :
    (playerRoutes_put_update env st id body none).2.players.map (fun p => p.profilePhoto)
      = st.players.map (fun p => p.profilePhoto) := by
  unfold playerRoutes_put_update Player_findByIdAndUpdate
  cases hu : playerSchema_castUpdate (playerUpdateData env body none) with
  | error e => rfl
  | ok update =>
    have hphoto : ∀ a, (update a).profilePhoto = a.profilePhoto := fun a => by
      rw [(playerSchema_castUpdate_fields hu a).2.2.2.2.2.2.2.2.2.2.2.1]
      rfl
    by_cases hdb : env.dbFails .playerUpdate = true
    · simp [hdb]
    · cases hf : st.players.find? (fun p => p._id == id) with
      | none => simp [hdb]
      | some p =>
        by_cases ht : serialNoTaken id (update p).serialNo st.players = true
        · simp [hdb, ht]
        · simp only [hdb, ht, Bool.false_eq_true, if_false]
          exact map_updateFirst _ update (fun p => p.profilePhoto) st.players hphoto

/-- C21: an update request that carries no new photo makes no call to the bucket (no
delete and no save), leaves the photo reference of every player as it was, and, sent a
second time, is answered as the first time and leaves the store as the first time. -/
theorem update_without_photo_idempotent (env : Env) (st : Store) (id : String)
    (body : PlayerBody) :
    (playerRoutes_put env st id body none).2.bucketCalls = st.bucketCalls
      ∧ (playerRoutes_put env st id body none).2.bucket = st.bucket
      ∧ (playerRoutes_put env st id body none).2.players.map (fun p => p.profilePhoto)
          = st.players.map (fun p => p.profilePhoto)
      ∧ playerRoutes_put env (playerRoutes_put env st id body none).2 id body none
          = playerRoutes_put env st id body none := by
  by_cases hdb : env.dbFails .playerFind = true
  · have hr : playerRoutes_put env st id body none
        = (errorResponse 400 "database error", st) := by
      unfold playerRoutes_put
      simp [hdb]
    rw [hr]
    exact ⟨rfl, rfl, rfl, hr⟩
  · cases hf : st.players.find? (fun p => p._id == id) with
    | none =>
      have hr : playerRoutes_put env st id body none
          = ({ status := 404, body := .message "Player not found" }, st) := by
        unfold playerRoutes_put
        simp [hdb, hf]
      rw [hr]
      exact ⟨rfl, rfl, rfl, hr⟩
    | some p =>
      have hr : ∀ s : Store, (s.players.find? (fun p => p._id == id)).isSome = true →
          playerRoutes_put env s id body none = playerRoutes_put_update env s id body none := by
        intro s hs
        unfold playerRoutes_put
        cases hfs : s.players.find? (fun p => p._id == id) with
        | none => rw [hfs] at hs; cases hs
        | some q => simp [hdb]
      have hsome : ((playerRoutes_put_update env st id body none).2.players.find?
          (fun p => p._id == id)).isSome = true := by
        unfold playerRoutes_put_update Player_findByIdAndUpdate
        cases hu : playerSchema_castUpdate (playerUpdateData env body none) with
        | error e => simp [hf]
        | ok update =>
          have hpred : ∀ a, ((update a)._id == id) = (a._id == id) := fun a => by
            rw [(playerSchema_castUpdate_ok hu a).2.2.2.2]
          have hf2 := find_updateFirst (fun q : PlayerDoc => q._id == id) update st.players hpred
          rw [hf] at hf2
          by_cases hdb2 : env.dbFails .playerUpdate = true
          · simp [hdb2, hf]
          · by_cases ht : serialNoTaken id (update p).serialNo st.players = true
            · simp [hdb2, hf, ht]
            · simp [hdb2, hf, ht, hf2]
      rw [hr st (by rw [hf]; rfl)]
      refine ⟨(playerRoutes_put_update_bucket env st id body none).2,
        (playerRoutes_put_update_bucket env st id body none).1,
        playerRoutes_put_update_photos env st id body, ?_⟩
      rw [hr _ hsome]
      exact playerRoutes_put_update_idem env st id body none

/-- Erasing the first record with an id from a list whose ids are distinct leaves no
record with that id. -/
theorem eraseP_id_absent (id : String) (l : List PlayerDoc)
    (hnodup : (l.map (fun q => q._id)).Nodup) :
    ∀ q ∈ l.eraseP (fun q => q._id == id), q._id ≠ id := by
  induction l with
  | nil => intro q hq; cases hq
  | cons a l ih =>
    rw [List.map_cons, List.nodup_cons] at hnodup
    by_cases ha : a._id = id
    · have hpos : List.eraseP (fun q => q._id == id) (a :: l) = l := by
        simp [List.eraseP_cons, ha]
      rw [hpos]
      intro q hq hqid
      exact hnodup.1 (List.mem_map.mpr ⟨q, hq, by rw [hqid, ha]⟩)
    · have hneg : List.eraseP (fun q => q._id == id) (a :: l)
          = a :: List.eraseP (fun q => q._id == id) l := by
        simp [List.eraseP_cons, ha]
      rw [hneg]
      intro q hq
      rcases List.mem_cons.mp hq with rfl | hq
      · exact ha
      · exact ih hnodup.2 q hq

/-- The deletion of an existing player: the bucket is the one left by the release of
the photo, and the record is removed unless the removal fails. -/
theorem playerRoutes_delete_effect {env : Env} {st : Store} {id : String} {p : PlayerDoc}
    (hdb : env.dbFails .playerFind = false)
    (hfind : st.players.find? (fun q => q._id == id) = some p) :
    (playerRoutes_delete env st id).2.bucket = (releaseIfSet env st p.profilePhoto).bucket
      ∧ (playerRoutes_delete env st id).2.bucketCalls
          = (releaseIfSet env st p.profilePhoto).bucketCalls
      ∧ (env.dbFails .playerDelete = false →
          (playerRoutes_delete env st id).1
              = { status := 200, body := .message "Player deleted successfully" }
            ∧ (playerRoutes_delete env st id).2.players
                = st.players.eraseP (fun q => q._id == id))
      ∧ (env.dbFails .playerDelete = true →
          (playerRoutes_delete env st id).1.status = 500
            ∧ (playerRoutes_delete env st id).2.players = st.players) := by
  have h0 := (releaseIfSet_frame env st p.profilePhoto).1
  unfold playerRoutes_delete
  simp only [hdb, hfind, Bool.false_eq_true, if_false]
  cases env.dbFails .playerDelete with
  | true =>
    simp only [if_true]
    exact ⟨trivial, trivial, fun h => (by cases h), fun _ => ⟨trivial, h0⟩⟩
  | false =>
    simp only [Bool.false_eq_true, if_false]
    refine ⟨trivial, trivial, fun _ => ⟨trivial, ?_⟩, fun h => (by cases h)⟩
    show List.eraseP _ (releaseIfSet env st p.profilePhoto).players = _
    rw [h0]

/-- C22: the deletion of an existing player. When the photo reference is null or empty,
no call is made to the bucket. When it is the URL of an object, exactly one delete call
is made, for that object; the call is made before the record is removed, so it has been
made also when the removal then fails and the record stays. When the removal does not
fail the answer is 200, the record is removed, and (the ids of the store being distinct)
no record with the id is left. -/
theorem delete_player_releases_photo_then_removes (env : Env) (st : Store) (id : String)
    (p : PlayerDoc) (hdb : env.dbFails .playerFind = false)
    (hfind : st.players.find? (fun q => q._id == id) = some p) :
    ((p.profilePhoto = none ∨ p.profilePhoto = some "") →
        (playerRoutes_delete env st id).2.bucketCalls = st.bucketCalls
          ∧ (playerRoutes_delete env st id).2.bucket = st.bucket)
      ∧ (∀ url name, p.profilePhoto = some url → url ≠ "" →
          objectNameOf env url = some name →
          (playerRoutes_delete env st id).2.bucketCalls = st.bucketCalls ++ [.delete name]
            ∧ (env.bucketDeleteFails = false → name ∉ (playerRoutes_delete env st id).2.bucket))
      ∧ (env.dbFails .playerDelete = false →
          (playerRoutes_delete env st id).1
              = { status := 200, body := .message "Player deleted successfully" }
            ∧ (playerRoutes_delete env st id).2.players
                = st.players.eraseP (fun q => q._id == id)
            ∧ ((st.players.map (fun q => q._id)).Nodup →
                ∀ q ∈ (playerRoutes_delete env st id).2.players, q._id ≠ id))
      ∧ (env.dbFails .playerDelete = true →
          (playerRoutes_delete env st id).1.status = 500
            ∧ (playerRoutes_delete env st id).2.players = st.players) := by
  obtain ⟨hb, hc, hok, hfail⟩ := playerRoutes_delete_effect hdb hfind
  refine ⟨fun hphoto => ?_, fun url name hurl hne hname => ?_, fun hdel => ?_, hfail⟩
  · rw [hb, hc]
    rcases hphoto with h | h <;> rw [h] <;> exact ⟨rfl, rfl⟩
  · rw [hb, hc, hurl]
    exact releaseIfSet_calls hne hname
  · obtain ⟨h1, h2⟩ := hok hdel
    refine ⟨h1, h2, fun hnodup => ?_⟩
    rw [h2]
    exact eraseP_id_absent id st.players hnodup

/-- C22, on the store with the one player `a1` whose photo is the object
`players/1-x.png`: one delete call for that object, and no player left. -/
theorem delete_player_releases_photo_then_removes_witness :
    (playerRoutes_delete (Demo.envAt "a2" 2) Demo.storeOnePlayer "a1").2.bucketCalls
        = Demo.storeOnePlayer.bucketCalls ++ [.delete "players/1-x.png"]
      ∧ "players/1-x.png" ∉ (playerRoutes_delete (Demo.envAt "a2" 2) Demo.storeOnePlayer "a1").2.bucket
      ∧ (playerRoutes_delete (Demo.envAt "a2" 2) Demo.storeOnePlayer "a1").2.players = [] :=
  have h := delete_player_releases_photo_then_removes (Demo.envAt "a2" 2) Demo.storeOnePlayer
    "a1" (Demo.storeOnePlayer.players.head (by decide)) rfl (by decide)
  have h2 := h.2.1 Demo.photoUrl "players/1-x.png" rfl (by decide) (by decide)
  ⟨h2.1, h2.2 rfl, (h.2.2.1 rfl).2.1.trans (by decide)⟩

/-! ## Claims about concurrent sale submissions -/

/-- An answered submission makes no further operation. -/
theorem SaleTask_steps_answered (env : Env) (n : Nat) (st : Store) (response : Response) :
    SaleTask.steps env n st (.answered response) = (.answered response, st) := by
  induction n with
  | zero => rfl
  | succ n ih => exact ih

/-- The four operations of a submission, made with no other request in between, are the
sale route. -/
theorem SaleTask_steps_eq_route (env : Env) (st : Store) (body : SaleBody) :
    SaleTask.steps env 4 st (.received body)
      = (.answered (soldPlayerRoutes_post env st body).1,
         (soldPlayerRoutes_post env st body).2) := by
  show SaleTask.steps env 3 (SaleTask.step env st (.received body)).2
    (SaleTask.step env st (.received body)).1 = _
  unfold soldPlayerRoutes_post
  by_cases hc : (!body.player.truthy || !body.team.truthy || !body.leader.truthy
      || !body.saleDetails.truthy || !(body.saleDetails.get "amount").truthy) = true
  · simp only [SaleTask.step, hc, if_true]
    exact SaleTask_steps_answered env 3 st _
  · simp only [SaleTask.step, hc, if_false]
    cases SoldPlayer_findOne env st (body.player.get "_id") with
    | error e => exact SaleTask_steps_answered env 3 st _
    | ok found =>
      cases found with
      | some d => exact SaleTask_steps_answered env 3 st _
      | none =>
        show SaleTask.steps env 2 (SaleTask.step env st (.checked body)).2
          (SaleTask.step env st (.checked body)).1 = _
        simp only [SaleTask.step]
        cases SoldPlayer_save env st (rawSoldPlayerOf body) with
        | error e => exact SaleTask_steps_answered env 2 st _
        | ok r =>
          obtain ⟨soldPlayer, st1⟩ := r
          show SaleTask.steps env 1 (SaleTask.step env st1 (.saved body soldPlayer)).2
            (SaleTask.step env st1 (.saved body soldPlayer)).1 = _
          unfold soldPlayerRoutes_post_afterSave
          simp only [SaleTask.step]
          cases Player_findByIdAndUpdate_set env st1 (body.player.get "_id")
              (saleSetOf body) with
          | error e => exact SaleTask_steps_answered env 1 st1 _
          | ok st2 =>
            show SaleTask.steps env 0 (SaleTask.step env st2 (.playerUpdated body soldPlayer)).2
              (SaleTask.step env st2 (.playerUpdated body soldPlayer)).1 = _
            simp only [SaleTask.step]
            cases Leader_findByIdAndUpdate_push env st2 (body.team.get "_id")
                (rosterEntryOf body) with
            | error e => rfl
            | ok st3 => rfl

/-- An operation of a submission that has made no insert leaves the store as it was, and
the submission with no insert made, not answered with 201 and not answered with 'Player
is already sold'. -/
theorem SaleTask_step_notSettled (env : Env) (st : Store) (task : SaleTask)
    (h : task.notSettled) :
    (SaleTask.step env st task).1.notSettled ∧ (SaleTask.step env st task).2 = st := by
  cases task with
  | received body =>
    by_cases hc : (!body.player.truthy || !body.team.truthy || !body.leader.truthy
        || !body.saleDetails.truthy || !(body.saleDetails.get "amount").truthy) = true
    · simp only [SaleTask.step, hc, if_true]
      exact ⟨⟨by decide, by decide⟩, trivial⟩
    · simp only [SaleTask.step, hc, if_false]
      rcases SoldPlayer_findOne_get env st body.player "_id" with hq | hq
      · rw [hq]
        exact ⟨⟨by simp [saleServerError], by simp [saleServerError]⟩, rfl⟩
      · rw [hq]
        exact ⟨trivial, rfl⟩
  | checked body =>
    simp only [SaleTask.step]
    rw [SoldPlayer_save_of_ids]
    exact ⟨⟨by simp [saleServerError], by simp [saleServerError]⟩, rfl⟩
  | saved body soldPlayer => exact absurd h id
  | playerUpdated body soldPlayer => exact absurd h id
  | answered response => exact ⟨h, rfl⟩

/-- An operation of one of several submissions, none of which has made an insert. -/
theorem stepAt_notSettled (env : Env) (st : Store) (tasks : List SaleTask) (i : Nat)
    (h : ∀ t ∈ tasks, t.notSettled) :
    (∀ t ∈ (stepAt env st tasks i).1, t.notSettled) ∧ (stepAt env st tasks i).2 = st
      ∧ (stepAt env st tasks i).1.length = tasks.length := by
  unfold stepAt
  cases hg : tasks.get? i with
  | none => exact ⟨h, rfl, rfl⟩
  | some task =>
    have hmem : task ∈ tasks := List.get?_mem hg
    have hs := SaleTask_step_notSettled env st task (h task hmem)
    refine ⟨fun t ht => ?_, hs.2, List.length_set _ _ _⟩
    rcases List.mem_or_eq_of_mem_set ht with ht | ht
    · exact h t ht
    · rw [ht]
      exact hs.1

/-- Submissions served concurrently, whatever the schedule: none makes an insert. -/
theorem interleave_notSettled (schedule : List (Env × Nat)) :
    ∀ (st : Store) (tasks : List SaleTask), (∀ t ∈ tasks, t.notSettled) →
      (∀ t ∈ (interleave st tasks schedule).1, t.notSettled)
        ∧ (interleave st tasks schedule).2 = st
        ∧ (interleave st tasks schedule).1.length = tasks.length := by
  induction schedule with
  | nil => intro st tasks h; exact ⟨h, rfl, rfl⟩
  | cons x rest ih =>
    intro st tasks h
    obtain ⟨env, i⟩ := x
    have hs := stepAt_notSettled env st tasks i h
    have hi := ih (stepAt env st tasks i).2 (stepAt env st tasks i).1 hs.1
    unfold interleave
    exact ⟨hi.1, hi.2.1.trans hs.2.1, hi.2.2.trans hs.2.2⟩

/-- A submission with no insert made is not answered with 201 nor with 'Player is
already sold'. -/
theorem SaleTask_notSettled_flags {task : SaleTask} (h : task.notSettled) :
    task.succeeded = false ∧ task.alreadySold = false := by
  cases task with
  | answered response =>
    obtain ⟨h1, h2⟩ := h
    exact ⟨by simp [SaleTask.succeeded, h1], by simp [SaleTask.alreadySold, h2]⟩
  | _ => exact ⟨rfl, rfl⟩

/-- C24, evaluated on the code: of the sale submissions served concurrently, whatever
their number, their bodies and the schedule of their database operations, none is
answered with 201 and none with 'Player is already sold', and the store, the ledger with
it, is left as it was. Two submissions for the player `p1`, each run to its end, are
both answered with 500 and the ledger stays empty. -/
theorem concurrent_sales_none_succeeds (st : Store) (bodies : List SaleBody)
    (schedule : List (Env × Nat)) :
    (interleave st (bodies.map SaleTask.received) schedule).2 = st
      ∧ (∀ t ∈ (interleave st (bodies.map SaleTask.received) schedule).1,
          t.succeeded = false ∧ t.alreadySold = false)
      ∧ interleave Demo.storeBefore [.received Demo.saleBody, .received Demo.saleBody]
            [(Demo.env, 0), (Demo.env, 1), (Demo.env, 0), (Demo.env, 1)]
          = ([.answered (saleServerError "SoldPlayer validation failed"),
              .answered (saleServerError "SoldPlayer validation failed")],
             Demo.storeBefore)
      ∧ Demo.storeBefore.soldPlayers = [] := by
  have h0 : ∀ t ∈ bodies.map SaleTask.received, t.notSettled := by
    intro t ht
    obtain ⟨b, _, rfl⟩ := List.mem_map.mp ht
    trivial
  have h := interleave_notSettled schedule st _ h0
  exact ⟨h.2.1, fun t ht => SaleTask_notSettled_flags (h.1 t ht), by decide, by decide⟩

/-! ## Claims about the records a sale submission leaves alone -/

/-- An updated list holds, position by position, the old element or the image of an
element that satisfies the test. -/
theorem forall2_updateFirst {α : Type} (pred : α → Bool) (f : α → α) (l : List α) :
    List.Forall₂ (fun a b => b = a ∨ (pred a = true ∧ b = f a)) l (updateFirst pred f l) := by
  induction l with
  | nil => exact List.Forall₂.nil
  | cons a rest ih =>
    unfold updateFirst
    by_cases h : pred a = true
    · rw [if_pos h]
      exact List.Forall₂.cons (Or.inr ⟨h, rfl⟩)
        (List.forall₂_same.mpr (fun x _ => Or.inl rfl))
    · rw [if_neg h]
      exact List.Forall₂.cons (Or.inl rfl) ih

/-- An id cast from a property read is the id of a document only when the property is
the text of that id. -/
theorem hasId_castObjectId_get {v : JVal} {key : String} {id : Option String}
    {docId : String} (hcast : castObjectId (v.get key) = .ok id)
    (h : hasId id docId = true) : v.get key = .prim (.str docId) := by
  have hne := JVal.get_ne_obj v key
  cases hv : v.get key with
  | undefined =>
    rw [hv] at hcast
    cases hcast
    simp [hasId] at h
  | prim p =>
    rw [hv] at hcast
    cases p with
    | null => cases hcast; simp [hasId] at h
    | bool b => cases hcast
    | num n => cases hcast
    | str s =>
      cases hcast
      simp only [hasId, beq_iff_eq, Option.some.injEq] at h
      rw [h]
  | obj fs => exact absurd hv (hne fs)

/-- The cast of the `$set` document of the sale route keeps the id of a player. -/
theorem playerSchema_castSaleSet_id {set : SaleSet} {update : PlayerDoc → PlayerDoc}
    (h : playerSchema_castSaleSet set = .ok update) (p : PlayerDoc) :
    (update p)._id = p._id := by
  unfold playerSchema_castSaleSet at h
  split at h
  · cases h; rfl
  · cases h

/-- The part of the sale route after the insert changes only the player and the team
of the submission, and no budget. -/
theorem soldPlayerRoutes_post_afterSave_parties (env : Env) (st : Store) (body : SaleBody)
    (soldPlayer : SoldPlayerDoc) :
    changesOnlySaleParties body st
      (soldPlayerRoutes_post_afterSave env st body soldPlayer).2 := by
  have hsame : ∀ s : Store, changesOnlySaleParties body s s := fun s =>
    ⟨List.forall₂_same.mpr (fun _ _ => Or.inl rfl),
     List.forall₂_same.mpr (fun _ _ => ⟨Or.inl rfl, rfl⟩)⟩
  have hp : ∀ st1, Player_findByIdAndUpdate_set env st (body.player.get "_id")
      (saleSetOf body) = .ok st1 →
      List.Forall₂
          (fun q q' => q' = q ∨ (body.player.get "_id" = .prim (.str q._id) ∧ q'._id = q._id))
          st.players st1.players
        ∧ st1.leaders = st.leaders := by
    intro st1 h
    unfold Player_findByIdAndUpdate_set at h
    split at h
    · rename_i pid update hpid hupdate
      split at h
      · cases h
      · cases h
        refine ⟨?_, rfl⟩
        refine List.Forall₂.imp ?_ (forall2_updateFirst _ update st.players)
        intro q q' hq
        rcases hq with hq | ⟨hq1, hq2⟩
        · exact Or.inl hq
        · exact Or.inr ⟨hasId_castObjectId_get hpid hq1,
            by rw [hq2]; exact playerSchema_castSaleSet_id hupdate q⟩
    · cases h
  have hl : ∀ st1 st2, Leader_findByIdAndUpdate_push env st1 (body.team.get "_id")
      (rosterEntryOf body) = .ok st2 →
      st2.players = st1.players
        ∧ List.Forall₂
          (fun l l' => (l' = l ∨ (body.team.get "_id" = .prim (.str l._id) ∧ l'._id = l._id))
            ∧ l'.maxAmount = l.maxAmount)
          st1.leaders st2.leaders := by
    intro st1 st2 h
    unfold Leader_findByIdAndUpdate_push at h
    split at h
    · rename_i tid playerRef htid _
      split at h
      · cases h
      · cases h
        refine ⟨rfl, ?_⟩
        refine List.Forall₂.imp ?_ (forall2_updateFirst _ _ st1.leaders)
        intro l l' hq
        rcases hq with hq | ⟨hq1, hq2⟩
        · exact ⟨Or.inl hq, by rw [hq]⟩
        · exact ⟨Or.inr ⟨hasId_castObjectId_get htid hq1, by rw [hq2]⟩, by rw [hq2]⟩
    · cases h
  unfold soldPlayerRoutes_post_afterSave
  cases h1 : Player_findByIdAndUpdate_set env st (body.player.get "_id") (saleSetOf body) with
  | error e => exact hsame st
  | ok st1 =>
    obtain ⟨hp1, hp2⟩ := hp st1 h1
    dsimp only
    cases h2 : Leader_findByIdAndUpdate_push env st1 (body.team.get "_id")
        (rosterEntryOf body) with
    | error e =>
      refine ⟨hp1, ?_⟩
      show List.Forall₂ _ st.leaders st1.leaders
      rw [hp2]
      exact (hsame st).2
    | ok st2 =>
      obtain ⟨hl1, hl2⟩ := hl st1 st2 h2
      refine ⟨?_, ?_⟩
      · show List.Forall₂ _ st.players st2.players
        rw [hl1]
        exact hp1
      · show List.Forall₂ _ st.leaders st2.leaders
        rw [← hp2]
        exact hl2

/-- C29: a sale submission, whatever its answer, leaves every player whose id is not
`player._id` and every leader (team) whose id is not `team._id` as it was, keeps the
order and the ids of the records, and leaves the `maxAmount` of every team as it was.
The same holds of the two updates the route makes once the ledger entry is inserted,
from any store. -/
theorem sale_changes_only_its_player_and_team (env : Env) (st : Store) (body : SaleBody) :
    changesOnlySaleParties body st (soldPlayerRoutes_post env st body).2
      ∧ (∀ soldPlayer, changesOnlySaleParties body st
            (soldPlayerRoutes_post_afterSave env st body soldPlayer).2)
      ∧ (soldPlayerRoutes_post env st body).2.leaders.map (fun l => l.maxAmount)
          = st.leaders.map (fun l => l.maxAmount) := by
  have hroute := soldPlayerRoutes_post_store env st body
  refine ⟨?_, ?_, by rw [hroute]⟩
  · rw [hroute]
    exact ⟨List.forall₂_same.mpr (fun _ _ => Or.inl rfl),
      List.forall₂_same.mpr (fun _ _ => ⟨Or.inl rfl, rfl⟩)⟩
  · exact fun soldPlayer => soldPlayerRoutes_post_afterSave_parties env st body soldPlayer

/-! ## Claims about the age computed by the public registration -/

/-- A validated player document holds the date of birth and the age it was given. -/
theorem playerSchema_dob_age {env : Env} {raw : RawPlayer} {doc : PlayerDoc}
    (h : playerSchema env raw = .ok doc) :
    castGiven "date" raw.dob = .ok doc.dob ∧ castGiven "Number" raw.age = .ok doc.age := by
  unfold playerSchema at h
  split at h
  · rename_i hdob hage _ _ _ _ _ _ _ _ _ _
    cases h
    exact ⟨hdob, hage⟩
  · cases h

/-- The player a successful public registration answers with is validated from the date
of birth `dob ? new Date(dob) : null` and the age computed from it, and is appended to
the players. -/
theorem playerRoutes_postPublic_ok {env : Env} {st : Store} {body : PlayerBody}
    {file : Option UploadedFile} {p : PlayerDoc}
    (h : (playerRoutes_postPublic env st body file).1
          = { status := 201, body := .playerRegistered p }) :
    (playerRoutes_postPublic env st body file).2.players = st.players ++ [p]
      ∧ castGiven "date" (newDateIfTruthy env body.dob) = .ok p.dob
      ∧ castGiven "Number"
          (match newDateIfTruthy env body.dob with
           | .value birthDate => Given.value (ageOn env.today birthDate)
           | .invalid => .invalid
           | .unset => .unset) = .ok p.age := by
  refine ⟨?_, ?_⟩
  · rcases playerRoutes_postPublic_emitted env st body file with ⟨q, hq, hplayers, _⟩ | ⟨hne, _, _⟩
    · rw [h] at hq
      simp only [Response.mk.injEq, Payload.playerRegistered.injEq, true_and] at hq
      rw [hq]
      exact hplayers
    · rw [h] at hne
      exact absurd rfl hne
  · unfold playerRoutes_postPublic at h
    split at h
    · cases h
    · split at h
      · simp [errorResponse] at h
      · split at h
        · simp [errorResponse] at h
        · split at h
          · simp [errorResponse] at h
          · rename_i player st2 hsave
            have h2 := Player_save_ok hsave
            have h3 := playerSchema_dob_age h2.1
            simp only [Response.mk.injEq, Payload.playerRegistered.injEq, true_and] at h
            subst h
            exact h3

/-- C27: the age a successful public registration stores. With no date of birth given
(a missing or falsy `dob`) the age and the date of birth are left unset; otherwise `dob`
is a valid date and the age is `ageOn today birthDate`, which is the difference of the
years when the month and day of today are on or after those of the birth and one less
otherwise, and which is not negative when the date of birth is not after today. -/
theorem public_registration_age (env : Env) (st : Store) (body : PlayerBody)
    (file : Option UploadedFile) (p : PlayerDoc)
    (h : (playerRoutes_postPublic env st body file).1
          = { status := 201, body := .playerRegistered p }) :
    (playerRoutes_postPublic env st body file).2.players = st.players ++ [p]
      ∧ (body.dob.truthy = false → p.dob = none ∧ p.age = none)
      ∧ (body.dob.truthy = true → ∃ d, newDateIfTruthy env body.dob = .value d)
      ∧ (∀ d, newDateIfTruthy env body.dob = .value d →
          p.dob = some d ∧ p.age = some (ageOn env.today d))
      ∧ (∀ today birth : JsDate,
          ageOn today birth
            = if birth.month < today.month
                  ∨ (birth.month = today.month ∧ birth.date ≤ today.date) then
                today.year - birth.year
              else today.year - birth.year - 1)
      ∧ (∀ today birth : JsDate,
          (birth.year < today.year
            ∨ (birth.year = today.year
                ∧ (birth.month < today.month
                    ∨ (birth.month = today.month ∧ birth.date ≤ today.date)))) →
          0 ≤ ageOn today birth) := by
  obtain ⟨hplayers, hdob, hage⟩ := playerRoutes_postPublic_ok h
  have hformula : ∀ today birth : JsDate,
      ageOn today birth
        = if birth.month < today.month
              ∨ (birth.month = today.month ∧ birth.date ≤ today.date) then
            today.year - birth.year
          else today.year - birth.year - 1 := by
    intro today birth
    unfold ageOn
    simp only [Bool.or_eq_true, decide_eq_true_eq, Bool.and_eq_true, beq_iff_eq]
    by_cases h1 : today.month < birth.month ∨ (today.month = birth.month ∧ today.date < birth.date)
    · rw [if_pos h1, if_neg (by omega)]
    · rw [if_neg h1, if_pos (by omega)]
  refine ⟨hplayers, fun hfalsy => ?_, fun htruthy => ?_, fun d hd => ?_, hformula,
    fun today birth hle => ?_⟩
  · have hunset : newDateIfTruthy env body.dob = .unset := by
      unfold newDateIfTruthy
      simp [hfalsy]
    rw [hunset] at hdob hage
    simp only [castGiven, Except.ok.injEq] at hdob hage
    exact ⟨hdob.symm, hage.symm⟩
  · cases hd : newDateIfTruthy env body.dob with
    | value d => exact ⟨d, rfl⟩
    | invalid =>
      rw [hd] at hdob
      cases hdob
    | unset =>
      unfold newDateIfTruthy at hd
      rw [if_pos htruthy] at hd
      split at hd
      · split at hd <;> cases hd
      · cases hd
  · rw [hd] at hdob hage
    simp only [castGiven, Except.ok.injEq] at hdob hage
    exact ⟨hdob.symm, hage.symm⟩
  · rw [hformula]
    split <;> omega

/-- C27, on a registration made on 15 January 2025 with the date of birth 15 June 2000:
the stored age is 24. -/
theorem public_registration_age_witness :
    (playerRoutes_postPublic Demo.envBorn Store.empty Demo.bodyBorn (some Demo.photoFile)).1
        = { status := 201, body := .playerRegistered Demo.registeredBorn }
      ∧ Demo.registeredBorn.age = some 24
      ∧ Demo.registeredBorn.age
          = some (ageOn Demo.envBorn.today { year := 2000, month := 5, date := 15 }) :=
  ⟨rfl, rfl,
   ((public_registration_age Demo.envBorn Store.empty Demo.bodyBorn (some Demo.photoFile)
      Demo.registeredBorn rfl).2.2.2.1 { year := 2000, month := 5, date := 15 } rfl).2⟩

/-! ## Claims about the paginated listings -/

/-- The sorted documents are in ascending order of the key, and are the documents of the
collection, each as often as the collection holds it. -/
theorem sortedBy_spec {α : Type} (key : α → Int) (docs : List α) :
    (sortedBy key docs).Sorted (fun a b => key a ≤ key b) ∧ (sortedBy key docs).Perm docs := by
  haveI : IsTotal α (fun a b => key a ≤ key b) := ⟨fun a b => Int.le_total (key a) (key b)⟩
  haveI : IsTrans α (fun a b => key a ≤ key b) := ⟨fun _ _ _ h1 h2 => Int.le_trans h1 h2⟩
  exact ⟨List.sorted_insertionSort _ docs, List.perm_insertionSort _ docs⟩

/-- A query for a page from 1 on, of a size from 1 on, returns that page of the sorted
documents. -/
theorem findSortedPage_page {α : Type} (key : α → Int) (docs : List α) {page pageSize : Nat}
    (hpage : 1 ≤ page) (hsize : 1 ≤ pageSize) :
    findSortedPage key docs ((((page : Nat) : Int) - 1) * ((pageSize : Nat) : Int)) pageSize
      = .ok (pageOf (sortedBy key docs) page pageSize) := by
  have hskip : (((page : Nat) : Int) - 1) * ((pageSize : Nat) : Int)
      = (((page - 1) * pageSize : Nat) : Int) := by
    rw [Nat.cast_mul, Nat.cast_sub hpage, Nat.cast_one]
  unfold findSortedPage pageOf
  rw [hskip, if_neg (by omega), if_neg (by omega), Int.toNat_ofNat]

/-- A page is sorted, holds at most `pageSize` documents, and holds at each of its
positions the document of the sorted list at that position counted from
`(page - 1) * pageSize`. -/
theorem pageOf_spec {α : Type} (r : α → α → Prop) (all : List α) (page pageSize : Nat)
    (hsorted : all.Sorted r) :
    (pageOf all page pageSize).Sorted r
      ∧ (pageOf all page pageSize).length ≤ pageSize
      ∧ (∀ i, i < pageSize →
          (pageOf all page pageSize)[i]? = all[(page - 1) * pageSize + i]?) := by
  unfold pageOf
  refine ⟨?_, ?_, fun i hi => ?_⟩
  · exact (hsorted.sublist (List.drop_sublist _ _)).sublist (List.take_sublist _ _)
  · rw [List.length_take]
    exact Nat.min_le_left _ _
  · rw [List.getElem?_take_of_lt hi, List.getElem?_drop]

/-- The pages 1 to `n`, one after the other, are the first `n * pageSize` documents. -/
theorem flatten_pageOf {α : Type} (all : List α) (pageSize n : Nat) :
    ((List.range n).map (fun i => pageOf all (i + 1) pageSize)).flatten
      = all.take (n * pageSize) := by
  induction n with
  | zero => simp
  | succ n ih =>
    rw [List.range_succ, List.map_append, List.flatten_append, ih, Nat.succ_mul,
      List.take_add]
    simp [pageOf]

/-- The pages of the sorted documents: each is sorted, holds at most `pageSize`
documents, at the positions from `(page - 1) * pageSize` on, and the pages 1 to `n`
together are the first `n * pageSize` sorted documents, all of them when `n * pageSize`
reaches their number. -/
theorem sortedBy_pages {α : Type} (key : α → Int) (docs : List α) (page pageSize : Nat) :
    (pageOf (sortedBy key docs) page pageSize).Sorted (fun a b => key a ≤ key b)
      ∧ (pageOf (sortedBy key docs) page pageSize).length ≤ pageSize
      ∧ (∀ i, i < pageSize →
          (pageOf (sortedBy key docs) page pageSize)[i]?
            = (sortedBy key docs)[(page - 1) * pageSize + i]?)
      ∧ (∀ n, ((List.range n).map (fun i => pageOf (sortedBy key docs) (i + 1) pageSize)).flatten
            = (sortedBy key docs).take (n * pageSize))
      ∧ (∀ n, docs.length ≤ n * pageSize →
          ((List.range n).map (fun i => pageOf (sortedBy key docs) (i + 1) pageSize)).flatten
            = sortedBy key docs) := by
  obtain ⟨h1, h2, h3⟩ := pageOf_spec _ (sortedBy key docs) page pageSize (sortedBy_spec key docs).1
  refine ⟨h1, h2, h3, fun n => flatten_pageOf _ pageSize n, fun n hn => ?_⟩
  rw [flatten_pageOf]
  apply List.take_of_length_le
  rw [(sortedBy_spec key docs).2.length_eq]
  exact hn

/-- C26: for a page from 1 on and a page size from 1 on, `Player.getPlayers` returns the
page of the players sorted by ascending `serialNo`, that is the players at the positions
`(page - 1) * pageSize` up to `page * pageSize - 1` of the sorted list. The sorted list
holds the players of the collection, each once per record. A page is sorted and holds at
most `pageSize` players, and the pages 1 to `n` one after the other are the first
`n * pageSize` players of the sorted list, the whole list when `n * pageSize` reaches the
number of players. `Leader.getLeaders` does the same by `teamNumber`. -/
theorem getPlayers_getLeaders_pages (env : Env) (st : Store) (page pageSize : Nat)
    (hpage : 1 ≤ page) (hsize : 1 ≤ pageSize)
    (hplayerFind : env.dbFails .playerFind = false)
    (hleaderFind : env.dbFails .leaderFind = false) :
    (Player_getPlayers env st (some page) (some pageSize)
          = .ok (pageOf (sortedBy (fun p => p.serialNo) st.players) page pageSize)
        ∧ (sortedBy (fun p => p.serialNo) st.players).Sorted
            (fun a b => a.serialNo ≤ b.serialNo)
        ∧ (sortedBy (fun p => p.serialNo) st.players).Perm st.players
        ∧ (pageOf (sortedBy (fun p => p.serialNo) st.players) page pageSize).Sorted
            (fun a b => a.serialNo ≤ b.serialNo)
        ∧ (pageOf (sortedBy (fun p => p.serialNo) st.players) page pageSize).length ≤ pageSize
        ∧ (∀ i, i < pageSize →
            (pageOf (sortedBy (fun p => p.serialNo) st.players) page pageSize)[i]?
              = (sortedBy (fun p => p.serialNo) st.players)[(page - 1) * pageSize + i]?)
        ∧ (∀ n, ((List.range n).map
                  (fun i => pageOf (sortedBy (fun p => p.serialNo) st.players) (i + 1)
                    pageSize)).flatten
              = (sortedBy (fun p => p.serialNo) st.players).take (n * pageSize))
        ∧ (∀ n, st.players.length ≤ n * pageSize →
            ((List.range n).map
                  (fun i => pageOf (sortedBy (fun p => p.serialNo) st.players) (i + 1)
                    pageSize)).flatten
              = sortedBy (fun p => p.serialNo) st.players))
      ∧ (Leader_getLeaders env st (some page) (some pageSize)
          = .ok (pageOf (sortedBy (fun l => l.teamNumber) st.leaders) page pageSize)
        ∧ (sortedBy (fun l => l.teamNumber) st.leaders).Sorted
            (fun a b => a.teamNumber ≤ b.teamNumber)
        ∧ (sortedBy (fun l => l.teamNumber) st.leaders).Perm st.leaders
        ∧ (pageOf (sortedBy (fun l => l.teamNumber) st.leaders) page pageSize).Sorted
            (fun a b => a.teamNumber ≤ b.teamNumber)
        ∧ (pageOf (sortedBy (fun l => l.teamNumber) st.leaders) page pageSize).length
            ≤ pageSize
        ∧ (∀ i, i < pageSize →
            (pageOf (sortedBy (fun l => l.teamNumber) st.leaders) page pageSize)[i]?
              = (sortedBy (fun l => l.teamNumber) st.leaders)[(page - 1) * pageSize + i]?)
        ∧ (∀ n, ((List.range n).map
                  (fun i => pageOf (sortedBy (fun l => l.teamNumber) st.leaders) (i + 1)
                    pageSize)).flatten
              = (sortedBy (fun l => l.teamNumber) st.leaders).take (n * pageSize))
        ∧ (∀ n, st.leaders.length ≤ n * pageSize →
            ((List.range n).map
                  (fun i => pageOf (sortedBy (fun l => l.teamNumber) st.leaders) (i + 1)
                    pageSize)).flatten
              = sortedBy (fun l => l.teamNumber) st.leaders)) := by
  refine ⟨⟨?_, (sortedBy_spec _ _).1, (sortedBy_spec _ _).2,
      sortedBy_pages (fun p : PlayerDoc => p.serialNo) st.players page pageSize⟩,
    ⟨?_, (sortedBy_spec _ _).1, (sortedBy_spec _ _).2,
      sortedBy_pages (fun l : LeaderDoc => l.teamNumber) st.leaders page pageSize⟩⟩
  · unfold Player_getPlayers
    rw [hplayerFind]
    exact findSortedPage_page _ _ hpage hsize
  · unfold Leader_getLeaders
    rw [hleaderFind]
    exact findSortedPage_page _ _ hpage hsize

/-- C26, on three players inserted with the serial numbers 3, 1 and 2: the first page of
size 2 holds the players with the serial numbers 1 and 2, the second the player with the
serial number 3. -/
theorem getPlayers_getLeaders_pages_witness :
    (Player_getPlayers Demo.env Demo.storeThree (some 1) (some 2)).toOption.map
        (fun page => page.map (fun p => p.serialNo)) = some [1, 2]
      ∧ (Player_getPlayers Demo.env Demo.storeThree (some 2) (some 2)).toOption.map
          (fun page => page.map (fun p => p.serialNo)) = some [3]
      ∧ Player_getPlayers Demo.env Demo.storeThree (some 2) (some 2)
          = .ok (pageOf (sortedBy (fun p => p.serialNo) Demo.storeThree.players) 2 2) :=
  ⟨by decide, by decide,
   (getPlayers_getLeaders_pages Demo.env Demo.storeThree 2 2 (by decide) (by decide)
      rfl rfl).1.1⟩

/-! ## Claims about the object names of upload and delete -/

/-- The search for `/o/` passes a character that is not `/`. -/
theorem matchObjectPath_cons_ne (c : Char) (rest : List Char) (h : c ≠ '/') :
    matchObjectPath (c :: rest) = matchObjectPath rest := by
  rw [matchObjectPath]
  intro tail hc _
  exact h hc

/-- The search for `/o/` passes a `/` that is not followed by `o`. -/
theorem matchObjectPath_slash_ne (c : Char) (rest : List Char) (h : c ≠ 'o') :
    matchObjectPath ('/' :: c :: rest) = matchObjectPath (c :: rest) := by
  rw [matchObjectPath]
  intro tail _ heq
  simp only [List.cons.injEq] at heq
  exact h heq.1

/-- The search for `/o/` passes `/o` that is not followed by `/`. -/
theorem matchObjectPath_slash_o_ne (c : Char) (rest : List Char) (h : c ≠ '/') :
    matchObjectPath ('/' :: 'o' :: c :: rest) = matchObjectPath ('o' :: c :: rest) := by
  rw [matchObjectPath]
  intro tail _ heq
  simp only [List.cons.injEq, true_and] at heq
  exact h heq.1

/-- The search for `/o/` stops at `/o/` when the text after it has a `?` with no line
terminator before it. -/
theorem matchObjectPath_hit (tail captured : List Char)
    (h : lazyUpToQuestionMark tail = some captured) :
    matchObjectPath ('/' :: 'o' :: '/' :: tail) = some captured := by
  rw [matchObjectPath]
  simp only [h]

/-- The search for `/o/` passes a text without `/` that is followed by `/`. -/
theorem matchObjectPath_append (b rest : List Char) (h : '/' ∉ b) :
    matchObjectPath (b ++ '/' :: rest) = matchObjectPath ('/' :: rest) := by
  induction b with
  | nil => rfl
  | cons c b ih =>
    rw [List.mem_cons, not_or] at h
    rw [List.cons_append, matchObjectPath_cons_ne c _ (fun hc => h.1 hc.symm), ih h.2]

/-- The group `(.*?)` takes a text without `?` and without line terminator that is
followed by `?`. -/
theorem lazyUpToQuestionMark_append (enc rest : List Char)
    (h : ∀ c ∈ enc, c ≠ '?' ∧ isLineTerminator c = false) :
    lazyUpToQuestionMark (enc ++ '?' :: rest) = some enc := by
  induction enc with
  | nil => simp [lazyUpToQuestionMark]
  | cons c enc ih =>
    have hc := h c (List.mem_cons_self _ _)
    have ih2 := ih (fun d hd => h d (List.mem_cons_of_mem _ hd))
    simp [lazyUpToQuestionMark, hc.1, hc.2, ih2]

/-- The search for `/o/` passes a text in which, `/o` added, `/o/` does not occur, and
stops at the `/o/` that follows it. -/
theorem matchObjectPath_first (l tail : List Char)
    (h : ¬ List.IsInfix ['/', 'o', '/'] (l ++ ['/', 'o'])) :
    matchObjectPath (l ++ '/' :: 'o' :: '/' :: tail)
      = matchObjectPath ('/' :: 'o' :: '/' :: tail) := by
  induction l with
  | nil => rfl
  | cons c l ih =>
    have h2 : ¬ List.IsInfix ['/', 'o', '/'] (l ++ ['/', 'o']) :=
      fun hin => h (List.infix_cons hin)
    rw [← ih h2]
    by_cases hc : c = '/'
    · subst hc
      cases l with
      | nil => exact matchObjectPath_slash_ne '/' _ (by decide)
      | cons d l =>
        by_cases hd : d = 'o'
        · subst hd
          cases l with
          | nil => exact absurd ⟨[], ['o'], rfl⟩ h
          | cons e l =>
            by_cases he : e = '/'
            · subst he
              exact absurd ⟨[], l ++ ['/', 'o'], rfl⟩ h
            · exact matchObjectPath_slash_o_ne e _ he
        · exact matchObjectPath_slash_ne d _ hd
    · exact matchObjectPath_cons_ne c _ hc

/-- The text `/o/` does not occur in a text without `/` to which `/o` is added. -/
theorem not_infix_of_no_slash (l : List Char) (h : '/' ∉ l) :
    ¬ List.IsInfix ['/', 'o', '/'] (l ++ ['/', 'o']) := by
  rintro ⟨pre, post, heq⟩
  have h1 := congrArg (List.count '/') heq
  simp only [List.count_append, List.count_eq_zero_of_not_mem h] at h1
  have h2 : List.count '/' ['/', 'o', '/'] = 2 := by decide
  have h3 : List.count '/' ['/', 'o'] = 1 := by decide
  omega

/-- When `/o/` occurs in the text `/` ++ bucket name ++ `/o`, the name of the bucket
has a `/` or is `o`: it does not occur for a name of three characters or more without
`/`. -/
theorem infix_of_bucketName (bucketName : List Char)
    (h : List.IsInfix ['/', 'o', '/'] ('/' :: bucketName ++ ['/', 'o'])) :
    '/' ∈ bucketName ∨ bucketName = ['o'] := by
  by_cases hslash : '/' ∈ bucketName
  · exact Or.inl hslash
  · right
    rw [List.cons_append, List.infix_cons_iff] at h
    rcases h with h | h
    · cases bucketName with
      | nil =>
        rw [List.nil_append, List.cons_prefix_cons, List.cons_prefix_cons] at h
        exact absurd h.2.1 (by decide)
      | cons d b =>
        rw [List.mem_cons, not_or] at hslash
        rw [List.cons_append, List.cons_prefix_cons, List.cons_prefix_cons] at h
        obtain ⟨_, hd, hrest⟩ := h
        cases b with
        | nil => rw [← hd]
        | cons e b =>
          rw [List.mem_cons, not_or] at hslash
          rw [List.cons_append, List.cons_prefix_cons] at hrest
          exact absurd hrest.1 hslash.2.1
    · exact absurd h (not_infix_of_no_slash bucketName hslash)

/-- The search for `/o/` in a URL of `uploadToFirebase` stops at the `/o/` that follows
the name of the bucket and takes the encoded object name, when `/o/` does not occur in
the text `/` ++ bucket name ++ `/o`. -/
theorem matchObjectPath_url (bucketName enc : List Char) (rest : List Char)
    (hfirst : ¬ List.IsInfix ['/', 'o', '/'] ('/' :: bucketName ++ ['/', 'o']))
    (henc : ∀ c ∈ enc, c ≠ '?' ∧ isLineTerminator c = false) :
    matchObjectPath ("https://firebasestorage.googleapis.com/v0/b/".toList ++ bucketName
        ++ "/o/".toList ++ enc ++ '?' :: rest) = some enc := by
  have hsep : "/o/".toList = ['/', 'o', '/'] := by decide
  have hhit : matchObjectPath ('/' :: 'o' :: '/' :: (enc ++ '?' :: rest)) = some enc :=
    matchObjectPath_hit _ _ (lazyUpToQuestionMark_append enc rest henc)
  have hbucket : matchObjectPath (('/' :: bucketName) ++ '/' :: 'o' :: '/' :: (enc ++ '?' :: rest))
      = some enc := by
    rw [matchObjectPath_first _ _ hfirst]
    exact hhit
  have hshape : "https://firebasestorage.googleapis.com/v0/b/".toList ++ bucketName
        ++ "/o/".toList ++ enc ++ '?' :: rest
      = 'h' :: 't' :: 't' :: 'p' :: 's' :: ':' :: '/' :: '/' :: 'f' :: 'i' :: 'r' :: 'e'
        :: 'b' :: 'a' :: 's' :: 'e' :: 's' :: 't' :: 'o' :: 'r' :: 'a' :: 'g' :: 'e' :: '.'
        :: 'g' :: 'o' :: 'o' :: 'g' :: 'l' :: 'e' :: 'a' :: 'p' :: 'i' :: 's' :: '.' :: 'c'
        :: 'o' :: 'm' :: '/' :: 'v' :: '0' :: '/' :: 'b'
        :: (('/' :: bucketName) ++ '/' :: 'o' :: '/' :: (enc ++ '?' :: rest)) := by
    have hhost : "https://firebasestorage.googleapis.com/v0/b/".toList
        = ['h', 't', 't', 'p', 's', ':', '/', '/', 'f', 'i', 'r', 'e', 'b', 'a', 's', 'e', 's',
           't', 'o', 'r', 'a', 'g', 'e', '.', 'g', 'o', 'o', 'g', 'l', 'e', 'a', 'p', 'i', 's',
           '.', 'c', 'o', 'm', '/', 'v', '0', '/', 'b', '/'] := by decide
    rw [hhost, hsep]
    simp only [List.append_assoc, List.cons_append, List.nil_append]
  rw [hshape]
  simp (disch := decide) only [matchObjectPath_cons_ne, matchObjectPath_slash_ne]
  exact hbucket

/-- The object name `deleteFromFirebase` derives from a URL of `uploadToFirebase` is the
name under which the object was stored, when `/o/` does not occur in the text
`/` ++ bucket name ++ `/o` and `encodeURIComponent` and `decodeURIComponent` carry the
stored name there and back. -/
theorem objectNameOf_uploadUrl (env : Env) (name : String)
    (hfirst : ¬ List.IsInfix ['/', 'o', '/'] ('/' :: env.bucketName.toList ++ ['/', 'o']))
    (henc : ∀ c ∈ (env.encodeURIComponent name).toList, c ≠ '?' ∧ isLineTerminator c = false)
    (hdec : env.decodeURIComponent (env.encodeURIComponent name) = some name) :
    objectNameOf env ("https://firebasestorage.googleapis.com/v0/b/" ++ env.bucketName ++ "/o/"
        ++ env.encodeURIComponent name ++ "?alt=media") = some name := by
  unfold objectNameOf
  simp only [String.toList, String.data_append]
  have hm := matchObjectPath_url env.bucketName.toList (env.encodeURIComponent name).toList
    "alt=media".toList hfirst henc
  simp only [String.toList] at hm
  rw [hm]
  exact hdec

/-- The condition on the name of the bucket is needed. A bucket with the name `o`, a
name Cloud Storage does not admit, would give the URL
`.../v0/b/o/o/players%2F1-x.png?alt=media`, the first `/o/` of which ends the name of the
bucket: `deleteFromFirebase` would derive the name `o/players/1-x.png`, not the name
`players/1-x.png` of the stored object, and leave the object in the bucket. -/
theorem delete_misses_object_of_bucket_o :
    Demo.envBucketO.bucketName = "o"
      ∧ uploadToFirebase Demo.envBucketO Store.empty (some Demo.photoFile) "players"
          = .ok (some "https://firebasestorage.googleapis.com/v0/b/o/o/players%2F1-x.png?alt=media",
                 { Store.empty with bucket := ["players/1-x.png"],
                                    bucketCalls := [.save "players/1-x.png"] })
      ∧ objectNameOf Demo.envBucketO
            "https://firebasestorage.googleapis.com/v0/b/o/o/players%2F1-x.png?alt=media"
          = some "o/players/1-x.png"
      ∧ deleteFromFirebase Demo.envBucketO
            { Store.empty with bucket := ["players/1-x.png"],
                               bucketCalls := [.save "players/1-x.png"] }
            (.prim (.str
              "https://firebasestorage.googleapis.com/v0/b/o/o/players%2F1-x.png?alt=media"))
          = { Store.empty with bucket := ["players/1-x.png"],
                               bucketCalls := [.save "players/1-x.png",
                                               .delete "o/players/1-x.png"] } := by
  refine ⟨rfl, rfl, by decide, by decide⟩

/-- C28: for a bucket name such that `/o/` does not occur in the text
`/` ++ bucket name ++ `/o` (the name has no `/o/` in it, does not begin with `o/`, does
not end with `/o` and is not `o`, as is the case of every name without `/` of three
characters or more), and a file whose stored name `encodeURIComponent` turns into a text
without `?` and without line terminator that `decodeURIComponent` turns back into the
stored name, `uploadToFirebase` (when the save does not fail) stores the object and
returns a URL from which `deleteFromFirebase` derives the name of the stored object: the
delete call it makes is for that object, and the object is gone when the delete does not
fail. -/
theorem delete_derives_uploaded_name (env : Env) (st : Store) (file : UploadedFile)
    (folder : String)
    (hfirst : ¬ List.IsInfix ['/', 'o', '/'] ('/' :: env.bucketName.toList ++ ['/', 'o']))
    (henc : ∀ c ∈ (env.encodeURIComponent (uploadObjectName env file folder)).toList,
      c ≠ '?' ∧ isLineTerminator c = false)
    (hdec : env.decodeURIComponent (env.encodeURIComponent (uploadObjectName env file folder))
      = some (uploadObjectName env file folder))
    (hsave : env.bucketSaveFails = false) :
    ∃ url st1,
      uploadToFirebase env st (some file) folder = .ok (some url, st1)
        ∧ st1.bucket = st.bucket ++ [uploadObjectName env file folder]
        ∧ objectNameOf env url = some (uploadObjectName env file folder)
        ∧ (deleteFromFirebase env st1 (.prim (.str url))).bucketCalls
            = st1.bucketCalls ++ [.delete (uploadObjectName env file folder)]
        ∧ (env.bucketDeleteFails = false →
            uploadObjectName env file folder
              ∉ (deleteFromFirebase env st1 (.prim (.str url))).bucket) := by
  have hname := objectNameOf_uploadUrl env (uploadObjectName env file folder) hfirst henc hdec
  have hne : "https://firebasestorage.googleapis.com/v0/b/" ++ env.bucketName ++ "/o/"
      ++ env.encodeURIComponent (uploadObjectName env file folder) ++ "?alt=media" ≠ "" := by
    intro h
    have h2 := congrArg String.length h
    simp only [String.length_append] at h2
    have h3 : "?alt=media".length = 10 := by decide
    have h4 : "".length = 0 := by decide
    omega
  have hrel : ∀ s : Store, releaseIfSet env s (some ("https://firebasestorage.googleapis.com/v0/b/"
      ++ env.bucketName ++ "/o/" ++ env.encodeURIComponent (uploadObjectName env file folder)
      ++ "?alt=media"))
      = deleteFromFirebase env s (.prim (.str ("https://firebasestorage.googleapis.com/v0/b/"
      ++ env.bucketName ++ "/o/" ++ env.encodeURIComponent (uploadObjectName env file folder)
      ++ "?alt=media"))) := by
    intro s
    unfold releaseIfSet
    simp [ofOptString, JVal.truthy, Prim.truthy, hne]
  refine ⟨"https://firebasestorage.googleapis.com/v0/b/" ++ env.bucketName ++ "/o/"
      ++ env.encodeURIComponent (uploadObjectName env file folder) ++ "?alt=media",
    { st with bucket := st.bucket ++ [uploadObjectName env file folder],
              bucketCalls := st.bucketCalls ++ [.save (uploadObjectName env file folder)] },
    ?_, rfl, hname, ?_⟩
  · unfold uploadToFirebase
    simp only [hsave, Bool.false_eq_true, if_false]
  · rw [← hrel]
    exact releaseIfSet_calls hne hname

/-- C28, for the bucket `bucket` and the photo `x.png` uploaded at the time 1: the name
derived from the returned URL is `players/1-x.png`, under which the photo is stored. -/
theorem delete_derives_uploaded_name_witness :
    ∃ url st1,
      uploadToFirebase Demo.envEncoded Store.empty (some Demo.photoFile) "players"
          = .ok (some url, st1)
        ∧ st1.bucket = Store.empty.bucket ++ ["players/1-x.png"]
        ∧ objectNameOf Demo.envEncoded url = some "players/1-x.png"
        ∧ (deleteFromFirebase Demo.envEncoded st1 (.prim (.str url))).bucketCalls
            = st1.bucketCalls ++ [.delete "players/1-x.png"]
        ∧ (Demo.envEncoded.bucketDeleteFails = false →
            "players/1-x.png" ∉ (deleteFromFirebase Demo.envEncoded st1
              (.prim (.str url))).bucket) :=
  delete_derives_uploaded_name Demo.envEncoded Store.empty Demo.photoFile "players"
    (by decide) (by decide) rfl rfl

/-! ## Claims about sale submissions whose `_id` fields hold objects -/

/-- Truthiness of a value does not depend on the type it is read in. -/
theorem JVal.deep_truthy (v : JVal) : v.deep.truthy = v.truthy := by
  cases v <;> rfl

/-- A property read does not depend on the type the value is read in. -/
theorem JVal.deep_get (v : JVal) (key : String) : v.deep.get key = v.get key := by
  cases v with
  | undefined => rfl
  | prim p => rfl
  | obj fields =>
    simp only [JVal.deep, JDeep.get, JVal.get]
    induction fields with
    | nil => rfl
    | cons kv rest ih =>
      obtain ⟨k, p⟩ := kv
      simp only [List.map_cons, List.lookup]
      cases (key == k) with
      | true => rfl
      | false => exact ih

/-- On a body whose fields are scalars the handler on bodies with nested objects is the
handler on bodies of scalars. -/
theorem soldPlayerRoutes_postDeep_deep (env : Env) (st : Store) (body : SaleBody) :
    soldPlayerRoutes_postDeep env st body.deep = soldPlayerRoutes_post env st body := by
  have hraw : rawSoldPlayerOfDeep body.deep = rawSoldPlayerOf body := by
    simp [rawSoldPlayerOfDeep, rawSoldPlayerOf, SaleBody.deep, JVal.deep_get]
  unfold soldPlayerRoutes_postDeep soldPlayerRoutes_post
  rw [hraw, SoldPlayer_save_of_ids]
  simp only [SaleBody.deep, JVal.deep_truthy, JVal.deep_get]

/-- The object the sale route pushes onto `players` has no `_id`, so the push fails its
cast, whatever the submission. -/
theorem Leader_findByIdAndUpdate_pushDeep_error (env : Env) (st : Store) (id : JVal)
    (body : SaleBodyDeep) :
    Leader_findByIdAndUpdate_pushDeep env st id (rosterEntryOfDeep body)
      = .error "Cast failed for Leader" := by
  have hcast : leaderSchema_castPlayersElemDeep (rosterEntryOfDeep body)
      = .error "Cast to [ObjectId] failed at path players" := by
    simp [leaderSchema_castPlayersElemDeep, rosterEntryOfDeep, List.lookup]
  unfold Leader_findByIdAndUpdate_pushDeep
  rw [hcast]
  split <;> simp_all

/-- The updates of the sale route after the insert write no `status` and keep the
ledger. -/
theorem soldPlayerRoutes_post_afterSaveDeep_status (env : Env) (st : Store)
    (body : SaleBodyDeep) (soldPlayer : SoldPlayerDoc) :
    (soldPlayerRoutes_post_afterSaveDeep env st body soldPlayer).1.status = 500
      ∧ (soldPlayerRoutes_post_afterSaveDeep env st body soldPlayer).2.players.map
          (fun p => p.status) = st.players.map (fun p => p.status)
      ∧ (soldPlayerRoutes_post_afterSaveDeep env st body soldPlayer).2.soldPlayers
          = st.soldPlayers := by
  have hp : ∀ st1, Player_findByIdAndUpdate_set env st (body.player.get "_id")
      (saleSetOfDeep body) = .ok st1 →
      st1.players.map (fun p => p.status) = st.players.map (fun p => p.status)
        ∧ st1.soldPlayers = st.soldPlayers := by
    intro st1 h1
    unfold Player_findByIdAndUpdate_set at h1
    split at h1
    · rename_i pid update hpid hupdate
      split at h1
      · cases h1
      · cases h1
        refine ⟨?_, rfl⟩
        unfold playerSchema_castSaleSet at hupdate
        split at hupdate
        · cases hupdate
          show List.map (fun p => p.status) (updateFirst _ _ st.players) = _
          exact map_updateFirst _ _ _ _ (fun _ => rfl)
        · cases hupdate
    · cases h1
  unfold soldPlayerRoutes_post_afterSaveDeep
  cases h1 : Player_findByIdAndUpdate_set env st (body.player.get "_id")
      (saleSetOfDeep body) with
  | error e => exact ⟨rfl, rfl, rfl⟩
  | ok st1 =>
    dsimp only
    rw [Leader_findByIdAndUpdate_pushDeep_error]
    exact ⟨rfl, (hp st1 h1).1, (hp st1 h1).2⟩

/-- A successful insert into the ledger leaves the players as they were. -/
theorem SoldPlayer_save_players {env : Env} {st st1 : Store} {raw : RawSoldPlayer}
    {e : SoldPlayerDoc} (h : SoldPlayer_save env st raw = .ok (e, st1)) :
    st1.players = st.players := by
  unfold SoldPlayer_save at h
  split at h
  · cases h
  · split at h
    · cases h
    · cases h; rfl

/-- The sale route, whatever the submission, is answered neither with 201 nor with
'Player is already sold', and writes no `status`. -/
theorem soldPlayerRoutes_postDeep_status (env : Env) (st : Store) (body : SaleBodyDeep) :
    (soldPlayerRoutes_postDeep env st body).1.status ≠ 201
      ∧ (soldPlayerRoutes_postDeep env st body).1
          ≠ { status := 400, body := .message "Player is already sold" }
      ∧ (soldPlayerRoutes_postDeep env st body).2.players.map (fun p => p.status)
          = st.players.map (fun p => p.status) := by
  unfold soldPlayerRoutes_postDeep
  split
  · exact ⟨by simp, by simp, rfl⟩
  · rcases SoldPlayer_findOne_none env st (body.player.get "_id") with hq | hq
    · rw [hq]
      exact ⟨by simp [saleServerError], by simp [saleServerError], rfl⟩
    · rw [hq]
      dsimp only
      cases hs : SoldPlayer_save env st (rawSoldPlayerOfDeep body) with
      | error e => exact ⟨by simp [saleServerError], by simp [saleServerError], rfl⟩
      | ok r =>
        obtain ⟨soldPlayer, st1⟩ := r
        obtain ⟨h1, h2, _⟩ := soldPlayerRoutes_post_afterSaveDeep_status env st1 body soldPlayer
        dsimp only
        refine ⟨by rw [h1]; decide, ?_, ?_⟩
        · intro heq
          rw [heq] at h1
          exact absurd h1 (by decide)
        · rw [h2, SoldPlayer_save_players hs]

/-- C2, evaluated on the code: the check of the sale route finds no previous sale,
whatever the ledger holds and whatever the submission, so no submission is answered with
'Player is already sold'. From the empty store, two submissions of the sale of one player
whose `player._id`, `team._id` and `leader._id` hold the objects soldPlayerSchema asks
for each insert a ledger entry (and are answered with 500, the update of the player
failing the cast of its id): the ledger ends with two entries for one player id. -/
theorem duplicate_sale_stored_for_one_player (env : Env) (st : Store)
    (body : SaleBodyDeep) :
    (soldPlayerRoutes_postDeep env st body).1
        ≠ { status := 400, body := .message "Player is already sold" }
      ∧ Store.empty.soldPlayers = []
      ∧ (soldPlayerRoutes_postDeep Demo.envSale1 Store.empty Demo.saleBodySnapshots).1
          = saleServerError "Cast failed for Player"
      ∧ (soldPlayerRoutes_postDeep Demo.envSale2
            (soldPlayerRoutes_postDeep Demo.envSale1 Store.empty Demo.saleBodySnapshots).2
            Demo.saleBodySnapshots).1
          = saleServerError "Cast failed for Player"
      ∧ (soldPlayerRoutes_postDeep Demo.envSale2
            (soldPlayerRoutes_postDeep Demo.envSale1 Store.empty Demo.saleBodySnapshots).2
            Demo.saleBodySnapshots).2.soldPlayers.map (fun d => (d._id, d.player.id))
          = [("65a0000000000000000000a1", Demo.playerId),
             ("65a0000000000000000000a2", Demo.playerId)]
      ∧ ¬ atMostOneSalePerPlayer
            (soldPlayerRoutes_postDeep Demo.envSale2
              (soldPlayerRoutes_postDeep Demo.envSale1 Store.empty Demo.saleBodySnapshots).2
              Demo.saleBodySnapshots).2 := by
  refine ⟨(soldPlayerRoutes_postDeep_status env st body).2.1, rfl, by decide, by decide,
    by decide, ?_⟩
  unfold atMostOneSalePerPlayer
  decide

/-- C7, evaluated on the code: the sale route writes the `status` of no player, whatever
the submission. From the store reached by the admin creation of player `X`, a submission
of the sale of `X` whose `player._id` and `team._id` hold the objects soldPlayerSchema
asks for, with the `_id` of the record, inserts the ledger entry of `X` and sets `soldTo`
of `X` to the id of the team (and is answered with 500, the push onto the roster failing
its cast): the ledger holds an entry for `X` and `soldTo` is set, while the status of `X`
is 'Available', not 'Sold'. -/
theorem sale_sets_soldTo_without_status (env : Env) (st : Store) (body : SaleBodyDeep) :
    (soldPlayerRoutes_postDeep env st body).2.players.map (fun p => p.status)
        = st.players.map (fun p => p.status)
      ∧ Demo.storeCreated.players = [Demo.createdX]
      ∧ Demo.storeCreated.soldPlayers = []
      ∧ (soldPlayerRoutes_postDeep Demo.envSale1 Demo.storeCreated
            Demo.saleBodySnapshotsWithId).1
          = saleServerError "Cast failed for Leader"
      ∧ (soldPlayerRoutes_postDeep Demo.envSale1 Demo.storeCreated
            Demo.saleBodySnapshotsWithId).2.players
          = [{ Demo.createdX with
               isSold := true, soldTo := some Demo.teamId, teamName := some "Lions" }]
      ∧ (soldPlayerRoutes_postDeep Demo.envSale1 Demo.storeCreated
            Demo.saleBodySnapshotsWithId).2.soldPlayers.map (fun d => d.player.id)
          = [Demo.playerId]
      ∧ (∃ p ∈ (soldPlayerRoutes_postDeep Demo.envSale1 Demo.storeCreated
                  Demo.saleBodySnapshotsWithId).2.players,
          p._id = Demo.playerId ∧ p.status = "Available" ∧ p.soldTo = some Demo.teamId
            ∧ hasSale (soldPlayerRoutes_postDeep Demo.envSale1 Demo.storeCreated
                  Demo.saleBodySnapshotsWithId).2 p._id
            ∧ ¬ (p.status = "Sold"
                  ↔ (hasSale (soldPlayerRoutes_postDeep Demo.envSale1 Demo.storeCreated
                        Demo.saleBodySnapshotsWithId).2 p._id
                      ∧ p.soldTo ≠ none))) := by
  have hplayers : (soldPlayerRoutes_postDeep Demo.envSale1 Demo.storeCreated
      Demo.saleBodySnapshotsWithId).2.players
      = [{ Demo.createdX with
           isSold := true, soldTo := some Demo.teamId, teamName := some "Lions" }] := by decide
  have hledger : (soldPlayerRoutes_postDeep Demo.envSale1 Demo.storeCreated
      Demo.saleBodySnapshotsWithId).2.soldPlayers.map (fun d => d.player.id)
      = [Demo.playerId] := by
    decide
  have hsale : hasSale (soldPlayerRoutes_postDeep Demo.envSale1 Demo.storeCreated
      Demo.saleBodySnapshotsWithId).2 Demo.playerId := by
    unfold hasSale
    have hmem : Demo.playerId ∈ (soldPlayerRoutes_postDeep Demo.envSale1 Demo.storeCreated
        Demo.saleBodySnapshotsWithId).2.soldPlayers.map (fun d => d.player.id) := by
      rw [hledger]
      exact List.mem_singleton.mpr rfl
    obtain ⟨d, hd, hid⟩ := List.mem_map.mp hmem
    exact ⟨d, hd, hid⟩
  refine ⟨(soldPlayerRoutes_postDeep_status env st body).2.2, by decide, by decide, by decide,
    hplayers, hledger, ?_⟩
  refine ⟨{ Demo.createdX with
            isSold := true, soldTo := some Demo.teamId, teamName := some "Lions" }, ?_, rfl, rfl,
    rfl, hsale, ?_⟩
  · rw [hplayers]
    exact List.mem_singleton.mpr rfl
  · intro hiff
    have hsold := hiff.mpr ⟨hsale, by decide⟩
    exact absurd hsold (by decide)

end Auction
